import Mathlib

/-!
# ATMEL DataFlash driver (`src/lib/dfmem.c`)

A shallow embedding of the DataFlash driver: geometry table, the three-byte
address encoding, the raw buffer / page operations, the sequential write cache
(`dfmemSave`, `dfmemSync`), the bulk erase planner
(`dfMemEraseSectorsForSamples`), the sample read (`dfmemReadSample`) and the
chip identification (`dfmemGetChipSize`, `dfmemGeometrySetup`, `dfmemSetup`).

Conventions of the embedding.

* The target is a dsPIC33F: `unsigned char` is 8 bits, `unsigned int` and
  `int` are 16 bits, `unsigned long` is 32 bits.  Values are naturals and
  every place where the C arithmetic can wrap carries an explicit `%`.
* The static variables of the driver and the SPI bus form one record,
  `Dfmem`.  Every chip-select edge and every byte exchange is appended to
  `trace`, oldest event first.
* The flash chip is an external device.  It is represented by a function
  `chip : Nat → Nat`; `chip k` is the byte shifted out by the chip during the
  `k`-th byte exchange since power-up, and `clock` counts the exchanges done.
  The hardware flag polling inside `dfmemExchangeByte` is taken to complete.
* `while(!dfmemIsReady());` is unbounded in the source.  The embedding bounds
  the number of polls by `fuel` and returns `none` when the chip has not
  reported ready within `fuel` polls.  `none` is also the result of a
  division by zero and of a signed overflow of the loop counter.
-/

namespace Octoroach

/-! ## Data model -/

/-- One observable action on the SPI bus. -/
inductive BusEvent where
  | select : BusEvent
  | deselect : BusEvent
  | xfer (mosi miso : Nat) : BusEvent
  deriving DecidableEq, Repr

/-- The eight geometry variables `dfmem_*` of the driver. -/
structure Geometry where
  dfmem_byte_address_bits : Nat
  dfmem_max_sector : Nat
  dfmem_max_pages : Nat
  dfmem_buffersize : Nat
  dfmem_bytes_per_page : Nat
  dfmem_pages_per_block : Nat
  dfmem_blocks_per_sector : Nat
  dfmem_pages_per_sector : Nat
  deriving DecidableEq, Repr

/-- The driver state: geometry, the three place keepers of the write cache,
the `MemAddr` union (as its 32-bit `address` member), the `LED_2` latch, and
the bus (exchange counter and event log). -/
structure Dfmem where
  geom : Geometry
  currentBuffer : Nat
  currentBufferOffset : Nat
  nextPage : Nat
  MemAddr : Nat
  LED_2 : Nat
  clock : Nat
  trace : List BusEvent
  deriving DecidableEq, Repr

/-! ## Command bytes -/

def WRITE_PAGE_VIA_BUFFER1 : Nat := 0x82
def WRITE_PAGE_VIA_BUFFER2 : Nat := 0x85
def WRITE_TO_BUFFER1 : Nat := 0x84
def WRITE_TO_BUFFER2 : Nat := 0x87
def WRITE_BUFFER1_TO_PAGE_NO_ERASE : Nat := 0x88
def WRITE_BUFFER2_TO_PAGE_NO_ERASE : Nat := 0x89
def READ_PAGE : Nat := 0xD2
def ERASE_PAGE : Nat := 0x81
def ERASE_BLOCK : Nat := 0x50
def ERASE_SECTOR : Nat := 0x7C

/-! ## Geometry table -/

def DFMEM_8MBIT : Nat := 0b00101
def DFMEM_16MBIT : Nat := 0b00110
def DFMEM_32MBIT : Nat := 0b00111
def DFMEM_64MBIT : Nat := 0b01000

/-- The `FLASH_8MBIT_*` row. -/
def FLASH_8MBIT : Geometry :=
  { dfmem_max_sector := 16, dfmem_max_pages := 4096, dfmem_buffersize := 264,
    dfmem_bytes_per_page := 264, dfmem_pages_per_block := 8,
    dfmem_blocks_per_sector := 32, dfmem_pages_per_sector := 256,
    dfmem_byte_address_bits := 9 }

/-- The `FLASH_16MBIT_*` row. -/
def FLASH_16MBIT : Geometry :=
  { dfmem_max_sector := 16, dfmem_max_pages := 4096, dfmem_buffersize := 528,
    dfmem_bytes_per_page := 528, dfmem_pages_per_block := 8,
    dfmem_blocks_per_sector := 32, dfmem_pages_per_sector := 256,
    dfmem_byte_address_bits := 10 }

/-- The `FLASH_32MBIT_*` row. -/
def FLASH_32MBIT : Geometry :=
  { dfmem_max_sector := 64, dfmem_max_pages := 8192, dfmem_buffersize := 528,
    dfmem_bytes_per_page := 528, dfmem_pages_per_block := 8,
    dfmem_blocks_per_sector := 16, dfmem_pages_per_sector := 128,
    dfmem_byte_address_bits := 10 }

/-- The `FLASH_64MBIT_*` row. -/
def FLASH_64MBIT : Geometry :=
  { dfmem_max_sector := 32, dfmem_max_pages := 8192, dfmem_buffersize := 1056,
    dfmem_bytes_per_page := 1056, dfmem_pages_per_block := 8,
    dfmem_blocks_per_sector := 32, dfmem_pages_per_sector := 256,
    dfmem_byte_address_bits := 11 }

/-- The geometries that `dfmemGeometrySetup` can install: the four rows of
its `switch`. -/
def Detected (g : Geometry) : Prop :=
  g = FLASH_8MBIT ∨ g = FLASH_16MBIT ∨ g = FLASH_32MBIT ∨ g = FLASH_64MBIT

instance (g : Geometry) : Decidable (Detected g) := by
  unfold Detected
  infer_instance

/-! ## Byte transport -/

/-- Chip select asserted: `SPI_CS = 0`. -/
def dfmemSelectChip (s : Dfmem) : Dfmem :=
  { s with trace := s.trace ++ [BusEvent.select] }

/-- Chip select released: `SPI_CS = 1`. -/
def dfmemDeselectChip (s : Dfmem) : Dfmem :=
  { s with trace := s.trace ++ [BusEvent.deselect] }

/-- One full-duplex byte exchange; returns the byte received. -/
def dfmemExchangeByte (chip : Nat → Nat) (byte : Nat) (s : Dfmem) : Nat × Dfmem :=
  (chip s.clock % 256,
   { s with clock := s.clock + 1,
            trace := s.trace ++ [BusEvent.xfer byte (chip s.clock % 256)] })

/-- Send a byte, discarding the byte received. -/
def dfmemWriteByte (chip : Nat → Nat) (byte : Nat) (s : Dfmem) : Dfmem :=
  (dfmemExchangeByte chip byte s).2

/-- Receive a byte by sending a null byte. -/
def dfmemReadByte (chip : Nat → Nat) (s : Dfmem) : Nat × Dfmem :=
  dfmemExchangeByte chip 0x00 s

/-- Member `chr_addr[i]` of the `MemAddr` union: byte `i` of the 32-bit
address, least significant byte first (the dsPIC is little-endian). -/
def chr_addr (address i : Nat) : Nat :=
  (address / 256 ^ i) % 256

/-- The value stored in `MemAddr.address` by every paged command:
`(((unsigned long)page) << dfmem_byte_address_bits) + byte`, in 32 bits.  The
shift count is 0 before setup and 9, 10 or 11 afterwards. -/
def pageAddress (g : Geometry) (page byte : Nat) : Nat :=
  ((page * 2 ^ g.dfmem_byte_address_bits) % 2 ^ 32 + byte) % 2 ^ 32

/-! ## Status -/

/-- Status register read: opcode `0xD7`, then one byte read. -/
def dfmemGetStatus (chip : Nat → Nat) (s : Dfmem) : Nat × Dfmem :=
  let s1 := dfmemSelectChip s
  let s2 := dfmemWriteByte chip 0xD7 s1
  let r := dfmemReadByte chip s2
  (r.1, dfmemDeselectChip r.2)

/-- Ready flag: `dfmemGetStatus() >> 7`. -/
def dfmemIsReady (chip : Nat → Nat) (s : Dfmem) : Nat × Dfmem :=
  let r := dfmemGetStatus chip s
  (r.1 / 128, r.2)

/-- The loop `while(!dfmemIsReady());`, with at most `fuel` polls. -/
def dfmemWaitReady (chip : Nat → Nat) : Nat → Dfmem → Option Dfmem
  | 0, _ => none
  | fuel + 1, s =>
    let r := dfmemIsReady chip s
    if r.1 = 0 then dfmemWaitReady chip fuel r.2 else some r.2

/-! ## Raw buffer and page operations -/

/-- The loop `while (length--) { dfmemWriteByte(*data++); }`; `data i` is
the byte `data[i]` of the caller's array, `i` the index reached so far. -/
def dfmemWriteData (chip : Nat → Nat) (data : Nat → Nat) : Nat → Nat → Dfmem → Dfmem
  | 0, _, s => s
  | length + 1, i, s =>
    dfmemWriteData chip data length (i + 1) (dfmemWriteByte chip (data i % 256) s)

/-- The opening shared by every addressed command of the source: select the
chip, send the opcode, then `MemAddr.chr_addr[2]`, `[1]` and `[0]`. -/
def dfmemSendCommand (chip : Nat → Nat) (command : Nat) (s : Dfmem) : Dfmem :=
  let s1 := dfmemSelectChip s
  let s2 := dfmemWriteByte chip command s1
  let s3 := dfmemWriteByte chip (chr_addr s.MemAddr 2) s2
  let s4 := dfmemWriteByte chip (chr_addr s.MemAddr 1) s3
  dfmemWriteByte chip (chr_addr s.MemAddr 0) s4

/-- Write `length` bytes to a page through an on-chip buffer, starting at
offset `byte` of the page. -/
def dfmemWrite (chip : Nat → Nat) (fuel : Nat) (data : Nat → Nat)
    (length page byte buffer : Nat) (s : Dfmem) : Option Dfmem :=
  (dfmemWaitReady chip fuel s).map fun s0 =>
    let command := if buffer = 1 then WRITE_PAGE_VIA_BUFFER1 else WRITE_PAGE_VIA_BUFFER2
    let s1 := { s0 with MemAddr := pageAddress s0.geom page byte }
    let s2 := dfmemSendCommand chip command s1
    let s3 := dfmemWriteData chip data length 0 s2
    dfmemDeselectChip s3

/-- Write `length` bytes into an on-chip buffer at offset `byte`.  The
source does not wait for the ready flag here. -/
def dfmemWriteBuffer (chip : Nat → Nat) (data : Nat → Nat) (length byte buffer : Nat)
    (s : Dfmem) : Dfmem :=
  let command := if buffer = 1 then WRITE_TO_BUFFER1 else WRITE_TO_BUFFER2
  let s1 := { s with MemAddr := byte }
  let s2 := dfmemSendCommand chip command s1
  let s3 := dfmemWriteData chip data length 0 s2
  dfmemDeselectChip s3

/-- Commit an on-chip buffer to a page without erasing it first.  Note the
assignment `currentBufferOffset = 0` in the body. -/
def dfmemWriteBuffer2MemoryNoErase (chip : Nat → Nat) (fuel : Nat) (page buffer : Nat)
    (s : Dfmem) : Option Dfmem :=
  (dfmemWaitReady chip fuel s).map fun s0 =>
    let command :=
      if buffer = 1 then WRITE_BUFFER1_TO_PAGE_NO_ERASE else WRITE_BUFFER2_TO_PAGE_NO_ERASE
    let s1 := { s0 with MemAddr := pageAddress s0.geom page 0 }
    let s2 := dfmemSendCommand chip command s1
    let s3 := { s2 with currentBufferOffset := 0 }
    dfmemDeselectChip s3

/-- Sector erase at the sector containing `page`. -/
def dfmemEraseSector (chip : Nat → Nat) (fuel : Nat) (page : Nat) (s : Dfmem) :
    Option Dfmem :=
  (dfmemWaitReady chip fuel s).map fun s0 =>
    let s1 := { s0 with MemAddr := pageAddress s0.geom page 0 }
    let s2 := dfmemSendCommand chip ERASE_SECTOR s1
    dfmemDeselectChip s2

/-! ## Bulk erase planner -/

/-- The loop `for(i=1; i <= numSectors; i++)` of the erase planner; the first
argument is the number of iterations left, the second the counter `i`. -/
def eraseSectorsLoop (chip : Nat → Nat) (fuel : Nat) : Nat → Nat → Dfmem → Option Dfmem
  | 0, _, s => some s
  | n + 1, i, s =>
    let firstPageOfSector := (s.geom.dfmem_pages_per_sector * i) % 65536
    (dfmemWaitReady chip fuel s).bind fun s1 =>
      let s2 := { s1 with LED_2 := 1 - s1.LED_2 }
      (dfmemEraseSector chip fuel firstPageOfSector s2).bind fun s3 =>
        eraseSectorsLoop chip fuel n (i + 1) s3

/-- The lead-out loop `while(!dfmemIsReady()){ LED_2 = ~LED_2; delay_ms(75); }`
with at most `fuel` polls; the delay has no effect on the state. -/
def eraseLeadout (chip : Nat → Nat) : Nat → Dfmem → Option Dfmem
  | 0, _ => none
  | fuel + 1, s =>
    let r := dfmemIsReady chip s
    if r.1 = 0 then eraseLeadout chip fuel { r.2 with LED_2 := 1 - r.2.LED_2 }
    else some r.2

/-- Number of pages computed by the planner:
`(numSamples + samplesPerPage - 1) / samplesPerPage` in 32 bits, stored in a
16-bit `unsigned int`. -/
def planNumPages (numSamples samplesPerPage : Nat) : Nat :=
  (((numSamples + samplesPerPage - 1) % 2 ^ 32) / samplesPerPage) % 65536

/-- Number of sectors computed by the planner, in 16-bit arithmetic. -/
def planNumSectors (g : Geometry) (numPages : Nat) : Nat :=
  ((numPages + g.dfmem_pages_per_sector - 1) % 65536) / g.dfmem_pages_per_sector

/-- Erase enough sectors for `numSamples` samples of `sampLen` bytes.  The
loop counter `i` is a signed 16-bit `int`: a run that would increment it past
32767 is undefined and yields `none`, as does a division by zero. -/
def dfMemEraseSectorsForSamples (chip : Nat → Nat) (fuel : Nat) (numSamples sampLen : Nat)
    (s : Dfmem) : Option Dfmem :=
  let s0 := { s with LED_2 := 1 }
  if numSamples = 0 then some s0
  else if sampLen = 0 then none
  else
    let samplesPerPage := s0.geom.dfmem_bytes_per_page / sampLen
    if samplesPerPage = 0 then none
    else if s0.geom.dfmem_pages_per_sector = 0 then none
    else
      let numPages := planNumPages numSamples samplesPerPage
      let numSectors := planNumSectors s0.geom numPages
      if 32767 ≤ numSectors then none
      else
        (dfmemEraseSector chip fuel 0 s0).bind fun s1 =>
        (dfmemEraseSector chip fuel 8 s1).bind fun s2 =>
        (eraseSectorsLoop chip fuel numSectors 1 s2).bind fun s3 =>
        (eraseLeadout chip fuel s3).map fun s4 =>
          { s4 with LED_2 := 0, currentBuffer := 0, currentBufferOffset := 0, nextPage := 0 }

/-! ## Sequential write cache -/

/-- The flush block shared by `dfmemSave` and `dfmemSync`: commit the current
buffer to `nextPage`, toggle the buffer, reset the offset, `nextPage++`. -/
def flushCurrentBuffer (chip : Nat → Nat) (fuel : Nat) (s : Dfmem) : Option Dfmem :=
  (dfmemWriteBuffer2MemoryNoErase chip fuel s.nextPage (s.currentBuffer % 256) s).map
    fun s1 =>
      { s1 with currentBuffer := if s1.currentBuffer ≠ 0 then 0 else 1,
                currentBufferOffset := 0,
                nextPage := (s1.nextPage + 1) % 65536 }

/-- Append `length` bytes to the write cache. -/
def dfmemSave (chip : Nat → Nat) (fuel : Nat) (data : Nat → Nat) (length : Nat)
    (s : Dfmem) : Option Dfmem :=
  (if s.geom.dfmem_buffersize ≤ (s.currentBufferOffset + length) % 65536
    then flushCurrentBuffer chip fuel s else some s).map
    fun s1 =>
      let s2 := dfmemWriteBuffer chip data length s1.currentBufferOffset
                  (s1.currentBuffer % 256) s1
      { s2 with currentBufferOffset := (s2.currentBufferOffset + length) % 65536 }

/-- Write the current buffer to flash if it holds any data. -/
def dfmemSync (chip : Nat → Nat) (fuel : Nat) (s : Dfmem) : Option Dfmem :=
  (dfmemWaitReady chip fuel s).bind fun s1 =>
    if s1.currentBufferOffset ≠ 0 then flushCurrentBuffer chip fuel s1 else some s1

/-! ## Observing the bus -/

/-- The command frames of an event log: for each chip-select assertion that
is released again, the bytes sent while it was asserted.  The first argument
is the frame being collected. -/
def framesFrom (cur : List Nat) : List BusEvent → List (List Nat)
  | [] => []
  | BusEvent.select :: t => framesFrom [] t
  | BusEvent.xfer o _ :: t => framesFrom (cur ++ [o]) t
  | BusEvent.deselect :: t => cur :: framesFrom [] t

/-- The frame left open at the end of an event log. -/
def openFrame (cur : List Nat) : List BusEvent → List Nat
  | [] => cur
  | BusEvent.select :: t => openFrame [] t
  | BusEvent.xfer o _ :: t => openFrame (cur ++ [o]) t
  | BusEvent.deselect :: t => openFrame [] t

/-- The events appended to the log between state `s` and a later state. -/
def eventsSince (s later : Dfmem) : List BusEvent :=
  later.trace.drop s.trace.length

/-- Whether a frame is a status poll (opcode `0xD7`). -/
def isStatusPoll (f : List Nat) : Bool :=
  f.head? == some 0xD7

/-- The commands of an event log: its frames other than status polls. -/
def commands (evs : List BusEvent) : List (List Nat) :=
  (framesFrom [] evs).filter fun f => !isStatusPoll f

/-- The frame of a buffer-to-page commit (no erase) of buffer index `buffer`
to `page`: opcode, then address bytes 2, 1, 0. -/
def commitFrame (g : Geometry) (page buffer : Nat) : List Nat :=
  [if buffer = 1 then WRITE_BUFFER1_TO_PAGE_NO_ERASE else WRITE_BUFFER2_TO_PAGE_NO_ERASE,
   chr_addr (pageAddress g page 0) 2, chr_addr (pageAddress g page 0) 1,
   chr_addr (pageAddress g page 0) 0]

/-- The frame of a buffer write of `length` bytes of `data` at offset `byte`
of buffer index `buffer`. -/
def bufferWriteFrame (buffer byte : Nat) (data : Nat → Nat) (length : Nat) : List Nat :=
  [if buffer = 1 then WRITE_TO_BUFFER1 else WRITE_TO_BUFFER2,
   chr_addr byte 2, chr_addr byte 1, chr_addr byte 0]
    ++ (List.range length).map fun i => data i % 256

/-- The frame of a sector erase at `page`. -/
def sectorEraseFrame (g : Geometry) (page : Nat) : List Nat :=
  [ERASE_SECTOR, chr_addr (pageAddress g page 0) 2, chr_addr (pageAddress g page 0) 1,
   chr_addr (pageAddress g page 0) 0]

/-- The chip reports ready within `fuel` status polls, whenever polling
starts: a poll that starts at exchange `c + 2 * k` reads its status byte at
exchange `c + 2 * k + 1`. -/
def Responsive (chip : Nat → Nat) (fuel : Nat) : Prop :=
  ∀ c : Nat, ∃ k : Nat, k < fuel ∧ 128 ≤ chip (c + 2 * k + 1) % 256

/-- Whether a frame is a buffer-to-page commit without erase. -/
def isCommit (f : List Nat) : Bool :=
  f.head? == some WRITE_BUFFER1_TO_PAGE_NO_ERASE ||
    f.head? == some WRITE_BUFFER2_TO_PAGE_NO_ERASE

/-- Whether a frame is a buffer write. -/
def isBufferWrite (f : List Nat) : Bool :=
  f.head? == some WRITE_TO_BUFFER1 || f.head? == some WRITE_TO_BUFFER2

/-- The run from `s` to `later` appended a closed piece of event log whose
commands are exactly `C`. -/
def Issues (s later : Dfmem) (C : List (List Nat)) : Prop :=
  ∃ evs, later.trace = s.trace ++ evs ∧ commands evs = C ∧ openFrame [] evs = []

/-- The geometry and the three write-cache variables agree. -/
def SameVars (s later : Dfmem) : Prop :=
  later.geom = s.geom ∧ later.currentBuffer = s.currentBuffer ∧
  later.currentBufferOffset = s.currentBufferOffset ∧ later.nextPage = s.nextPage

/-! ## Call sequences -/

/-- A sequence of `dfmemSave` calls, each given by its array and its length. -/
def dfmemSaveAll (chip : Nat → Nat) (fuel : Nat) :
    List ((Nat → Nat) × Nat) → Dfmem → Option Dfmem
  | [], s => some s
  | w :: rest, s => (dfmemSave chip fuel w.1 w.2 s).bind (dfmemSaveAll chip fuel rest)

/-- The buffer-write frames expected from a run of saves that all land in
buffer index `buffer`, the first at offset `byte`, each next one right after
the previous one. -/
def sequentialWrites (buffer : Nat) : Nat → List ((Nat → Nat) × Nat) → List (List Nat)
  | _, [] => []
  | byte, w :: rest =>
    bufferWriteFrame buffer byte w.1 w.2 :: sequentialWrites buffer (byte + w.2) rest

/-- A call of one of the three entry points that touch the write cache. -/
inductive CacheCall where
  | save (data : Nat → Nat) (length : Nat) : CacheCall
  | sync : CacheCall
  | eraseSectors (numSamples sampLen : Nat) : CacheCall

/-- Run one call. -/
def runCall (chip : Nat → Nat) (fuel : Nat) : CacheCall → Dfmem → Option Dfmem
  | CacheCall.save data length, s => dfmemSave chip fuel data length s
  | CacheCall.sync, s => dfmemSync chip fuel s
  | CacheCall.eraseSectors numSamples sampLen, s =>
    dfMemEraseSectorsForSamples chip fuel numSamples sampLen s

/-- Run a sequence of calls, first call first. -/
def runCalls (chip : Nat → Nat) (fuel : Nat) : List CacheCall → Dfmem → Option Dfmem
  | [], s => some s
  | c :: rest, s => (runCall chip fuel c s).bind (runCalls chip fuel rest)

/-- Every `dfmemSave` call of the sequence has a length of at most `bound`. -/
def SavesAtMost (bound : Nat) : List CacheCall → Prop
  | [] => True
  | CacheCall.save _ length :: rest => length ≤ bound ∧ SavesAtMost bound rest
  | _ :: rest => SavesAtMost bound rest

/-- A chip that reports ready on every poll. -/
def alwaysReady : Nat → Nat := fun _ => 0x80

/-- A chip that is busy during the first seven exchanges. -/
def busyAtFirst : Nat → Nat := fun k => if k < 7 then 0x00 else 0x80

/-- The driver state after power-up with geometry `g` installed: the write
cache is `{0, 0, 0}` and nothing has happened on the bus. -/
def powerUp (g : Geometry) : Dfmem :=
  { geom := g, currentBuffer := 0, currentBufferOffset := 0, nextPage := 0,
    MemAddr := 0, LED_2 := 0, clock := 0, trace := [] }

/-! ## Specification-side functions -/

/-- Integer division rounded up, as the specification writes `ceil(a / b)`. -/
def ceilDiv (a b : Nat) : Nat :=
  (a + b - 1) / b

/-- The erase plan in the words of the specification: pages 0 and 8, then
`pagesPerSector * i` for `i` from 1 to `numSectors`, where
`samplesPerPage = floor(bytesPerPage / sampleLength)`,
`numPages = ceil(numSamples / samplesPerPage)` and
`numSectors = ceil(numPages / pagesPerSector)`. -/
def erasePlanPages (g : Geometry) (numSamples sampLen : Nat) : List Nat :=
  let samplesPerPage := g.dfmem_bytes_per_page / sampLen
  let numPages := ceilDiv numSamples samplesPerPage
  let numSectors := ceilDiv numPages g.dfmem_pages_per_sector
  0 :: 8 :: (List.range numSectors).map fun k => g.dfmem_pages_per_sector * (k + 1)

/-- The three address bytes of a paged command in transmission order:
`chr_addr[2]`, `chr_addr[1]`, `chr_addr[0]` of `MemAddr`. -/
def addressBytes (g : Geometry) (page byte : Nat) : List Nat :=
  [chr_addr (pageAddress g page byte) 2, chr_addr (pageAddress g page byte) 1,
   chr_addr (pageAddress g page byte) 0]

/-- Reassemble bytes into a number, most significant byte first. -/
def reassemble (bytes : List Nat) : Nat :=
  bytes.foldl (fun acc b => acc * 256 + b) 0

/-! ## Sample inputs -/

/-- An array holding `0, 1, 2, ...`. -/
def countUp : Nat → Nat := fun i => i

/-- The 8 Mbit chip with 260 bytes in buffer index 0 and five pages committed. -/
def nearlyFull : Dfmem :=
  { powerUp FLASH_8MBIT with currentBufferOffset := 260, nextPage := 5 }

/-- The 8 Mbit chip with one byte in buffer index 0. -/
def oneByteHeld : Dfmem :=
  { powerUp FLASH_8MBIT with currentBufferOffset := 1 }

/-- Three saves of 3, 0 and 5 bytes. -/
def threeWrites : List ((Nat → Nat) × Nat) :=
  [(countUp, 3), (countUp, 0), (countUp, 5)]

/-- A run that saves twice, syncs, erases for 100 samples of 8 bytes and
saves a full buffer. -/
def mixedCalls : List CacheCall :=
  [CacheCall.save countUp 8, CacheCall.save countUp 260, CacheCall.sync,
   CacheCall.eraseSectors 100 8, CacheCall.save countUp 264]

/-! ## Reads, remaining erases and identification -/

def READ_PAGE_TO_BUFFER_1 : Nat := 0x53
def READ_PAGE_TO_BUFFER_2 : Nat := 0x55

/-- The loop `while (length--) { *data++ = dfmemReadByte(); }`; returns the
bytes stored into the caller's array, first byte first. -/
def dfmemReadData (chip : Nat → Nat) : Nat → Dfmem → List Nat × Dfmem
  | 0, s => ([], s)
  | length + 1, s =>
    let r := dfmemReadByte chip s
    let rest := dfmemReadData chip length r.2
    (r.1 :: rest.1, rest.2)

/-- Read `length` bytes of a page, starting at offset `byte`; returns the
bytes read and the new state. -/
def dfmemRead (chip : Nat → Nat) (fuel : Nat) (page byte length : Nat) (s : Dfmem) :
    Option (List Nat × Dfmem) :=
  (dfmemWaitReady chip fuel s).map fun s0 =>
    let s1 := { s0 with MemAddr := pageAddress s0.geom page byte }
    let s2 := dfmemSendCommand chip READ_PAGE s1
    let s3 := dfmemWriteByte chip 0x00 s2
    let s4 := dfmemWriteByte chip 0x00 s3
    let s5 := dfmemWriteByte chip 0x00 s4
    let s6 := dfmemWriteByte chip 0x00 s5
    let r := dfmemReadData chip length s6
    (r.1, dfmemDeselectChip r.2)

/-- Copy a page into an on-chip buffer. -/
def dfmemReadPage2Buffer (chip : Nat → Nat) (fuel : Nat) (page buffer : Nat) (s : Dfmem) :
    Option Dfmem :=
  (dfmemWaitReady chip fuel s).map fun s0 =>
    let command := if buffer = 1 then READ_PAGE_TO_BUFFER_1 else READ_PAGE_TO_BUFFER_2
    let s1 := { s0 with MemAddr := pageAddress s0.geom page 0 }
    let s2 := dfmemSendCommand chip command s1
    dfmemDeselectChip s2

/-- Page erase. -/
def dfmemErasePage (chip : Nat → Nat) (fuel : Nat) (page : Nat) (s : Dfmem) : Option Dfmem :=
  (dfmemWaitReady chip fuel s).map fun s0 =>
    let s1 := { s0 with MemAddr := pageAddress s0.geom page 0 }
    let s2 := dfmemSendCommand chip ERASE_PAGE s1
    dfmemDeselectChip s2

/-- Block erase. -/
def dfmemEraseBlock (chip : Nat → Nat) (fuel : Nat) (page : Nat) (s : Dfmem) : Option Dfmem :=
  (dfmemWaitReady chip fuel s).map fun s0 =>
    let s1 := { s0 with MemAddr := pageAddress s0.geom page 0 }
    let s2 := dfmemSendCommand chip ERASE_BLOCK s1
    dfmemDeselectChip s2

/-- Whole-chip erase: the four bytes `0xC7 0x94 0x80 0x9A`. -/
def dfmemEraseChip (chip : Nat → Nat) (fuel : Nat) (s : Dfmem) : Option Dfmem :=
  (dfmemWaitReady chip fuel s).map fun s0 =>
    let s1 := dfmemSelectChip s0
    let s2 := dfmemWriteByte chip 0xC7 s1
    let s3 := dfmemWriteByte chip 0x94 s2
    let s4 := dfmemWriteByte chip 0x80 s3
    let s5 := dfmemWriteByte chip 0x9A s4
    dfmemDeselectChip s5

/-- Manufacturer id: opcode `0x9F`, then one byte read. -/
def dfmemGetManufacturerID (chip : Nat → Nat) (s : Dfmem) : Nat × Dfmem :=
  let s1 := dfmemSelectChip s
  let s2 := dfmemWriteByte chip 0x9F s1
  let r := dfmemReadByte chip s2
  (r.1, dfmemDeselectChip r.2)

/-- Density code: opcode `0x9F`, four bytes read, `byte[1] & 0b00011111`. -/
def dfmemGetChipSize (chip : Nat → Nat) (s : Dfmem) : Nat × Dfmem :=
  let s1 := dfmemSelectChip s
  let s2 := dfmemWriteByte chip 0x9F s1
  let b0 := dfmemReadByte chip s2
  let b1 := dfmemReadByte chip b0.2
  let b2 := dfmemReadByte chip b1.2
  let b3 := dfmemReadByte chip b2.2
  let size := b1.1 &&& 0b00011111
  (size, dfmemDeselectChip b3.2)

/-- The `switch` on the density code; the `default:` branch does nothing.
The function returns `void`: the result is the new state only. -/
def dfmemGeometrySetup (chip : Nat → Nat) (s : Dfmem) : Dfmem :=
  let r := dfmemGetChipSize chip s
  let size := r.1
  if size = DFMEM_8MBIT then { r.2 with geom := FLASH_8MBIT }
  else if size = DFMEM_16MBIT then { r.2 with geom := FLASH_16MBIT }
  else if size = DFMEM_32MBIT then { r.2 with geom := FLASH_32MBIT }
  else if size = DFMEM_64MBIT then { r.2 with geom := FLASH_64MBIT }
  else r.2

/-- Driver setup: `dfmemSetupPeripheral()` writes SPI control registers that
are outside this state, then the chip is deselected and the geometry set up.
The function returns `void`. -/
def dfmemSetup (chip : Nat → Nat) (s : Dfmem) : Dfmem :=
  dfmemGeometrySetup chip (dfmemDeselectChip s)

/-- Read sample number `sampNum` of samples of `sampLen` bytes.  `pagenum`
and `byteOffset` are 16-bit, `pagenum*samplesPerPage` is a 16-bit product,
the subtraction from `sampNum` and the product with `sampLen` are 32-bit. -/
def dfmemReadSample (chip : Nat → Nat) (fuel : Nat) (sampNum sampLen : Nat) (s : Dfmem) :
    Option (List Nat × Dfmem) :=
  if sampLen = 0 then none
  else
    let samplesPerPage := s.geom.dfmem_bytes_per_page / sampLen
    if samplesPerPage = 0 then none
    else
      let pagenum := (sampNum / samplesPerPage) % 65536
      let byteOffset :=
        ((((sampNum + 2 ^ 32 - (pagenum * samplesPerPage) % 65536) % 2 ^ 32) * sampLen)
          % 2 ^ 32) % 65536
      dfmemRead chip fuel pagenum byteOffset sampLen s

/-! ## Raw calls -/

/-- A direct call of one raw operation. -/
inductive RawCall where
  | write (data : Nat → Nat) (length page byte buffer : Nat) : RawCall
  | writeBuffer (data : Nat → Nat) (length byte buffer : Nat) : RawCall
  | writeBuffer2MemoryNoErase (page buffer : Nat) : RawCall
  | read (page byte length : Nat) : RawCall
  | readPage2Buffer (page buffer : Nat) : RawCall
  | erasePage (page : Nat) : RawCall
  | eraseBlock (page : Nat) : RawCall
  | eraseSector (page : Nat) : RawCall
  | eraseChip : RawCall
  | isReady : RawCall
  | getStatus : RawCall
  | getManufacturerID : RawCall
  | getChipSize : RawCall

/-- Run one raw call and keep the state it leaves. -/
def runRaw (chip : Nat → Nat) (fuel : Nat) : RawCall → Dfmem → Option Dfmem
  | RawCall.write data length page byte buffer, s =>
    dfmemWrite chip fuel data length page byte buffer s
  | RawCall.writeBuffer data length byte buffer, s =>
    some (dfmemWriteBuffer chip data length byte buffer s)
  | RawCall.writeBuffer2MemoryNoErase page buffer, s =>
    dfmemWriteBuffer2MemoryNoErase chip fuel page buffer s
  | RawCall.read page byte length, s => (dfmemRead chip fuel page byte length s).map Prod.snd
  | RawCall.readPage2Buffer page buffer, s => dfmemReadPage2Buffer chip fuel page buffer s
  | RawCall.erasePage page, s => dfmemErasePage chip fuel page s
  | RawCall.eraseBlock page, s => dfmemEraseBlock chip fuel page s
  | RawCall.eraseSector page, s => dfmemEraseSector chip fuel page s
  | RawCall.eraseChip, s => dfmemEraseChip chip fuel s
  | RawCall.isReady, s => some (dfmemIsReady chip s).2
  | RawCall.getStatus, s => some (dfmemGetStatus chip s).2
  | RawCall.getManufacturerID, s => some (dfmemGetManufacturerID chip s).2
  | RawCall.getChipSize, s => some (dfmemGetChipSize chip s).2

/-- The opcode with which a raw call opens its own command frame. -/
def commandOpcode : RawCall → Nat
  | RawCall.write _ _ _ _ buffer =>
    if buffer = 1 then WRITE_PAGE_VIA_BUFFER1 else WRITE_PAGE_VIA_BUFFER2
  | RawCall.writeBuffer _ _ _ buffer =>
    if buffer = 1 then WRITE_TO_BUFFER1 else WRITE_TO_BUFFER2
  | RawCall.writeBuffer2MemoryNoErase _ buffer =>
    if buffer = 1 then WRITE_BUFFER1_TO_PAGE_NO_ERASE else WRITE_BUFFER2_TO_PAGE_NO_ERASE
  | RawCall.read _ _ _ => READ_PAGE
  | RawCall.readPage2Buffer _ buffer =>
    if buffer = 1 then READ_PAGE_TO_BUFFER_1 else READ_PAGE_TO_BUFFER_2
  | RawCall.erasePage _ => ERASE_PAGE
  | RawCall.eraseBlock _ => ERASE_BLOCK
  | RawCall.eraseSector _ => ERASE_SECTOR
  | RawCall.eraseChip => 0xC7
  | RawCall.isReady => 0xD7
  | RawCall.getStatus => 0xD7
  | RawCall.getManufacturerID => 0x9F
  | RawCall.getChipSize => 0x9F

/-- The write-class operations: page write, buffer write, buffer-to-page
commit and the four erases. -/
def isWriteClass : RawCall → Bool
  | RawCall.write _ _ _ _ _ => true
  | RawCall.writeBuffer _ _ _ _ => true
  | RawCall.writeBuffer2MemoryNoErase _ _ => true
  | RawCall.erasePage _ => true
  | RawCall.eraseBlock _ => true
  | RawCall.eraseSector _ => true
  | RawCall.eraseChip => true
  | _ => false

/-- Whether the call is a buffer write. -/
def isBufferWriteCall : RawCall → Bool
  | RawCall.writeBuffer _ _ _ _ => true
  | _ => false

/-- Whether the call is a buffer-to-page commit. -/
def isCommitCall : RawCall → Bool
  | RawCall.writeBuffer2MemoryNoErase _ _ => true
  | _ => false

/-! ## Observing both directions of the bus -/

/-- The exchanges of an event log: for each chip-select assertion that is
released again, the pairs (byte sent, byte received) while it was asserted. -/
def exchangesFrom (cur : List (Nat × Nat)) : List BusEvent → List (List (Nat × Nat))
  | [] => []
  | BusEvent.select :: t => exchangesFrom [] t
  | BusEvent.xfer o i :: t => exchangesFrom (cur ++ [(o, i)]) t
  | BusEvent.deselect :: t => cur :: exchangesFrom [] t

/-- The exchange left open at the end of an event log. -/
def openExchange (cur : List (Nat × Nat)) : List BusEvent → List (Nat × Nat)
  | [] => cur
  | BusEvent.select :: t => openExchange [] t
  | BusEvent.xfer o i :: t => openExchange (cur ++ [(o, i)]) t
  | BusEvent.deselect :: t => openExchange [] t

/-- A status poll whose reply has the ready bit (bit 7) clear. -/
def BusyPoll (p : List (Nat × Nat)) : Prop :=
  ∃ m st, p = [(0xD7, m), (0x00, st)] ∧ st < 128

/-- A status poll whose reply has the ready bit (bit 7) set. -/
def ReadyPoll (p : List (Nat × Nat)) : Prop :=
  ∃ m st, p = [(0xD7, m), (0x00, st)] ∧ 128 ≤ st

/-- The exchanges are: status polls answered busy, one status poll answered
ready, and then the single exchange `frame`. -/
def WaitThenFrame (fs : List (List (Nat × Nat))) (frame : List (Nat × Nat)) : Prop :=
  ∃ busy ready, fs = busy ++ [ready, frame] ∧ (∀ p ∈ busy, BusyPoll p) ∧ ReadyPoll ready

/-- The state `later` extends the log of `s` by one chip-select assertion
during which exactly the exchanges `pairs` happen. -/
def OneFrame (s later : Dfmem) (pairs : List (Nat × Nat)) : Prop :=
  later.trace =
    s.trace ++ (BusEvent.select :: pairs.map fun p => BusEvent.xfer p.1 p.2) ++
      [BusEvent.deselect]

/-- The driver variables: everything but the bus. -/
def driverVars (s : Dfmem) : Geometry × Nat × Nat × Nat × Nat × Nat :=
  (s.geom, s.currentBuffer, s.currentBufferOffset, s.nextPage, s.MemAddr, s.LED_2)

/-- The three write-cache variables. -/
def cacheVars (s : Dfmem) : Nat × Nat × Nat :=
  (s.currentBuffer, s.currentBufferOffset, s.nextPage)

/-- Geometry consistency: sector and chip sizes agree, the buffer is one page,
a page offset fits the byte address bits and a page address fits 24 bits. -/
def Consistent (g : Geometry) : Prop :=
  g.dfmem_pages_per_sector = g.dfmem_pages_per_block * g.dfmem_blocks_per_sector ∧
  g.dfmem_max_sector * g.dfmem_pages_per_sector = g.dfmem_max_pages ∧
  g.dfmem_buffersize = g.dfmem_bytes_per_page ∧
  g.dfmem_bytes_per_page < 2 ^ g.dfmem_byte_address_bits ∧
  g.dfmem_max_pages * 2 ^ g.dfmem_byte_address_bits ≤ 2 ^ 24

/-- The bytes the chip sends in answer to the identification opcode during
`dfmemGetChipSize`: what is received after the opcode byte of its one exchange. -/
def idResponse (chip : Nat → Nat) (s : Dfmem) : List Nat :=
  (((exchangesFrom [] (eventsSince s (dfmemGetChipSize chip s).2)).headD []).drop 1).map Prod.snd

/-- The geometry table in the words of the specification: the row of a
density code, when the code is one of the four. -/
def geometryRow (code : Nat) : Option Geometry :=
  if code = 0b00101 then
    some { dfmem_bytes_per_page := 264, dfmem_pages_per_block := 8,
           dfmem_blocks_per_sector := 32, dfmem_pages_per_sector := 256,
           dfmem_byte_address_bits := 9, dfmem_max_sector := 16,
           dfmem_max_pages := 4096, dfmem_buffersize := 264 }
  else if code = 0b00110 then
    some { dfmem_bytes_per_page := 528, dfmem_pages_per_block := 8,
           dfmem_blocks_per_sector := 32, dfmem_pages_per_sector := 256,
           dfmem_byte_address_bits := 10, dfmem_max_sector := 16,
           dfmem_max_pages := 4096, dfmem_buffersize := 528 }
  else if code = 0b00111 then
    some { dfmem_bytes_per_page := 528, dfmem_pages_per_block := 8,
           dfmem_blocks_per_sector := 16, dfmem_pages_per_sector := 128,
           dfmem_byte_address_bits := 10, dfmem_max_sector := 64,
           dfmem_max_pages := 8192, dfmem_buffersize := 528 }
  else if code = 0b01000 then
    some { dfmem_bytes_per_page := 1056, dfmem_pages_per_block := 8,
           dfmem_blocks_per_sector := 32, dfmem_pages_per_sector := 256,
           dfmem_byte_address_bits := 11, dfmem_max_sector := 32,
           dfmem_max_pages := 8192, dfmem_buffersize := 1056 }
  else none

/-- The geometry variables before any detection: the statics are
zero-initialised. -/
def unsetGeometry : Geometry :=
  { dfmem_byte_address_bits := 0, dfmem_max_sector := 0, dfmem_max_pages := 0,
    dfmem_buffersize := 0, dfmem_bytes_per_page := 0, dfmem_pages_per_block := 0,
    dfmem_blocks_per_sector := 0, dfmem_pages_per_sector := 0 }

/-- A chip whose exchange number 2 answers `0xC6` and every other `0x55`. -/
def otherVendor16Mbit : Nat → Nat := fun k => if k = 2 then 0xC6 else 0x55

/-- A chip that answers every exchange with the same byte. -/
def constChip (b : Nat) : Nat → Nat := fun _ => b

/-- The driver after one setup against a 16 Mbit chip, starting from the
zero-initialised statics. -/
def afterSetup16 : Dfmem :=
  dfmemSetup (constChip 0x26) (powerUp unsetGeometry)

/-- Thirty-three saves of 8 bytes, sample `i` made of eight bytes `i`,
followed by a sync. -/
def thirtyThreeSamples : List CacheCall :=
  (List.range 33).map (fun i => CacheCall.save (fun _ => i) 8) ++ [CacheCall.sync]

/-! ## Buffers and commits in a command list -/

/-- Whether the call is `dfmemSave` or `dfmemSync`. -/
def isSaveOrSync : CacheCall → Bool
  | CacheCall.save _ _ => true
  | CacheCall.sync => true
  | CacheCall.eraseSectors _ _ => false

/-- The on-chip buffer that a frame names by its opcode: 1 for `0x84` and
`0x88`, 2 for `0x87` and `0x89`. -/
def bufferOf (f : List Nat) : Option Nat :=
  if f.head? = some WRITE_TO_BUFFER1 ∨ f.head? = some WRITE_BUFFER1_TO_PAGE_NO_ERASE then some 1
  else if f.head? = some WRITE_TO_BUFFER2 ∨ f.head? = some WRITE_BUFFER2_TO_PAGE_NO_ERASE
    then some 2
  else none

/-- The buffer named by the first buffer-to-page commit of a command list. -/
def nextCommit : List (List Nat) → Option Nat
  | [] => none
  | f :: rest => if isCommit f then bufferOf f else nextCommit rest

/-- Buffer pairing of a command list: every buffer write names the buffer of
the next commit after it, and every commit names another buffer than the next
commit after it. -/
def BufferPaired : List (List Nat) → Prop
  | [] => True
  | f :: rest =>
    (isBufferWrite f = true → ∀ c, nextCommit rest = some c → bufferOf f = some c) ∧
    (isCommit f = true → ∀ c, nextCommit rest = some c → bufferOf f ≠ some c) ∧
    BufferPaired rest

/-- The chip buffer selected by the test `buffer == 1` of the raw operations
for the driver's buffer index `b`. -/
def bufferName (b : Nat) : Nat := if b = 1 then 1 else 2

/-- The command list is what the write cache issues when its active buffer is
`b`: buffer writes name the active buffer, a commit names the active buffer
and toggles it. -/
def PairedFrom : Nat → List (List Nat) → Prop
  | _, [] => True
  | b, f :: rest =>
    bufferOf f = some (bufferName b) ∧
    ((isCommit f = true ∧ isBufferWrite f = false ∧
        PairedFrom (if b ≠ 0 then 0 else 1) rest) ∨
      (isCommit f = false ∧ isBufferWrite f = true ∧ PairedFrom b rest))

/-- The address bytes of the buffer-to-page commits of a command list, oldest
commit first. -/
def commitAddresses (cmds : List (List Nat)) : List (List Nat) :=
  (cmds.filter isCommit).map (List.drop 1)

/-- The pages erased by a sector erase at page `q`, as a half-open interval, in
the words of the specification: `[0, 8)` at page 0, `[8, pagesPerSector)` at
page 8, and `[q, q + pagesPerSector)` at a page `q = pagesPerSector * i`. -/
def erasedPages (g : Geometry) (q : Nat) : Nat × Nat :=
  if q = 0 then (0, 8)
  else if q = 8 then (8, g.dfmem_pages_per_sector)
  else (q, q + g.dfmem_pages_per_sector)

/-- The local `pagenum` of `dfmemReadSample`, a 16-bit `unsigned int`. -/
def readSamplePagenum (g : Geometry) (sampNum sampLen : Nat) : Nat :=
  (sampNum / (g.dfmem_bytes_per_page / sampLen)) % 65536

/-- The local `byteOffset` of `dfmemReadSample`:
`(sampNum - pagenum*samplesPerPage)*sampLen` with a 16-bit product, a 32-bit
difference and product, stored in a 16-bit `unsigned int`. -/
def readSampleByteOffset (g : Geometry) (sampNum sampLen : Nat) : Nat :=
  ((((sampNum + 2 ^ 32 -
      (readSamplePagenum g sampNum sampLen * (g.dfmem_bytes_per_page / sampLen)) % 65536)
    % 2 ^ 32) * sampLen) % 2 ^ 32) % 65536

/-- Two saves, a sync, one more save and a sync. -/
def saveSyncRun : List CacheCall :=
  [CacheCall.save countUp 200, CacheCall.save countUp 100, CacheCall.sync,
   CacheCall.save countUp 8, CacheCall.sync]

/-- A save, a sync, one more save and a sync. -/
def flushAndSyncRun : List CacheCall :=
  [CacheCall.save countUp 8, CacheCall.sync, CacheCall.save countUp 8, CacheCall.sync]

/-! # Supporting lemmas -/

theorem framesFrom_append (a b : List BusEvent) (cur : List Nat) :
    framesFrom cur (a ++ b) = framesFrom cur a ++ framesFrom (openFrame cur a) b := by
  induction a generalizing cur with
  | nil => simp [framesFrom, openFrame]
  | cons e t ih =>
    cases e <;> simp [framesFrom, openFrame, ih]

theorem openFrame_append (a b : List BusEvent) (cur : List Nat) :
    openFrame cur (a ++ b) = openFrame (openFrame cur a) b := by
  induction a generalizing cur with
  | nil => simp [openFrame]
  | cons e t ih =>
    cases e <;> simp [openFrame, ih]

theorem commands_append (a b : List BusEvent) (h : openFrame [] a = []) :
    commands (a ++ b) = commands a ++ commands b := by
  simp [commands, framesFrom_append, h]

theorem Issues.nothing (s : Dfmem) : Issues s s [] :=
  ⟨[], by simp, by simp [commands, framesFrom], by simp [openFrame]⟩

theorem Issues.of_trace_eq {s later : Dfmem} (h : later.trace = s.trace) : Issues s later [] :=
  ⟨[], by simp [h], by simp [commands, framesFrom], by simp [openFrame]⟩

theorem Issues.followedBy {s s1 s2 : Dfmem} {C1 C2 : List (List Nat)}
    (h1 : Issues s s1 C1) (h2 : Issues s1 s2 C2) : Issues s s2 (C1 ++ C2) := by
  obtain ⟨e1, ht1, hc1, ho1⟩ := h1
  obtain ⟨e2, ht2, hc2, ho2⟩ := h2
  refine ⟨e1 ++ e2, ?_, ?_, ?_⟩
  · rw [ht2, ht1, List.append_assoc]
  · rw [commands_append _ _ ho1, hc1, hc2]
  · rw [openFrame_append, ho1, ho2]

theorem Issues.commands_eventsSince {s later : Dfmem} {C : List (List Nat)}
    (h : Issues s later C) : commands (eventsSince s later) = C := by
  obtain ⟨evs, ht, hc, _⟩ := h
  simp [eventsSince, ht, hc]

/-- One complete four-byte command frame appended to the log. -/
theorem Issues.frame4 {s later : Dfmem} {cmd a b c m0 m1 m2 m3 : Nat} (hcmd : cmd ≠ 0xD7)
    (ht : later.trace = (s.trace ++ [BusEvent.select, BusEvent.xfer cmd m0, BusEvent.xfer a m1,
      BusEvent.xfer b m2, BusEvent.xfer c m3]) ++ [BusEvent.deselect]) :
    Issues s later [[cmd, a, b, c]] :=
  ⟨[BusEvent.select, BusEvent.xfer cmd m0, BusEvent.xfer a m1,
      BusEvent.xfer b m2, BusEvent.xfer c m3, BusEvent.deselect], by simp [ht],
    by simp [commands, framesFrom, isStatusPoll, hcmd], by simp [openFrame]⟩

theorem SameVars.same (s : Dfmem) : SameVars s s := ⟨rfl, rfl, rfl, rfl⟩

theorem SameVars.andThen {s s1 s2 : Dfmem} (h1 : SameVars s s1) (h2 : SameVars s1 s2) :
    SameVars s s2 := by
  obtain ⟨a, b, c, d⟩ := h1
  obtain ⟨a', b', c', d'⟩ := h2
  exact ⟨by rw [a', a], by rw [b', b], by rw [c', c], by rw [d', d]⟩

theorem dfmemIsReady_fst (chip : Nat → Nat) (s : Dfmem) :
    (dfmemIsReady chip s).1 = chip (s.clock + 1) % 256 / 128 := by
  simp [dfmemIsReady, dfmemGetStatus, dfmemReadByte, dfmemExchangeByte, dfmemWriteByte,
    dfmemSelectChip]

theorem dfmemIsReady_snd (chip : Nat → Nat) (s : Dfmem) :
    (dfmemIsReady chip s).2 =
      { s with clock := s.clock + 2,
               trace := s.trace ++ [BusEvent.select, BusEvent.xfer 0xD7 (chip s.clock % 256),
                 BusEvent.xfer 0 (chip (s.clock + 1) % 256), BusEvent.deselect] } := by
  simp [dfmemIsReady, dfmemGetStatus, dfmemReadByte, dfmemExchangeByte, dfmemWriteByte,
    dfmemSelectChip, dfmemDeselectChip]

theorem dfmemIsReady_issues (chip : Nat → Nat) (s : Dfmem) :
    Issues s (dfmemIsReady chip s).2 [] := by
  refine ⟨[BusEvent.select, BusEvent.xfer 0xD7 (chip s.clock % 256),
    BusEvent.xfer 0 (chip (s.clock + 1) % 256), BusEvent.deselect], ?_, ?_, ?_⟩
  · rw [dfmemIsReady_snd]
  · simp [commands, framesFrom, isStatusPoll]
  · simp [openFrame]

theorem dfmemIsReady_sameVars (chip : Nat → Nat) (s : Dfmem) :
    SameVars s (dfmemIsReady chip s).2 := by
  rw [dfmemIsReady_snd]; simp [SameVars]

theorem dfmemWaitReady_post (chip : Nat → Nat) (fuel : Nat) (s s1 : Dfmem)
    (h : dfmemWaitReady chip fuel s = some s1) :
    SameVars s s1 ∧ s1.LED_2 = s.LED_2 ∧ Issues s s1 [] := by
  induction fuel generalizing s with
  | zero => simp [dfmemWaitReady] at h
  | succ fuel ih =>
    have hled : (dfmemIsReady chip s).2.LED_2 = s.LED_2 := by rw [dfmemIsReady_snd]
    unfold dfmemWaitReady at h
    by_cases h0 : (dfmemIsReady chip s).1 = 0
    · simp only [h0, if_true] at h
      obtain ⟨hv, hl, hi⟩ := ih _ h
      exact ⟨(dfmemIsReady_sameVars chip s).andThen hv, by rw [hl, hled],
        by simpa using (dfmemIsReady_issues chip s).followedBy hi⟩
    · simp only [h0, if_false, Option.some.injEq] at h
      subst h
      exact ⟨dfmemIsReady_sameVars chip s, hled, dfmemIsReady_issues chip s⟩

theorem dfmemWaitReady_some_of (chip : Nat → Nat) (fuel : Nat) (s : Dfmem)
    (h : ∃ k, k < fuel ∧ 128 ≤ chip (s.clock + 2 * k + 1) % 256) :
    ∃ s1, dfmemWaitReady chip fuel s = some s1 := by
  induction fuel generalizing s with
  | zero => obtain ⟨k, hk, _⟩ := h; omega
  | succ fuel ih =>
    obtain ⟨k, hk, hr⟩ := h
    unfold dfmemWaitReady
    by_cases h0 : (dfmemIsReady chip s).1 = 0
    · simp only [h0, if_true]
      have hk0 : k ≠ 0 := by
        intro hk0
        subst hk0
        rw [dfmemIsReady_fst] at h0
        simp at hr
        omega
      have hclock : (dfmemIsReady chip s).2.clock = s.clock + 2 := by
        rw [dfmemIsReady_snd]
      exact ih (dfmemIsReady chip s).2
        ⟨k - 1, by omega, by rw [hclock]; convert hr using 3; omega⟩
    · simp only [h0, if_false]
      exact ⟨_, rfl⟩

theorem dfmemWaitReady_some (chip : Nat → Nat) (fuel : Nat) (s : Dfmem)
    (h : Responsive chip fuel) : ∃ s1, dfmemWaitReady chip fuel s = some s1 :=
  dfmemWaitReady_some_of chip fuel s (h s.clock)

theorem dfmemSendCommand_eq (chip : Nat → Nat) (command : Nat) (s : Dfmem) :
    dfmemSendCommand chip command s =
      { s with clock := s.clock + 4,
               trace := s.trace ++ [BusEvent.select,
                 BusEvent.xfer command (chip s.clock % 256),
                 BusEvent.xfer (chr_addr s.MemAddr 2) (chip (s.clock + 1) % 256),
                 BusEvent.xfer (chr_addr s.MemAddr 1) (chip (s.clock + 2) % 256),
                 BusEvent.xfer (chr_addr s.MemAddr 0) (chip (s.clock + 3) % 256)] } := by
  simp [dfmemSendCommand, dfmemWriteByte, dfmemExchangeByte, dfmemSelectChip]

theorem payload_succ (data : Nat → Nat) (n i : Nat) :
    (List.range (n + 1)).map (fun k => data (i + k) % 256) =
      (data i % 256) :: (List.range n).map (fun k => data (i + 1 + k) % 256) := by
  rw [List.range_succ_eq_map]
  simp only [List.map_cons, List.map_map, Nat.add_zero]
  congr 1
  apply List.map_congr_left
  intro k _
  simp only [Function.comp]
  congr 2
  omega

theorem dfmemWriteData_spec (chip : Nat → Nat) (data : Nat → Nat) (n i : Nat) (s : Dfmem) :
    ∃ evs, (dfmemWriteData chip data n i s).trace = s.trace ++ evs ∧
      SameVars s (dfmemWriteData chip data n i s) ∧
      (dfmemWriteData chip data n i s).LED_2 = s.LED_2 ∧
      ∀ cur rest,
        framesFrom cur (evs ++ rest) =
          framesFrom (cur ++ (List.range n).map (fun k => data (i + k) % 256)) rest ∧
        openFrame cur (evs ++ rest) =
          openFrame (cur ++ (List.range n).map (fun k => data (i + k) % 256)) rest := by
  induction n generalizing i s with
  | zero => exact ⟨[], by simp [dfmemWriteData], by simp [dfmemWriteData, SameVars], rfl, by simp⟩
  | succ n ih =>
    obtain ⟨evs, ht, hv, hl, hf⟩ := ih (i + 1) (dfmemWriteByte chip (data i % 256) s)
    refine ⟨BusEvent.xfer (data i % 256) (chip s.clock % 256) :: evs, ?_, ?_, ?_, ?_⟩
    · simp only [dfmemWriteData]
      rw [ht]
      simp [dfmemWriteByte, dfmemExchangeByte]
    · simp only [dfmemWriteData]
      obtain ⟨a, b, c, d⟩ := hv
      exact ⟨by rw [a]; rfl, by rw [b]; rfl, by rw [c]; rfl, by rw [d]; rfl⟩
    · simp only [dfmemWriteData]
      rw [hl]; rfl
    · intro cur rest
      rw [payload_succ]
      simp only [List.cons_append, framesFrom, openFrame]
      have := hf (cur ++ [data i % 256]) rest
      simpa [List.append_assoc] using this

theorem sendCommandWithData_spec (chip : Nat → Nat) (cmd : Nat) (data : Nat → Nat)
    (length : Nat) (s : Dfmem) (hcmd7 : cmd ≠ 0xD7) :
    SameVars s (dfmemDeselectChip (dfmemWriteData chip data length 0
        (dfmemSendCommand chip cmd s))) ∧
      (dfmemDeselectChip (dfmemWriteData chip data length 0
        (dfmemSendCommand chip cmd s))).LED_2 = s.LED_2 ∧
      Issues s (dfmemDeselectChip (dfmemWriteData chip data length 0
        (dfmemSendCommand chip cmd s)))
        [[cmd, chr_addr s.MemAddr 2, chr_addr s.MemAddr 1, chr_addr s.MemAddr 0] ++
          (List.range length).map fun i => data i % 256] := by
  generalize hs6 : dfmemSendCommand chip cmd s = s6
  rw [dfmemSendCommand_eq] at hs6
  obtain ⟨evs, ht, hv, hl, hf⟩ := dfmemWriteData_spec chip data length 0 s6
  have h6v : SameVars s s6 := by subst hs6; simp [SameVars]
  have h6l : s6.LED_2 = s.LED_2 := by subst hs6; rfl
  have h6t : s6.trace = s.trace ++ [BusEvent.select,
      BusEvent.xfer cmd (chip s.clock % 256),
      BusEvent.xfer (chr_addr s.MemAddr 2) (chip (s.clock + 1) % 256),
      BusEvent.xfer (chr_addr s.MemAddr 1) (chip (s.clock + 2) % 256),
      BusEvent.xfer (chr_addr s.MemAddr 0) (chip (s.clock + 3) % 256)] := by subst hs6; rfl
  refine ⟨h6v.andThen hv, ?_, ?_⟩
  · show (dfmemWriteData chip data length 0 s6).LED_2 = s.LED_2
    rw [hl, h6l]
  · refine ⟨BusEvent.select ::
      BusEvent.xfer cmd (chip s.clock % 256) ::
      BusEvent.xfer (chr_addr s.MemAddr 2) (chip (s.clock + 1) % 256) ::
      BusEvent.xfer (chr_addr s.MemAddr 1) (chip (s.clock + 2) % 256) ::
      BusEvent.xfer (chr_addr s.MemAddr 0) (chip (s.clock + 3) % 256) ::
      (evs ++ [BusEvent.deselect]), ?_, ?_, ?_⟩
    · simp [dfmemDeselectChip, ht, h6t]
    · have := (hf [cmd, chr_addr s.MemAddr 2, chr_addr s.MemAddr 1, chr_addr s.MemAddr 0]
        [BusEvent.deselect]).1
      simp only [commands, List.cons_append, List.nil_append, framesFrom]
      rw [this]
      simp [isStatusPoll, framesFrom, hcmd7]
    · have := (hf [cmd, chr_addr s.MemAddr 2, chr_addr s.MemAddr 1, chr_addr s.MemAddr 0]
        [BusEvent.deselect]).2
      simp only [List.cons_append, List.nil_append, openFrame]
      rw [this]
      simp [openFrame]

theorem dfmemWriteBuffer_spec (chip : Nat → Nat) (data : Nat → Nat) (length byte buffer : Nat)
    (s : Dfmem) :
    SameVars s (dfmemWriteBuffer chip data length byte buffer s) ∧
      (dfmemWriteBuffer chip data length byte buffer s).LED_2 = s.LED_2 ∧
      Issues s (dfmemWriteBuffer chip data length byte buffer s)
        [bufferWriteFrame buffer byte data length] := by
  have hcmd7 : (if buffer = 1 then WRITE_TO_BUFFER1 else WRITE_TO_BUFFER2) ≠ 0xD7 := by
    split <;> simp [WRITE_TO_BUFFER1, WRITE_TO_BUFFER2]
  exact sendCommandWithData_spec chip _ data length { s with MemAddr := byte } hcmd7

theorem dfmemWrite_post (chip : Nat → Nat) (fuel : Nat) (data : Nat → Nat)
    (length page byte buffer : Nat) (s s1 : Dfmem)
    (h : dfmemWrite chip fuel data length page byte buffer s = some s1) :
    SameVars s s1 ∧
      Issues s s1 [(if buffer = 1 then WRITE_PAGE_VIA_BUFFER1 else WRITE_PAGE_VIA_BUFFER2) ::
        (addressBytes s.geom page byte ++ (List.range length).map fun i => data i % 256)] := by
  unfold dfmemWrite at h
  simp only [Option.map_eq_some'] at h
  obtain ⟨s0, hw, rfl⟩ := h
  obtain ⟨hv, _, hi⟩ := dfmemWaitReady_post chip fuel s s0 hw
  have hcmd7 : (if buffer = 1 then WRITE_PAGE_VIA_BUFFER1 else WRITE_PAGE_VIA_BUFFER2) ≠ 0xD7 := by
    split <;> simp [WRITE_PAGE_VIA_BUFFER1, WRITE_PAGE_VIA_BUFFER2]
  obtain ⟨hv', _, hi'⟩ := sendCommandWithData_spec chip _ data length
    { s0 with MemAddr := pageAddress s0.geom page byte } hcmd7
  have hv0 : SameVars s0 { s0 with MemAddr := pageAddress s0.geom page byte } := SameVars.same s0
  have hi0 : Issues s0 { s0 with MemAddr := pageAddress s0.geom page byte } [] := Issues.nothing s0
  refine ⟨(hv.andThen hv0).andThen hv', ?_⟩
  have := (hi.followedBy hi0).followedBy hi'
  rw [← hv.1]
  simpa [addressBytes] using this

theorem dfmemWriteBuffer2MemoryNoErase_post (chip : Nat → Nat) (fuel page buffer : Nat)
    (s s1 : Dfmem) (h : dfmemWriteBuffer2MemoryNoErase chip fuel page buffer s = some s1) :
    s1.geom = s.geom ∧ s1.currentBuffer = s.currentBuffer ∧ s1.currentBufferOffset = 0 ∧
      s1.nextPage = s.nextPage ∧ s1.LED_2 = s.LED_2 ∧
      Issues s s1 [commitFrame s.geom page buffer] := by
  unfold dfmemWriteBuffer2MemoryNoErase at h
  simp only [Option.map_eq_some', dfmemSendCommand_eq] at h
  obtain ⟨s0, hw, rfl⟩ := h
  obtain ⟨⟨hg, hb, _, hn⟩, hl, hi⟩ := dfmemWaitReady_post chip fuel s s0 hw
  refine ⟨by simp [dfmemDeselectChip, hg], by simp [dfmemDeselectChip, hb],
    by simp [dfmemDeselectChip], by simp [dfmemDeselectChip, hn],
    by simp [dfmemDeselectChip, hl], ?_⟩
  have hcmd7 : (if buffer = 1 then WRITE_BUFFER1_TO_PAGE_NO_ERASE
      else WRITE_BUFFER2_TO_PAGE_NO_ERASE) ≠ 0xD7 := by
    split <;> simp [WRITE_BUFFER1_TO_PAGE_NO_ERASE, WRITE_BUFFER2_TO_PAGE_NO_ERASE]
  rw [← hg]
  exact hi.followedBy (Issues.frame4 hcmd7 rfl)

theorem dfmemWriteBuffer2MemoryNoErase_some (chip : Nat → Nat) (fuel page buffer : Nat)
    (s : Dfmem) (h : Responsive chip fuel) :
    ∃ s1, dfmemWriteBuffer2MemoryNoErase chip fuel page buffer s = some s1 := by
  obtain ⟨s0, hw⟩ := dfmemWaitReady_some chip fuel s h
  rw [dfmemWriteBuffer2MemoryNoErase, hw]
  exact ⟨_, rfl⟩

theorem dfmemEraseSector_post (chip : Nat → Nat) (fuel page : Nat)
    (s s1 : Dfmem) (h : dfmemEraseSector chip fuel page s = some s1) :
    SameVars s s1 ∧ s1.LED_2 = s.LED_2 ∧ Issues s s1 [sectorEraseFrame s.geom page] := by
  unfold dfmemEraseSector at h
  simp only [Option.map_eq_some', dfmemSendCommand_eq] at h
  obtain ⟨s0, hw, rfl⟩ := h
  obtain ⟨⟨hg, hb, ho, hn⟩, hl, hi⟩ := dfmemWaitReady_post chip fuel s s0 hw
  refine ⟨⟨by simp [dfmemDeselectChip, hg], by simp [dfmemDeselectChip, hb],
    by simp [dfmemDeselectChip, ho], by simp [dfmemDeselectChip, hn]⟩,
    by simp [dfmemDeselectChip, hl], ?_⟩
  have hcmd7 : ERASE_SECTOR ≠ 0xD7 := by simp [ERASE_SECTOR]
  rw [← hg]
  exact hi.followedBy (Issues.frame4 hcmd7 rfl)

theorem dfmemEraseSector_some (chip : Nat → Nat) (fuel page : Nat)
    (s : Dfmem) (h : Responsive chip fuel) :
    ∃ s1, dfmemEraseSector chip fuel page s = some s1 := by
  obtain ⟨s0, hw⟩ := dfmemWaitReady_some chip fuel s h
  rw [dfmemEraseSector, hw]
  exact ⟨_, rfl⟩

theorem flushCurrentBuffer_post (chip : Nat → Nat) (fuel : Nat) (s s1 : Dfmem)
    (h : flushCurrentBuffer chip fuel s = some s1) :
    s1.geom = s.geom ∧ s1.currentBuffer = (if s.currentBuffer ≠ 0 then 0 else 1) ∧
      s1.currentBufferOffset = 0 ∧ s1.nextPage = (s.nextPage + 1) % 65536 ∧
      s1.LED_2 = s.LED_2 ∧
      Issues s s1 [commitFrame s.geom s.nextPage (s.currentBuffer % 256)] := by
  unfold flushCurrentBuffer at h
  simp only [Option.map_eq_some'] at h
  obtain ⟨s0, hc, rfl⟩ := h
  obtain ⟨hg, hb, _, hn, hl, hi⟩ := dfmemWriteBuffer2MemoryNoErase_post _ _ _ _ _ _ hc
  refine ⟨hg, by simp [hb], rfl, by simp [hn], hl, ?_⟩
  obtain ⟨evs, ht, hcs, ho⟩ := hi
  exact ⟨evs, ht, hcs, ho⟩

theorem flushCurrentBuffer_some (chip : Nat → Nat) (fuel : Nat) (s : Dfmem)
    (h : Responsive chip fuel) : ∃ s1, flushCurrentBuffer chip fuel s = some s1 := by
  obtain ⟨s0, hc⟩ := dfmemWriteBuffer2MemoryNoErase_some chip fuel s.nextPage
    (s.currentBuffer % 256) s h
  rw [flushCurrentBuffer, hc]
  exact ⟨_, rfl⟩

theorem dfmemSave_noflush (chip : Nat → Nat) (fuel : Nat) (data : Nat → Nat) (length : Nat)
    (s : Dfmem)
    (h : ¬ s.geom.dfmem_buffersize ≤ (s.currentBufferOffset + length) % 65536) :
    ∃ s1, dfmemSave chip fuel data length s = some s1 ∧ s1.geom = s.geom ∧
      s1.currentBuffer = s.currentBuffer ∧
      s1.currentBufferOffset = (s.currentBufferOffset + length) % 65536 ∧
      s1.nextPage = s.nextPage ∧ s1.LED_2 = s.LED_2 ∧
      Issues s s1 [bufferWriteFrame (s.currentBuffer % 256) s.currentBufferOffset data length] := by
  obtain ⟨⟨hg, hb, ho, hn⟩, hl, hi⟩ := dfmemWriteBuffer_spec chip data length
    s.currentBufferOffset (s.currentBuffer % 256) s
  have hs : dfmemSave chip fuel data length s = some
      { dfmemWriteBuffer chip data length s.currentBufferOffset (s.currentBuffer % 256) s with
        currentBufferOffset := ((dfmemWriteBuffer chip data length s.currentBufferOffset
          (s.currentBuffer % 256) s).currentBufferOffset + length) % 65536 } := by
    simp only [dfmemSave, h, if_false, Option.map_some']
  refine ⟨_, hs, hg, hb, ?_, hn, hl, ?_⟩
  · simp only [ho]
  · obtain ⟨evs, ht, hcs, hop⟩ := hi
    exact ⟨evs, ht, hcs, hop⟩

theorem dfmemSave_flush_post (chip : Nat → Nat) (fuel : Nat) (data : Nat → Nat) (length : Nat)
    (s s1 : Dfmem)
    (h : s.geom.dfmem_buffersize ≤ (s.currentBufferOffset + length) % 65536)
    (hs : dfmemSave chip fuel data length s = some s1) :
    s1.geom = s.geom ∧ s1.currentBuffer = (if s.currentBuffer ≠ 0 then 0 else 1) ∧
      s1.currentBufferOffset = length % 65536 ∧ s1.nextPage = (s.nextPage + 1) % 65536 ∧
      s1.LED_2 = s.LED_2 ∧
      Issues s s1 [commitFrame s.geom s.nextPage (s.currentBuffer % 256),
        bufferWriteFrame ((if s.currentBuffer ≠ 0 then 0 else 1) % 256) 0 data length] := by
  simp only [dfmemSave, h, if_true, Option.map_eq_some'] at hs
  obtain ⟨s0, hf, rfl⟩ := hs
  obtain ⟨hg, hb, ho, hn, hl, hi⟩ := flushCurrentBuffer_post chip fuel s s0 hf
  obtain ⟨⟨hg', hb', ho', hn'⟩, hl', hi'⟩ := dfmemWriteBuffer_spec chip data length
    s0.currentBufferOffset (s0.currentBuffer % 256) s0
  refine ⟨hg'.trans hg, hb'.trans hb, ?_, hn'.trans hn, hl'.trans hl, ?_⟩
  · show (_ + length) % 65536 = _
    rw [ho', ho, Nat.zero_add]
  · obtain ⟨evs, ht, hcs, hop⟩ := hi.followedBy hi'
    refine ⟨evs, ht, ?_, hop⟩
    rw [hcs, ho, hb]
    rfl

theorem dfmemSave_some (chip : Nat → Nat) (fuel : Nat) (data : Nat → Nat) (length : Nat)
    (s : Dfmem) (h : Responsive chip fuel) :
    ∃ s1, dfmemSave chip fuel data length s = some s1 := by
  by_cases hguard : s.geom.dfmem_buffersize ≤ (s.currentBufferOffset + length) % 65536
  · obtain ⟨s0, hf⟩ := flushCurrentBuffer_some chip fuel s h
    simp only [dfmemSave, hguard, if_true, hf]
    exact ⟨_, rfl⟩
  · obtain ⟨s1, hs, _⟩ := dfmemSave_noflush chip fuel data length s hguard
    exact ⟨s1, hs⟩

theorem dfmemSync_post (chip : Nat → Nat) (fuel : Nat) (s s1 : Dfmem)
    (hs : dfmemSync chip fuel s = some s1) :
    s1.geom = s.geom ∧ s1.LED_2 = s.LED_2 ∧ s1.currentBufferOffset = 0 ∧
      (s.currentBufferOffset ≠ 0 →
        s1.currentBuffer = (if s.currentBuffer ≠ 0 then 0 else 1) ∧
        s1.nextPage = (s.nextPage + 1) % 65536 ∧
        Issues s s1 [commitFrame s.geom s.nextPage (s.currentBuffer % 256)]) ∧
      (s.currentBufferOffset = 0 →
        s1.currentBuffer = s.currentBuffer ∧ s1.nextPage = s.nextPage ∧ Issues s s1 []) := by
  simp only [dfmemSync, Option.bind_eq_some] at hs
  obtain ⟨s0, hw, hrest⟩ := hs
  obtain ⟨⟨hg, hb, ho, hn⟩, hl, hi⟩ := dfmemWaitReady_post chip fuel s s0 hw
  by_cases h0 : s.currentBufferOffset = 0
  · have h0' : s0.currentBufferOffset = 0 := by rw [ho, h0]
    simp only [h0', ne_eq, not_true_eq_false, if_false, Option.some.injEq] at hrest
    subst hrest
    exact ⟨hg, hl, h0', fun hne => absurd h0 hne, fun _ => ⟨hb, hn, hi⟩⟩
  · have h0' : s0.currentBufferOffset ≠ 0 := by rw [ho]; exact h0
    simp only [h0', ne_eq, not_false_eq_true, if_true] at hrest
    obtain ⟨hg', hb', ho', hn', hl', hi'⟩ := flushCurrentBuffer_post chip fuel s0 s1 hrest
    refine ⟨by rw [hg', hg], by rw [hl', hl], ho', fun _ => ⟨by rw [hb', hb], by rw [hn', hn], ?_⟩,
      fun h => absurd h h0⟩
    rw [hg, hn, hb] at hi'
    simpa using hi.followedBy hi'

theorem dfmemSync_some (chip : Nat → Nat) (fuel : Nat) (s : Dfmem)
    (h : Responsive chip fuel) : ∃ s1, dfmemSync chip fuel s = some s1 := by
  obtain ⟨s0, hw⟩ := dfmemWaitReady_some chip fuel s h
  simp only [dfmemSync, hw, Option.some_bind]
  by_cases h0 : s0.currentBufferOffset = 0
  · simp [h0]
  · simp only [ne_eq, h0, not_false_eq_true, if_true]
    exact flushCurrentBuffer_some chip fuel s0 h

theorem alwaysReady_responsive : Responsive alwaysReady 1 :=
  fun _ => ⟨0, Nat.zero_lt_one, Nat.le_refl 128⟩

theorem Detected.buffersize_le {g : Geometry} (h : Detected g) : g.dfmem_buffersize ≤ 1056 := by
  rcases h with h | h | h | h <;> subst h <;> decide

theorem isCommit_commitFrame (g : Geometry) (page buffer : Nat) :
    isCommit (commitFrame g page buffer) = true := by
  unfold isCommit commitFrame
  split <;> simp

theorem isCommit_bufferWriteFrame (buffer byte : Nat) (data : Nat → Nat) (length : Nat) :
    isCommit (bufferWriteFrame buffer byte data length) = false := by
  unfold isCommit bufferWriteFrame
  split <;> simp [WRITE_TO_BUFFER1, WRITE_TO_BUFFER2, WRITE_BUFFER1_TO_PAGE_NO_ERASE,
    WRITE_BUFFER2_TO_PAGE_NO_ERASE]

theorem isBufferWrite_commitFrame (g : Geometry) (page buffer : Nat) :
    isBufferWrite (commitFrame g page buffer) = false := by
  unfold isBufferWrite commitFrame
  split <;> simp [WRITE_TO_BUFFER1, WRITE_TO_BUFFER2, WRITE_BUFFER1_TO_PAGE_NO_ERASE,
    WRITE_BUFFER2_TO_PAGE_NO_ERASE]

theorem isBufferWrite_bufferWriteFrame (buffer byte : Nat) (data : Nat → Nat) (length : Nat) :
    isBufferWrite (bufferWriteFrame buffer byte data length) = true := by
  unfold isBufferWrite bufferWriteFrame
  split <;> simp

theorem toggle_of_le_one {b : Nat} (h : b ≤ 1) : (if b ≠ 0 then 0 else 1) = 1 - b := by
  interval_cases b <;> simp

theorem dfmemSaveAll_fits (chip : Nat → Nat) (fuel : Nat) (writes : List ((Nat → Nat) × Nat))
    (s : Dfmem) (hsize : s.geom.dfmem_buffersize < 65536)
    (hsum : s.currentBufferOffset + (writes.map Prod.snd).sum < s.geom.dfmem_buffersize) :
    ∃ s', dfmemSaveAll chip fuel writes s = some s' ∧ s'.geom = s.geom ∧
      s'.currentBuffer = s.currentBuffer ∧
      s'.currentBufferOffset = s.currentBufferOffset + (writes.map Prod.snd).sum ∧
      s'.nextPage = s.nextPage ∧
      Issues s s' (sequentialWrites (s.currentBuffer % 256) s.currentBufferOffset writes) := by
  induction writes generalizing s with
  | nil => exact ⟨s, rfl, rfl, rfl, by simp, rfl, Issues.nothing s⟩
  | cons w rest ih =>
    simp only [List.map_cons, List.sum_cons] at hsum ⊢
    have hmod : (s.currentBufferOffset + w.2) % 65536 = s.currentBufferOffset + w.2 :=
      Nat.mod_eq_of_lt (by omega)
    obtain ⟨s1, hs1, hg1, hb1, ho1, hn1, _, hi1⟩ :=
      dfmemSave_noflush chip fuel w.1 w.2 s (by rw [hmod]; omega)
    rw [hmod] at ho1
    obtain ⟨s', hs', hg', hb', ho', hn', hi'⟩ := ih s1 (by rw [hg1]; exact hsize)
      (by rw [hg1, ho1]; omega)
    refine ⟨s', ?_, hg'.trans hg1, hb'.trans hb1, ?_, hn'.trans hn1, ?_⟩
    · simp only [dfmemSaveAll, hs1, Option.some_bind, hs']
    · rw [ho', ho1]; omega
    · rw [hb1, ho1] at hi'
      exact hi1.followedBy hi'

theorem sequentialWrites_no_commit (buffer byte : Nat) (writes : List ((Nat → Nat) × Nat)) :
    (sequentialWrites buffer byte writes).filter isCommit = [] := by
  induction writes generalizing byte with
  | nil => rfl
  | cons w rest ih =>
    simp only [sequentialWrites, List.filter, isCommit_bufferWriteFrame]
    exact ih _

theorem busyAtFirst_responsive : Responsive busyAtFirst 4 := by
  intro c
  refine ⟨3, by decide, ?_⟩
  have h : ¬ c + 2 * 3 + 1 < 7 := by omega
  simp only [busyAtFirst, h, if_false]
  decide

theorem eraseLeadout_post (chip : Nat → Nat) (fuel : Nat) (s s1 : Dfmem)
    (h : eraseLeadout chip fuel s = some s1) : SameVars s s1 ∧ Issues s s1 [] := by
  induction fuel generalizing s with
  | zero => simp [eraseLeadout] at h
  | succ fuel ih =>
    unfold eraseLeadout at h
    by_cases h0 : (dfmemIsReady chip s).1 = 0
    · simp only [h0, if_true] at h
      obtain ⟨hv, hi⟩ := ih _ h
      have hv0 : SameVars s { (dfmemIsReady chip s).2 with
          LED_2 := 1 - (dfmemIsReady chip s).2.LED_2 } := dfmemIsReady_sameVars chip s
      have hi0 : Issues s { (dfmemIsReady chip s).2 with
          LED_2 := 1 - (dfmemIsReady chip s).2.LED_2 } [] := dfmemIsReady_issues chip s
      exact ⟨hv0.andThen hv, by simpa using hi0.followedBy hi⟩
    · simp only [h0, if_false, Option.some.injEq] at h
      subst h
      exact ⟨dfmemIsReady_sameVars chip s, dfmemIsReady_issues chip s⟩

theorem eraseLeadout_some_of (chip : Nat → Nat) (fuel : Nat) (s : Dfmem)
    (h : ∃ k, k < fuel ∧ 128 ≤ chip (s.clock + 2 * k + 1) % 256) :
    ∃ s1, eraseLeadout chip fuel s = some s1 := by
  induction fuel generalizing s with
  | zero => obtain ⟨k, hk, _⟩ := h; omega
  | succ fuel ih =>
    obtain ⟨k, hk, hr⟩ := h
    unfold eraseLeadout
    by_cases h0 : (dfmemIsReady chip s).1 = 0
    · simp only [h0, if_true]
      have hk0 : k ≠ 0 := by
        intro hk0
        subst hk0
        rw [dfmemIsReady_fst] at h0
        simp at hr
        omega
      have hclock : ({ (dfmemIsReady chip s).2 with
          LED_2 := 1 - (dfmemIsReady chip s).2.LED_2 } : Dfmem).clock = s.clock + 2 := by
        show (dfmemIsReady chip s).2.clock = _
        rw [dfmemIsReady_snd]
      exact ih _ ⟨k - 1, by omega, by rw [hclock]; convert hr using 3; omega⟩
    · simp only [h0, if_false]
      exact ⟨_, rfl⟩

theorem eraseSectorsLoop_post (chip : Nat → Nat) (fuel n i : Nat) (s s1 : Dfmem)
    (h : eraseSectorsLoop chip fuel n i s = some s1) :
    SameVars s s1 ∧
      Issues s s1 ((List.range n).map fun k =>
        sectorEraseFrame s.geom ((s.geom.dfmem_pages_per_sector * (i + k)) % 65536)) := by
  induction n generalizing i s with
  | zero =>
    simp only [eraseSectorsLoop, Option.some.injEq] at h
    subst h
    exact ⟨SameVars.same s, Issues.nothing s⟩
  | succ n ih =>
    simp only [eraseSectorsLoop, Option.bind_eq_some] at h
    obtain ⟨sa, hw, sb, he, hrest⟩ := h
    obtain ⟨hva, _, hia⟩ := dfmemWaitReady_post chip fuel s sa hw
    have hvl : SameVars sa { sa with LED_2 := 1 - sa.LED_2 } := SameVars.same sa
    have hil : Issues sa { sa with LED_2 := 1 - sa.LED_2 } [] := Issues.nothing sa
    obtain ⟨hvb, _, hib⟩ := dfmemEraseSector_post chip fuel _ _ sb he
    obtain ⟨hvc, hic⟩ := ih (i + 1) sb hrest
    have hgb : sb.geom = s.geom := ((hva.andThen hvl).andThen hvb).1
    refine ⟨((hva.andThen hvl).andThen hvb).andThen hvc, ?_⟩
    have hga : ({ sa with LED_2 := 1 - sa.LED_2 } : Dfmem).geom = s.geom := hva.1
    rw [hga] at hib
    rw [hgb] at hic
    have := ((hia.followedBy hil).followedBy hib).followedBy hic
    rw [List.range_succ_eq_map, List.map_cons, List.map_map]
    simpa [Function.comp, Nat.add_assoc, Nat.add_comm 1] using this

theorem eraseSectorsLoop_some (chip : Nat → Nat) (fuel n i : Nat) (s : Dfmem)
    (h : Responsive chip fuel) : ∃ s1, eraseSectorsLoop chip fuel n i s = some s1 := by
  induction n generalizing i s with
  | zero => exact ⟨s, rfl⟩
  | succ n ih =>
    obtain ⟨sa, hw⟩ := dfmemWaitReady_some chip fuel s h
    obtain ⟨sb, he⟩ := dfmemEraseSector_some chip fuel
      ((s.geom.dfmem_pages_per_sector * i) % 65536) { sa with LED_2 := 1 - sa.LED_2 } h
    obtain ⟨sc, hc⟩ := ih (i + 1) sb
    exact ⟨sc, by simp only [eraseSectorsLoop, hw, Option.some_bind, he, hc]⟩

theorem eraseSectorsForSamples_zero_eq (chip : Nat → Nat) (fuel sampLen : Nat) (s : Dfmem) :
    dfMemEraseSectorsForSamples chip fuel 0 sampLen s = some { s with LED_2 := 1 } := by
  simp [dfMemEraseSectorsForSamples]

theorem dfMemEraseSectorsForSamples_post (chip : Nat → Nat) (fuel numSamples sampLen : Nat)
    (s s1 : Dfmem) (hn : numSamples ≠ 0)
    (h : dfMemEraseSectorsForSamples chip fuel numSamples sampLen s = some s1) :
    s1.geom = s.geom ∧ s1.currentBuffer = 0 ∧ s1.currentBufferOffset = 0 ∧ s1.nextPage = 0 ∧
      Issues s s1 (sectorEraseFrame s.geom 0 :: sectorEraseFrame s.geom 8 ::
        (List.range (planNumSectors s.geom
            (planNumPages numSamples (s.geom.dfmem_bytes_per_page / sampLen)))).map fun k =>
          sectorEraseFrame s.geom ((s.geom.dfmem_pages_per_sector * (1 + k)) % 65536)) := by
  unfold dfMemEraseSectorsForSamples at h
  simp only [hn, if_false] at h
  split at h
  · simp at h
  split at h
  · simp at h
  split at h
  · simp at h
  split at h
  · simp at h
  simp only [Option.bind_eq_some, Option.map_eq_some'] at h
  obtain ⟨sa, ha, sb, hb, sc, hc, sd, hd, rfl⟩ := h
  have hi0 : Issues s { s with LED_2 := 1 } [] := Issues.nothing s
  obtain ⟨hva, _, hia⟩ := dfmemEraseSector_post chip fuel 0 _ sa ha
  obtain ⟨hvb, _, hib⟩ := dfmemEraseSector_post chip fuel 8 sa sb hb
  obtain ⟨hvc, hic⟩ := eraseSectorsLoop_post chip fuel _ 1 sb sc hc
  obtain ⟨hvd, hid⟩ := eraseLeadout_post chip fuel sc sd hd
  have hga : sa.geom = s.geom := hva.1
  have hgb : sb.geom = s.geom := (hva.andThen hvb).1
  have hgd : sd.geom = s.geom := (((hva.andThen hvb).andThen hvc).andThen hvd).1
  refine ⟨hgd, rfl, rfl, rfl, ?_⟩
  rw [hga] at hib
  rw [hgb] at hic
  have hgs : ({ s with LED_2 := 1 } : Dfmem).geom = s.geom := rfl
  rw [hgs] at hia
  obtain ⟨evs, ht, hcs, hop⟩ := (((hi0.followedBy hia).followedBy hib).followedBy hic).followedBy hid
  exact ⟨evs, ht, by simpa using hcs, hop⟩

theorem dfMemEraseSectorsForSamples_some (chip : Nat → Nat) (fuel numSamples sampLen : Nat)
    (s : Dfmem) (h : Responsive chip fuel) (hl : sampLen ≠ 0)
    (hspp : s.geom.dfmem_bytes_per_page / sampLen ≠ 0)
    (hpps : s.geom.dfmem_pages_per_sector ≠ 0)
    (hns : planNumSectors s.geom
      (planNumPages numSamples (s.geom.dfmem_bytes_per_page / sampLen)) < 32767) :
    ∃ s1, dfMemEraseSectorsForSamples chip fuel numSamples sampLen s = some s1 := by
  by_cases hn : numSamples = 0
  · exact ⟨_, by rw [hn]; exact eraseSectorsForSamples_zero_eq chip fuel sampLen s⟩
  obtain ⟨sa, ha⟩ := dfmemEraseSector_some chip fuel 0 { s with LED_2 := 1 } h
  obtain ⟨sb, hb⟩ := dfmemEraseSector_some chip fuel 8 sa h
  obtain ⟨sc, hc⟩ := eraseSectorsLoop_some chip fuel (planNumSectors s.geom
      (planNumPages numSamples (s.geom.dfmem_bytes_per_page / sampLen))) 1 sb h
  obtain ⟨sd, hd⟩ := eraseLeadout_some_of chip fuel sc (h sc.clock)
  have hns' : ¬ 32767 ≤ planNumSectors s.geom
      (planNumPages numSamples (s.geom.dfmem_bytes_per_page / sampLen)) := by omega
  simp only [dfMemEraseSectorsForSamples, hn, hl, hspp, hpps, hns', if_false, ha,
    Option.some_bind, hb, hc, hd, Option.map_some']
  exact ⟨_, rfl⟩

theorem planNumPages_eq (numSamples spp : Nat) (h0 : 0 < spp) (h1 : spp ≤ 1056)
    (h : ceilDiv numSamples spp < 65536) : planNumPages numSamples spp = ceilDiv numSamples spp := by
  unfold ceilDiv at h
  have hlt : numSamples + spp - 1 < 65536 * spp := (Nat.div_lt_iff_lt_mul h0).1 h
  have e1 : (numSamples + spp - 1) % 2 ^ 32 = numSamples + spp - 1 :=
    Nat.mod_eq_of_lt (by omega)
  unfold planNumPages ceilDiv
  rw [e1, Nat.mod_eq_of_lt h]

theorem Detected.cases_pps {g : Geometry} (h : Detected g) :
    (g.dfmem_pages_per_sector = 256 ∨ g.dfmem_pages_per_sector = 128) ∧
      g.dfmem_bytes_per_page ≤ 1056 ∧ 0 < g.dfmem_bytes_per_page := by
  rcases h with h | h | h | h <;> subst h <;> decide

theorem planNumSectors_lt (g : Geometry) (h : Detected g) (numPages : Nat) :
    planNumSectors g numPages < 32767 := by
  obtain ⟨hp | hp, _, _⟩ := h.cases_pps <;> (unfold planNumSectors; rw [hp]; omega)

theorem samplesPerPage_pos (g : Geometry) (sampLen : Nat) (hl1 : 1 ≤ sampLen)
    (hl2 : sampLen ≤ g.dfmem_bytes_per_page) : 0 < g.dfmem_bytes_per_page / sampLen :=
  Nat.div_pos hl2 hl1

theorem ceilDiv_eq_ceilDiv (a b : Nat) : ceilDiv a b = a ⌈/⌉ b :=
  (Nat.ceilDiv_eq_add_pred_div a b).symm

theorem runCall_offset_bounded (chip : Nat → Nat) (fuel : Nat) (c : CacheCall) (s s' : Dfmem)
    (ho : s.currentBufferOffset ≤ s.geom.dfmem_buffersize)
    (hc : SavesAtMost s.geom.dfmem_buffersize [c])
    (hrun : runCall chip fuel c s = some s') :
    s'.geom = s.geom ∧ s'.currentBufferOffset ≤ s.geom.dfmem_buffersize := by
  cases c with
  | save data length =>
    simp only [SavesAtMost, and_true] at hc
    simp only [runCall] at hrun
    by_cases hguard : s.geom.dfmem_buffersize ≤ (s.currentBufferOffset + length) % 65536
    · obtain ⟨hg, _, ho', _⟩ := dfmemSave_flush_post chip fuel data length s s' hguard hrun
      exact ⟨hg, by rw [ho']; exact Nat.le_trans (Nat.mod_le _ _) hc⟩
    · obtain ⟨s1, hs1, hg, _, ho', _⟩ := dfmemSave_noflush chip fuel data length s hguard
      rw [hs1, Option.some.injEq] at hrun
      subst hrun
      exact ⟨hg, by rw [ho']; omega⟩
  | sync =>
    simp only [runCall] at hrun
    obtain ⟨hg, _, ho', _⟩ := dfmemSync_post chip fuel s s' hrun
    exact ⟨hg, by rw [ho']; exact Nat.zero_le _⟩
  | eraseSectors numSamples sampLen =>
    simp only [runCall] at hrun
    by_cases hn : numSamples = 0
    · rw [hn, eraseSectorsForSamples_zero_eq, Option.some.injEq] at hrun
      subst hrun
      exact ⟨rfl, ho⟩
    · obtain ⟨hg, _, ho', _⟩ := dfMemEraseSectorsForSamples_post chip fuel numSamples
        sampLen s s' hn hrun
      exact ⟨hg, by rw [ho']; exact Nat.zero_le _⟩

theorem SavesAtMost.head {bound : Nat} {c : CacheCall} {rest : List CacheCall}
    (h : SavesAtMost bound (c :: rest)) : SavesAtMost bound [c] ∧ SavesAtMost bound rest := by
  cases c <;> simp_all [SavesAtMost]

theorem runCalls_offset_bounded (chip : Nat → Nat) (fuel : Nat) (calls : List CacheCall)
    (s s' : Dfmem) (ho : s.currentBufferOffset ≤ s.geom.dfmem_buffersize)
    (hc : SavesAtMost s.geom.dfmem_buffersize calls)
    (hrun : runCalls chip fuel calls s = some s') :
    s'.geom = s.geom ∧ s'.currentBufferOffset ≤ s.geom.dfmem_buffersize := by
  induction calls generalizing s with
  | nil =>
    simp only [runCalls, Option.some.injEq] at hrun
    subst hrun
    exact ⟨rfl, ho⟩
  | cons c rest ih =>
    simp only [runCalls, Option.bind_eq_some] at hrun
    obtain ⟨s1, h1, hrest⟩ := hrun
    obtain ⟨hc1, hcr⟩ := hc.head
    obtain ⟨hg1, ho1⟩ := runCall_offset_bounded chip fuel c s s1 ho hc1 h1
    obtain ⟨hg', ho'⟩ := ih s1 (by rw [hg1]; exact ho1) (by rw [hg1]; exact hcr) hrest
    exact ⟨hg'.trans hg1, by rw [hg1] at ho'; exact ho'⟩

/-! ## Exchanges -/

theorem exchangesFrom_append (a b : List BusEvent) (cur : List (Nat × Nat)) :
    exchangesFrom cur (a ++ b) =
      exchangesFrom cur a ++ exchangesFrom (openExchange cur a) b := by
  induction a generalizing cur with
  | nil => simp [exchangesFrom, openExchange]
  | cons e t ih =>
    cases e <;> simp [exchangesFrom, openExchange, ih]

theorem openExchange_append (a b : List BusEvent) (cur : List (Nat × Nat)) :
    openExchange cur (a ++ b) = openExchange (openExchange cur a) b := by
  induction a generalizing cur with
  | nil => simp [openExchange]
  | cons e t ih =>
    cases e <;> simp [openExchange, ih]

theorem exchangesFrom_xfers (pairs : List (Nat × Nat)) (cur : List (Nat × Nat))
    (rest : List BusEvent) :
    exchangesFrom cur ((pairs.map fun p => BusEvent.xfer p.1 p.2) ++ rest) =
      exchangesFrom (cur ++ pairs) rest := by
  induction pairs generalizing cur with
  | nil => simp
  | cons p t ih =>
    have := ih (cur ++ [(p.1, p.2)])
    simpa [exchangesFrom] using this

theorem exchangesFrom_oneFrame (pairs : List (Nat × Nat)) :
    exchangesFrom [] ((BusEvent.select :: pairs.map fun p => BusEvent.xfer p.1 p.2) ++
      [BusEvent.deselect]) = [pairs] := by
  have := exchangesFrom_xfers pairs [] [BusEvent.deselect]
  simpa [exchangesFrom] using this

theorem eventsSince_of_trace {s later : Dfmem} {evs : List BusEvent}
    (h : later.trace = s.trace ++ evs) : eventsSince s later = evs := by
  simp [eventsSince, h]

theorem dfmemWaitReady_polls (chip : Nat → Nat) (fuel : Nat) (s s1 : Dfmem)
    (h : dfmemWaitReady chip fuel s = some s1) :
    ∃ evs busy ready, s1.trace = s.trace ++ evs ∧
      exchangesFrom [] evs = busy ++ [ready] ∧ (∀ p ∈ busy, BusyPoll p) ∧ ReadyPoll ready ∧
      openExchange [] evs = [] := by
  induction fuel generalizing s with
  | zero => simp [dfmemWaitReady] at h
  | succ fuel ih =>
    have htr : (dfmemIsReady chip s).2.trace = s.trace ++ [BusEvent.select,
        BusEvent.xfer 0xD7 (chip s.clock % 256),
        BusEvent.xfer 0 (chip (s.clock + 1) % 256), BusEvent.deselect] := by
      rw [dfmemIsReady_snd]
    have hex : exchangesFrom [] [BusEvent.select, BusEvent.xfer 0xD7 (chip s.clock % 256),
        BusEvent.xfer 0 (chip (s.clock + 1) % 256), BusEvent.deselect] =
        [[(0xD7, chip s.clock % 256), (0, chip (s.clock + 1) % 256)]] := by
      simp [exchangesFrom]
    have hop : openExchange [] [BusEvent.select, BusEvent.xfer 0xD7 (chip s.clock % 256),
        BusEvent.xfer 0 (chip (s.clock + 1) % 256), BusEvent.deselect] = [] := by
      simp [openExchange]
    unfold dfmemWaitReady at h
    by_cases h0 : (dfmemIsReady chip s).1 = 0
    · simp only [h0, if_true] at h
      obtain ⟨evs, busy, ready, ht, he, hb, hr, ho⟩ := ih _ h
      rw [dfmemIsReady_fst] at h0
      refine ⟨[BusEvent.select, BusEvent.xfer 0xD7 (chip s.clock % 256),
        BusEvent.xfer 0 (chip (s.clock + 1) % 256), BusEvent.deselect] ++ evs,
        [(0xD7, chip s.clock % 256), (0, chip (s.clock + 1) % 256)] :: busy,
        ready, ?_, ?_, ?_, hr, ?_⟩
      · rw [ht, htr, List.append_assoc]
      · rw [exchangesFrom_append, hex, hop, he]
        rfl
      · intro p hp
        rcases List.mem_cons.1 hp with hp | hp
        · exact ⟨_, _, hp, by omega⟩
        · exact hb p hp
      · rw [openExchange_append, hop, ho]
    · simp only [h0, if_false, Option.some.injEq] at h
      subst h
      rw [dfmemIsReady_fst] at h0
      exact ⟨_, [], _, htr, by rw [hex]; rfl, by simp, ⟨_, _, rfl, by omega⟩, hop⟩

theorem waitThenFrame_of (chip : Nat → Nat) (fuel : Nat) (s s0 s1 : Dfmem)
    (pairs : List (Nat × Nat)) (hw : dfmemWaitReady chip fuel s = some s0)
    (hf : OneFrame s0 s1 pairs) :
    WaitThenFrame (exchangesFrom [] (eventsSince s s1)) pairs := by
  obtain ⟨evs, busy, ready, ht, he, hb, hr, ho⟩ := dfmemWaitReady_polls chip fuel s s0 hw
  unfold OneFrame at hf
  have htr : s1.trace = s.trace ++ (evs ++ ((BusEvent.select ::
      pairs.map fun p => BusEvent.xfer p.1 p.2) ++ [BusEvent.deselect])) := by
    rw [hf, ht]; simp
  refine ⟨busy, ready, ?_, hb, hr⟩
  rw [eventsSince_of_trace htr, exchangesFrom_append, ho, he, exchangesFrom_oneFrame]
  simp

/-- The frame sent by `dfmemSendCommand` followed by a deselect. -/
theorem oneFrame_sendCommand (chip : Nat → Nat) (cmd : Nat) (s later : Dfmem)
    (ht : later.trace = (dfmemDeselectChip (dfmemSendCommand chip cmd s)).trace) :
    OneFrame s later [(cmd, chip s.clock % 256),
      (chr_addr s.MemAddr 2, chip (s.clock + 1) % 256),
      (chr_addr s.MemAddr 1, chip (s.clock + 2) % 256),
      (chr_addr s.MemAddr 0, chip (s.clock + 3) % 256)] := by
  unfold OneFrame
  rw [ht, dfmemSendCommand_eq]
  simp [dfmemDeselectChip]

/-! ## Frames of the raw operations -/

theorem frameOp_spec (chip : Nat → Nat) (cmd a : Nat) (s0 : Dfmem) :
    ∃ frame, OneFrame s0 (dfmemDeselectChip (dfmemSendCommand chip cmd
        { s0 with MemAddr := a })) frame ∧
      frame.map Prod.fst = [cmd, chr_addr a 2, chr_addr a 1, chr_addr a 0] ∧
      SameVars s0 (dfmemDeselectChip (dfmemSendCommand chip cmd { s0 with MemAddr := a })) := by
  refine ⟨_, oneFrame_sendCommand chip cmd { s0 with MemAddr := a } _ rfl, by simp, ?_⟩
  rw [dfmemSendCommand_eq]
  simp [SameVars, dfmemDeselectChip]

theorem dfmemWriteData_xfers (chip : Nat → Nat) (data : Nat → Nat) (n i : Nat) (s : Dfmem) :
    ∃ pairs : List (Nat × Nat), (dfmemWriteData chip data n i s).trace =
        s.trace ++ (pairs.map fun p => BusEvent.xfer p.1 p.2) ∧
      pairs.map Prod.fst = (List.range n).map (fun k => data (i + k) % 256) := by
  induction n generalizing i s with
  | zero => exact ⟨[], by simp [dfmemWriteData], by simp⟩
  | succ n ih =>
    obtain ⟨pairs, ht, hp⟩ := ih (i + 1) (dfmemWriteByte chip (data i % 256) s)
    refine ⟨(data i % 256, chip s.clock % 256) :: pairs, ?_, ?_⟩
    · simp only [dfmemWriteData]
      rw [ht]
      simp [dfmemWriteByte, dfmemExchangeByte]
    · rw [payload_succ, List.map_cons, hp]

theorem dfmemReadData_spec (chip : Nat → Nat) (n : Nat) (s : Dfmem) :
    (dfmemReadData chip n s).2.trace =
        s.trace ++ ((dfmemReadData chip n s).1.map fun d => BusEvent.xfer 0 d) ∧
      (dfmemReadData chip n s).1.length = n ∧
      SameVars s (dfmemReadData chip n s).2 := by
  induction n generalizing s with
  | zero => simp [dfmemReadData, SameVars]
  | succ n ih =>
    obtain ⟨ht, hl, hv⟩ := ih (dfmemReadByte chip s).2
    refine ⟨?_, ?_, ?_⟩
    · simp only [dfmemReadData]
      rw [ht]
      simp [dfmemReadByte, dfmemExchangeByte]
    · simp only [dfmemReadData, List.length_cons, hl]
    · simp only [dfmemReadData]
      exact SameVars.andThen (by simp [SameVars, dfmemReadByte, dfmemExchangeByte]) hv

theorem dfmemWrite_frame (chip : Nat → Nat) (fuel : Nat) (data : Nat → Nat)
    (length page byte buffer : Nat) (s s1 : Dfmem)
    (h : dfmemWrite chip fuel data length page byte buffer s = some s1) :
    ∃ s0 frame, dfmemWaitReady chip fuel s = some s0 ∧ OneFrame s0 s1 frame ∧
      frame.map Prod.fst =
        (if buffer = 1 then WRITE_PAGE_VIA_BUFFER1 else WRITE_PAGE_VIA_BUFFER2) ::
          (addressBytes s.geom page byte ++ (List.range length).map fun i => data i % 256) := by
  unfold dfmemWrite at h
  simp only [Option.map_eq_some'] at h
  obtain ⟨s0, hw, rfl⟩ := h
  obtain ⟨⟨hg, _, _, _⟩, _, _⟩ := dfmemWaitReady_post chip fuel s s0 hw
  obtain ⟨pairs, ht, hp⟩ := dfmemWriteData_xfers chip data length 0
    (dfmemSendCommand chip (if buffer = 1 then WRITE_PAGE_VIA_BUFFER1 else WRITE_PAGE_VIA_BUFFER2)
      { s0 with MemAddr := pageAddress s0.geom page byte })
  refine ⟨s0, [(if buffer = 1 then WRITE_PAGE_VIA_BUFFER1 else WRITE_PAGE_VIA_BUFFER2,
        chip s0.clock % 256),
      (chr_addr (pageAddress s0.geom page byte) 2, chip (s0.clock + 1) % 256),
      (chr_addr (pageAddress s0.geom page byte) 1, chip (s0.clock + 2) % 256),
      (chr_addr (pageAddress s0.geom page byte) 0, chip (s0.clock + 3) % 256)] ++ pairs,
    hw, ?_, ?_⟩
  · unfold OneFrame
    show (dfmemWriteData chip data length 0 _).trace ++ [BusEvent.deselect] = _
    rw [ht, dfmemSendCommand_eq]
    simp
  · rw [List.map_append, hp, ← hg]
    simp [addressBytes]

theorem dfmemRead_frame (chip : Nat → Nat) (fuel : Nat) (page byte length : Nat)
    (s : Dfmem) (r : List Nat × Dfmem) (h : dfmemRead chip fuel page byte length s = some r) :
    ∃ s0 frame, dfmemWaitReady chip fuel s = some s0 ∧ OneFrame s0 r.2 frame ∧
      frame.map Prod.fst =
        READ_PAGE :: (addressBytes s.geom page byte ++ [0, 0, 0, 0] ++ List.replicate length 0) ∧
      (frame.drop 8).map Prod.snd = r.1 ∧ r.1.length = length ∧ SameVars s r.2 := by
  unfold dfmemRead at h
  simp only [Option.map_eq_some'] at h
  obtain ⟨s0, hw, rfl⟩ := h
  obtain ⟨hv0, _, _⟩ := dfmemWaitReady_post chip fuel s s0 hw
  have hg := hv0.1
  generalize hs6 : dfmemWriteByte chip 0x00 (dfmemWriteByte chip 0x00 (dfmemWriteByte chip 0x00
    (dfmemWriteByte chip 0x00 (dfmemSendCommand chip READ_PAGE
      { s0 with MemAddr := pageAddress s0.geom page byte })))) = s6
  obtain ⟨ht, hl, hv⟩ := dfmemReadData_spec chip length s6
  have e1 : ((dfmemReadData chip length s6).1.map fun d => ((0 : Nat), d)).map Prod.fst =
      List.replicate length 0 := by
    rw [List.map_map]
    show List.map (fun _ => 0) _ = _
    rw [List.map_const', hl]
  have e2 : ((dfmemReadData chip length s6).1.map fun d => ((0 : Nat), d)).map Prod.snd =
      (dfmemReadData chip length s6).1 := by
    rw [List.map_map]
    show List.map (fun d => d) _ = _
    simp
  have h6t : s6.trace = s0.trace ++ [BusEvent.select,
      BusEvent.xfer READ_PAGE (chip s0.clock % 256),
      BusEvent.xfer (chr_addr (pageAddress s0.geom page byte) 2) (chip (s0.clock + 1) % 256),
      BusEvent.xfer (chr_addr (pageAddress s0.geom page byte) 1) (chip (s0.clock + 2) % 256),
      BusEvent.xfer (chr_addr (pageAddress s0.geom page byte) 0) (chip (s0.clock + 3) % 256),
      BusEvent.xfer 0 (chip (s0.clock + 4) % 256),
      BusEvent.xfer 0 (chip (s0.clock + 5) % 256),
      BusEvent.xfer 0 (chip (s0.clock + 6) % 256),
      BusEvent.xfer 0 (chip (s0.clock + 7) % 256)] := by
    subst hs6
    rw [dfmemSendCommand_eq]
    simp [dfmemWriteByte, dfmemExchangeByte]
  have h6v : SameVars s0 s6 := by
    subst hs6
    rw [dfmemSendCommand_eq]
    simp [SameVars, dfmemWriteByte, dfmemExchangeByte]
  refine ⟨s0, [(READ_PAGE, chip s0.clock % 256),
      (chr_addr (pageAddress s0.geom page byte) 2, chip (s0.clock + 1) % 256),
      (chr_addr (pageAddress s0.geom page byte) 1, chip (s0.clock + 2) % 256),
      (chr_addr (pageAddress s0.geom page byte) 0, chip (s0.clock + 3) % 256),
      (0, chip (s0.clock + 4) % 256), (0, chip (s0.clock + 5) % 256),
      (0, chip (s0.clock + 6) % 256), (0, chip (s0.clock + 7) % 256)] ++
      ((dfmemReadData chip length s6).1.map fun d => (0, d)), hw, ?_, ?_, ?_, hl, ?_⟩
  · unfold OneFrame
    show (dfmemReadData chip length s6).2.trace ++ [BusEvent.deselect] = _
    rw [ht, h6t]
    simp [List.map_map, Function.comp]
  · rw [List.map_append, e1, ← hg]
    simp [addressBytes]
  · rw [List.drop_append_of_le_length (by simp)]
    simp
  · exact (hv0.andThen h6v).andThen hv

theorem dfmemWrite_some (chip : Nat → Nat) (fuel : Nat) (data : Nat → Nat)
    (length page byte buffer : Nat) (s : Dfmem) (h : Responsive chip fuel) :
    ∃ s1, dfmemWrite chip fuel data length page byte buffer s = some s1 := by
  obtain ⟨s0, hw⟩ := dfmemWaitReady_some chip fuel s h
  rw [dfmemWrite, hw]
  exact ⟨_, rfl⟩

theorem head_of_map_fst {frame : List (Nat × Nat)} {x : Nat} {rest : List Nat}
    (h : frame.map Prod.fst = x :: rest) : frame.head?.map Prod.fst = some x := by
  cases frame with
  | nil => simp at h
  | cons p t =>
    simp only [List.map_cons, List.cons.injEq] at h
    simp [h.1]

theorem addressedOp_post (chip : Nat → Nat) (fuel cmd page : Nat) (s s1 : Dfmem)
    (h : (dfmemWaitReady chip fuel s).map (fun s0 =>
        dfmemDeselectChip (dfmemSendCommand chip cmd
          { s0 with MemAddr := pageAddress s0.geom page 0 })) = some s1) :
    ∃ s0 frame, dfmemWaitReady chip fuel s = some s0 ∧ OneFrame s0 s1 frame ∧
      frame.map Prod.fst = cmd :: addressBytes s.geom page 0 ∧ SameVars s s1 := by
  simp only [Option.map_eq_some'] at h
  obtain ⟨s0, hw, rfl⟩ := h
  obtain ⟨hv, _, _⟩ := dfmemWaitReady_post chip fuel s s0 hw
  obtain ⟨frame, hf, hm, hv'⟩ := frameOp_spec chip cmd (pageAddress s0.geom page 0) s0
  refine ⟨s0, frame, hw, hf, ?_, hv.andThen hv'⟩
  rw [hm, ← hv.1]
  simp [addressBytes]

theorem dfmemWriteBuffer2MemoryNoErase_frame (chip : Nat → Nat) (fuel page buffer : Nat)
    (s s1 : Dfmem) (h : dfmemWriteBuffer2MemoryNoErase chip fuel page buffer s = some s1) :
    ∃ s0 frame, dfmemWaitReady chip fuel s = some s0 ∧ OneFrame s0 s1 frame ∧
      frame.map Prod.fst =
        (if buffer = 1 then WRITE_BUFFER1_TO_PAGE_NO_ERASE else WRITE_BUFFER2_TO_PAGE_NO_ERASE) ::
          addressBytes s.geom page 0 := by
  unfold dfmemWriteBuffer2MemoryNoErase at h
  simp only [Option.map_eq_some'] at h
  obtain ⟨s0, hw, rfl⟩ := h
  obtain ⟨hv, _, _⟩ := dfmemWaitReady_post chip fuel s s0 hw
  refine ⟨s0, _, hw, oneFrame_sendCommand chip
    (if buffer = 1 then WRITE_BUFFER1_TO_PAGE_NO_ERASE else WRITE_BUFFER2_TO_PAGE_NO_ERASE)
    { s0 with MemAddr := pageAddress s0.geom page 0 } _ rfl, ?_⟩
  rw [← hv.1]
  simp [addressBytes]

theorem dfmemEraseChip_frame (chip : Nat → Nat) (fuel : Nat) (s s1 : Dfmem)
    (h : dfmemEraseChip chip fuel s = some s1) :
    ∃ s0 frame, dfmemWaitReady chip fuel s = some s0 ∧ OneFrame s0 s1 frame ∧
      frame.map Prod.fst = [0xC7, 0x94, 0x80, 0x9A] ∧ SameVars s s1 := by
  unfold dfmemEraseChip at h
  simp only [Option.map_eq_some'] at h
  obtain ⟨s0, hw, rfl⟩ := h
  obtain ⟨hv, _, _⟩ := dfmemWaitReady_post chip fuel s s0 hw
  refine ⟨s0, [(0xC7, chip s0.clock % 256), (0x94, chip (s0.clock + 1) % 256),
    (0x80, chip (s0.clock + 2) % 256), (0x9A, chip (s0.clock + 3) % 256)], hw, ?_, by simp, ?_⟩
  · simp [OneFrame, dfmemDeselectChip, dfmemWriteByte, dfmemExchangeByte, dfmemSelectChip]
  · exact hv.andThen (by
      simp [SameVars, dfmemDeselectChip, dfmemWriteByte, dfmemExchangeByte, dfmemSelectChip])

theorem dfmemGetStatus_sameVars (chip : Nat → Nat) (s : Dfmem) :
    SameVars s (dfmemGetStatus chip s).2 := by
  simp [SameVars, dfmemGetStatus, dfmemDeselectChip, dfmemReadByte, dfmemWriteByte,
    dfmemExchangeByte, dfmemSelectChip]

theorem dfmemGetManufacturerID_sameVars (chip : Nat → Nat) (s : Dfmem) :
    SameVars s (dfmemGetManufacturerID chip s).2 := by
  simp [SameVars, dfmemGetManufacturerID, dfmemDeselectChip, dfmemReadByte, dfmemWriteByte,
    dfmemExchangeByte, dfmemSelectChip]

theorem dfmemGetChipSize_fst (chip : Nat → Nat) (s : Dfmem) :
    (dfmemGetChipSize chip s).1 = (chip (s.clock + 2) % 256) &&& 0b00011111 := by
  simp [dfmemGetChipSize, dfmemReadByte, dfmemWriteByte, dfmemExchangeByte, dfmemSelectChip]

theorem dfmemGetChipSize_vars (chip : Nat → Nat) (s : Dfmem) :
    driverVars (dfmemGetChipSize chip s).2 = driverVars s := by
  simp [driverVars, dfmemGetChipSize, dfmemDeselectChip, dfmemReadByte, dfmemWriteByte,
    dfmemExchangeByte, dfmemSelectChip]

theorem dfmemGetChipSize_sameVars (chip : Nat → Nat) (s : Dfmem) :
    SameVars s (dfmemGetChipSize chip s).2 := by
  simp [SameVars, dfmemGetChipSize, dfmemDeselectChip, dfmemReadByte, dfmemWriteByte,
    dfmemExchangeByte, dfmemSelectChip]

theorem dfmemGetChipSize_snd_eq (chip chip' : Nat → Nat) (s : Dfmem)
    (h : ∀ k, k < 5 → chip (s.clock + k) % 256 = chip' (s.clock + k) % 256) :
    (dfmemGetChipSize chip s).2 = (dfmemGetChipSize chip' s).2 := by
  have h0 := h 0 (by omega)
  have h1 := h 1 (by omega)
  have h2 := h 2 (by omega)
  have h3 := h 3 (by omega)
  have h4 := h 4 (by omega)
  simp only [Nat.add_zero] at h0
  simp [dfmemGetChipSize, dfmemDeselectChip, dfmemReadByte, dfmemWriteByte,
    dfmemExchangeByte, dfmemSelectChip, h0, h1, h2, h3, h4]

/-- The write-cache variables after any raw call. -/
theorem runRaw_cacheVars (chip : Nat → Nat) (fuel : Nat) (call : RawCall) (s s1 : Dfmem)
    (h : runRaw chip fuel call s = some s1) :
    s1.currentBuffer = s.currentBuffer ∧ s1.nextPage = s.nextPage ∧
      s1.currentBufferOffset = (if isCommitCall call then 0 else s.currentBufferOffset) := by
  have key : ∀ t : Dfmem, SameVars s t → t.currentBuffer = s.currentBuffer ∧
      t.nextPage = s.nextPage ∧ t.currentBufferOffset = s.currentBufferOffset :=
    fun t hv => ⟨hv.2.1, hv.2.2.2, hv.2.2.1⟩
  cases call with
  | write data length page byte buffer =>
    simpa [isCommitCall] using key _ (dfmemWrite_post chip fuel data length page byte buffer s s1 h).1
  | writeBuffer data length byte buffer =>
    simp only [runRaw, Option.some.injEq] at h
    subst h
    simpa [isCommitCall] using key _ (dfmemWriteBuffer_spec chip data length byte buffer s).1
  | writeBuffer2MemoryNoErase page buffer =>
    obtain ⟨_, hb, ho, hn, _⟩ := dfmemWriteBuffer2MemoryNoErase_post chip fuel page buffer s s1 h
    simp [isCommitCall, hb, ho, hn]
  | read page byte length =>
    simp only [runRaw, Option.map_eq_some'] at h
    obtain ⟨r, hr, rfl⟩ := h
    obtain ⟨_, _, _, _, _, _, _, hv⟩ := dfmemRead_frame chip fuel page byte length s r hr
    simpa [isCommitCall] using key _ hv
  | readPage2Buffer page buffer =>
    obtain ⟨_, _, _, _, _, hv⟩ := addressedOp_post chip fuel _ page s s1 h
    simpa [isCommitCall] using key _ hv
  | erasePage page =>
    obtain ⟨_, _, _, _, _, hv⟩ := addressedOp_post chip fuel _ page s s1 h
    simpa [isCommitCall] using key _ hv
  | eraseBlock page =>
    obtain ⟨_, _, _, _, _, hv⟩ := addressedOp_post chip fuel _ page s s1 h
    simpa [isCommitCall] using key _ hv
  | eraseSector page =>
    obtain ⟨_, _, _, _, _, hv⟩ := addressedOp_post chip fuel _ page s s1 h
    simpa [isCommitCall] using key _ hv
  | eraseChip =>
    obtain ⟨_, _, _, _, _, hv⟩ := dfmemEraseChip_frame chip fuel s s1 h
    simpa [isCommitCall] using key _ hv
  | isReady =>
    simp only [runRaw, Option.some.injEq] at h
    subst h
    simpa [isCommitCall] using key _ (dfmemIsReady_sameVars chip s)
  | getStatus =>
    simp only [runRaw, Option.some.injEq] at h
    subst h
    simpa [isCommitCall] using key _ (dfmemGetStatus_sameVars chip s)
  | getManufacturerID =>
    simp only [runRaw, Option.some.injEq] at h
    subst h
    simpa [isCommitCall] using key _ (dfmemGetManufacturerID_sameVars chip s)
  | getChipSize =>
    simp only [runRaw, Option.some.injEq] at h
    subst h
    simpa [isCommitCall] using key _ (dfmemGetChipSize_sameVars chip s)

/-- Every raw call returns when the chip becomes ready within the fuel. -/
theorem runRaw_some (chip : Nat → Nat) (fuel : Nat) (call : RawCall) (s : Dfmem)
    (hr : Responsive chip fuel) : ∃ s1, runRaw chip fuel call s = some s1 := by
  obtain ⟨s0, hw⟩ := dfmemWaitReady_some chip fuel s hr
  cases call <;>
    simp [runRaw, dfmemWrite, dfmemWriteBuffer2MemoryNoErase, dfmemRead, dfmemReadPage2Buffer,
      dfmemErasePage, dfmemEraseBlock, dfmemEraseSector, dfmemEraseChip, hw]

/-- A write-class call other than the buffer write waits for the ready flag
and then opens one frame with its opcode. -/
theorem runRaw_waits (chip : Nat → Nat) (fuel : Nat) (call : RawCall) (s s1 : Dfmem)
    (hc : isWriteClass call = true) (hb : isBufferWriteCall call = false)
    (h : runRaw chip fuel call s = some s1) :
    ∃ s0 frame, dfmemWaitReady chip fuel s = some s0 ∧ OneFrame s0 s1 frame ∧
      frame.head?.map Prod.fst = some (commandOpcode call) := by
  cases call with
  | write data length page byte buffer =>
    obtain ⟨s0, frame, hw, hf, hm⟩ := dfmemWrite_frame chip fuel data length page byte buffer s s1 h
    exact ⟨s0, frame, hw, hf, head_of_map_fst hm⟩
  | writeBuffer data length byte buffer => simp [isBufferWriteCall] at hb
  | writeBuffer2MemoryNoErase page buffer =>
    obtain ⟨s0, frame, hw, hf, hm⟩ :=
      dfmemWriteBuffer2MemoryNoErase_frame chip fuel page buffer s s1 h
    exact ⟨s0, frame, hw, hf, head_of_map_fst hm⟩
  | erasePage page =>
    obtain ⟨s0, frame, hw, hf, hm, _⟩ := addressedOp_post chip fuel _ page s s1 h
    exact ⟨s0, frame, hw, hf, head_of_map_fst hm⟩
  | eraseBlock page =>
    obtain ⟨s0, frame, hw, hf, hm, _⟩ := addressedOp_post chip fuel _ page s s1 h
    exact ⟨s0, frame, hw, hf, head_of_map_fst hm⟩
  | eraseSector page =>
    obtain ⟨s0, frame, hw, hf, hm, _⟩ := addressedOp_post chip fuel _ page s s1 h
    exact ⟨s0, frame, hw, hf, head_of_map_fst hm⟩
  | eraseChip =>
    obtain ⟨s0, frame, hw, hf, hm, _⟩ := dfmemEraseChip_frame chip fuel s s1 h
    exact ⟨s0, frame, hw, hf, head_of_map_fst hm⟩
  | read page byte length => simp [isWriteClass] at hc
  | readPage2Buffer page buffer => simp [isWriteClass] at hc
  | isReady => simp [isWriteClass] at hc
  | getStatus => simp [isWriteClass] at hc
  | getManufacturerID => simp [isWriteClass] at hc
  | getChipSize => simp [isWriteClass] at hc

theorem idResponse_eq (chip : Nat → Nat) (s : Dfmem) :
    idResponse chip s = [chip (s.clock + 1) % 256, chip (s.clock + 2) % 256,
      chip (s.clock + 3) % 256, chip (s.clock + 4) % 256] := by
  have ht : (dfmemGetChipSize chip s).2.trace = s.trace ++
      ((BusEvent.select :: ([(0x9F, chip s.clock % 256), (0, chip (s.clock + 1) % 256),
        (0, chip (s.clock + 2) % 256), (0, chip (s.clock + 3) % 256),
        (0, chip (s.clock + 4) % 256)].map fun p => BusEvent.xfer p.1 p.2)) ++
        [BusEvent.deselect]) := by
    simp [dfmemGetChipSize, dfmemDeselectChip, dfmemReadByte, dfmemWriteByte,
      dfmemExchangeByte, dfmemSelectChip]
  rw [idResponse, eventsSince_of_trace ht, exchangesFrom_oneFrame]
  simp

theorem dfmemGeometrySetup_geom (chip : Nat → Nat) (s : Dfmem) :
    (dfmemGeometrySetup chip s).geom =
      (geometryRow (dfmemGetChipSize chip s).1).getD s.geom := by
  have hg : (dfmemGetChipSize chip s).2.geom = s.geom :=
    (dfmemGetChipSize_sameVars chip s).1
  unfold dfmemGeometrySetup geometryRow
  simp only [DFMEM_8MBIT, DFMEM_16MBIT, DFMEM_32MBIT, DFMEM_64MBIT]
  split_ifs <;> simp [hg, FLASH_8MBIT, FLASH_16MBIT, FLASH_32MBIT, FLASH_64MBIT]

theorem dfmemGeometrySetup_others (chip : Nat → Nat) (s : Dfmem) :
    (dfmemGeometrySetup chip s).currentBuffer = s.currentBuffer ∧
    (dfmemGeometrySetup chip s).currentBufferOffset = s.currentBufferOffset ∧
    (dfmemGeometrySetup chip s).nextPage = s.nextPage ∧
    (dfmemGeometrySetup chip s).MemAddr = s.MemAddr ∧
    (dfmemGeometrySetup chip s).LED_2 = s.LED_2 := by
  have hv := dfmemGetChipSize_vars chip s
  simp only [driverVars, Prod.mk.injEq] at hv
  obtain ⟨_, h1, h2, h3, h4, h5⟩ := hv
  unfold dfmemGeometrySetup
  simp only []
  split_ifs <;> exact ⟨h1, h2, h3, h4, h5⟩

theorem readSample_offset (sampNum spp L : Nat) (hspp : 0 < spp) (hb : spp * L ≤ 1056)
    (hn : sampNum < 2 ^ 32) :
    ((sampNum + 2 ^ 32 - (sampNum / spp * spp) % 65536) % 2 ^ 32 * L) % 2 ^ 32 % 65536 =
      sampNum % spp * L := by
  have hP : sampNum / spp * spp + sampNum % spp = sampNum := Nat.div_add_mod' sampNum spp
  have hP16 := Nat.mod_add_div (sampNum / spp * spp) 65536
  have hr : sampNum % spp < spp := Nat.mod_lt _ hspp
  have hrL : sampNum % spp * L < 65536 :=
    lt_of_le_of_lt (Nat.mul_le_mul_right L hr.le) (by omega)
  generalize sampNum / spp * spp = P at hP hP16
  generalize sampNum % spp = r at hP hrL
  generalize hp16 : P % 65536 = p16 at hP16
  generalize P / 65536 = t at hP16
  have e1 : (sampNum + 2 ^ 32 - p16) % 2 ^ 32 = r + 65536 * t := by omega
  rw [e1, Nat.mod_mod_of_dvd _ (by norm_num : 65536 ∣ 2 ^ 32)]
  have e2 : (r + 65536 * t) * L = r * L + 65536 * (t * L) := by ring
  rw [e2, Nat.add_mul_mod_self_left, Nat.mod_eq_of_lt hrL]

theorem consistent_of_detected {g : Geometry} (h : Detected g) : Consistent g := by
  rcases h with h | h | h | h <;> subst h <;>
    (unfold Consistent
     simp only [FLASH_8MBIT, FLASH_16MBIT, FLASH_32MBIT, FLASH_64MBIT]
     norm_num)

theorem waitThenFrame_length {fs : List (List (Nat × Nat))} {frame : List (Nat × Nat)}
    (h : WaitThenFrame fs frame) : 2 ≤ fs.length := by
  obtain ⟨busy, ready, rfl, _, _⟩ := h
  simp

theorem exchanges_of_oneFrame {s later : Dfmem} {pairs : List (Nat × Nat)}
    (h : OneFrame s later pairs) : exchangesFrom [] (eventsSince s later) = [pairs] := by
  unfold OneFrame at h
  rw [List.append_assoc] at h
  rw [eventsSince_of_trace h]
  exact exchangesFrom_oneFrame pairs

theorem dfmemWriteBuffer_frame (chip : Nat → Nat) (data : Nat → Nat)
    (length byte buffer : Nat) (s : Dfmem) :
    ∃ frame, OneFrame s (dfmemWriteBuffer chip data length byte buffer s) frame ∧
      frame.map Prod.fst =
        (if buffer = 1 then WRITE_TO_BUFFER1 else WRITE_TO_BUFFER2) ::
          ([chr_addr byte 2, chr_addr byte 1, chr_addr byte 0] ++
            (List.range length).map fun i => data i % 256) := by
  obtain ⟨pairs, ht, hp⟩ := dfmemWriteData_xfers chip data length 0
    (dfmemSendCommand chip (if buffer = 1 then WRITE_TO_BUFFER1 else WRITE_TO_BUFFER2)
      { s with MemAddr := byte })
  refine ⟨[(if buffer = 1 then WRITE_TO_BUFFER1 else WRITE_TO_BUFFER2, chip s.clock % 256),
      (chr_addr byte 2, chip (s.clock + 1) % 256),
      (chr_addr byte 1, chip (s.clock + 2) % 256),
      (chr_addr byte 0, chip (s.clock + 3) % 256)] ++ pairs, ?_, ?_⟩
  · unfold OneFrame
    show (dfmemWriteData chip data length 0 _).trace ++ [BusEvent.deselect] = _
    rw [ht, dfmemSendCommand_eq]
    simp
  · rw [List.map_append, hp]
    simp

/-! ## Buffer pairing and commit order -/

theorem bufferOf_commitFrame (g : Geometry) (page b : Nat) (hb : b ≤ 1) :
    bufferOf (commitFrame g page (b % 256)) = some (bufferName b) := by
  interval_cases b <;>
    simp [bufferOf, commitFrame, bufferName, WRITE_TO_BUFFER1, WRITE_TO_BUFFER2,
      WRITE_BUFFER1_TO_PAGE_NO_ERASE, WRITE_BUFFER2_TO_PAGE_NO_ERASE]

theorem bufferOf_bufferWriteFrame (b byte : Nat) (data : Nat → Nat) (length : Nat)
    (hb : b ≤ 1) :
    bufferOf (bufferWriteFrame (b % 256) byte data length) = some (bufferName b) := by
  interval_cases b <;>
    simp [bufferOf, bufferWriteFrame, bufferName, WRITE_TO_BUFFER1, WRITE_TO_BUFFER2,
      WRITE_BUFFER1_TO_PAGE_NO_ERASE, WRITE_BUFFER2_TO_PAGE_NO_ERASE]

theorem drop_one_commitFrame (g : Geometry) (page buffer : Nat) :
    (commitFrame g page buffer).drop 1 = addressBytes g page 0 := by
  simp [commitFrame, addressBytes]

theorem PairedFrom.cons_commit {b : Nat} {rest : List (List Nat)} (g : Geometry) (page : Nat)
    (hb : b ≤ 1) (h : PairedFrom (if b ≠ 0 then 0 else 1) rest) :
    PairedFrom b (commitFrame g page (b % 256) :: rest) :=
  ⟨bufferOf_commitFrame g page b hb,
    Or.inl ⟨isCommit_commitFrame _ _ _, isBufferWrite_commitFrame _ _ _, h⟩⟩

theorem PairedFrom.cons_write {b : Nat} {rest : List (List Nat)} (byte : Nat)
    (data : Nat → Nat) (length : Nat) (hb : b ≤ 1) (h : PairedFrom b rest) :
    PairedFrom b (bufferWriteFrame (b % 256) byte data length :: rest) :=
  ⟨bufferOf_bufferWriteFrame b byte data length hb,
    Or.inr ⟨isCommit_bufferWriteFrame _ _ _ _, isBufferWrite_bufferWriteFrame _ _ _ _, h⟩⟩

theorem bufferName_toggle_ne {b : Nat} (hb : b ≤ 1) :
    bufferName b ≠ bufferName (if b ≠ 0 then 0 else 1) := by
  interval_cases b <;> simp [bufferName]

/-- What the automaton accepts is buffer-paired, and its first commit names
the active buffer. -/
theorem PairedFrom.bufferPaired {b : Nat} {cmds : List (List Nat)} (hb : b ≤ 1)
    (h : PairedFrom b cmds) :
    BufferPaired cmds ∧ ∀ c, nextCommit cmds = some c → c = bufferName b := by
  induction cmds generalizing b with
  | nil => exact ⟨trivial, fun c hc => by simp [nextCommit] at hc⟩
  | cons f rest ih =>
    obtain ⟨hf, hcase⟩ := h
    rcases hcase with ⟨hc, hw, hrest⟩ | ⟨hc, hw, hrest⟩
    · have hb' : (if b ≠ 0 then 0 else 1) ≤ 1 := by split <;> omega
      obtain ⟨hp, hn⟩ := ih hb' hrest
      constructor
      · refine ⟨?_, ?_, hp⟩
        · intro hw'
          rw [hw] at hw'
          cases hw'
        · intro _ c hc' heq
          have h1 := hn c hc'
          rw [hf, Option.some.injEq] at heq
          exact bufferName_toggle_ne hb (heq.trans h1)
      · intro c hc'
        simp only [nextCommit, hc, if_true] at hc'
        rw [hf, Option.some.injEq] at hc'
        exact hc'.symm
    · obtain ⟨hp, hn⟩ := ih hb hrest
      constructor
      · refine ⟨?_, ?_, hp⟩
        · intro _ c hc'
          rw [hf, hn c hc']
        · intro hc'
          rw [hc] at hc'
          cases hc'
      · intro c hc'
        simp only [nextCommit, hc] at hc'
        exact hn c hc'

/-- One `dfmemSave` or `dfmemSync` call: at most one commit of the active
buffer to `nextPage`, then at most one write into the buffer that is active
afterwards. -/
theorem runCall_saveSync (chip : Nat → Nat) (fuel : Nat) (c : CacheCall) (s s1 : Dfmem)
    (hc : isSaveOrSync c = true) (hrun : runCall chip fuel c s = some s1) :
    ∃ (flushed : Bool) (ws : List (List Nat)),
      Issues s s1 ((if flushed = true
        then [commitFrame s.geom s.nextPage (s.currentBuffer % 256)] else []) ++ ws) ∧
      s1.geom = s.geom ∧
      s1.currentBuffer =
        (if flushed = true then (if s.currentBuffer ≠ 0 then 0 else 1) else s.currentBuffer) ∧
      s1.nextPage = (if flushed = true then (s.nextPage + 1) % 65536 else s.nextPage) ∧
      (ws = [] ∨ ∃ byte data length,
        ws = [bufferWriteFrame (s1.currentBuffer % 256) byte data length]) := by
  cases c with
  | save data length =>
    simp only [runCall] at hrun
    by_cases hguard : s.geom.dfmem_buffersize ≤ (s.currentBufferOffset + length) % 65536
    · obtain ⟨hg, hb, _, hn, _, hi⟩ := dfmemSave_flush_post chip fuel data length s s1 hguard hrun
      refine ⟨true, [bufferWriteFrame (s1.currentBuffer % 256) 0 data length], ?_, hg, by simpa using hb,
        by simpa using hn, Or.inr ⟨_, _, _, rfl⟩⟩
      rw [hb]
      simpa using hi
    · obtain ⟨s2, hs2, hg, hb, _, hn, _, hi⟩ := dfmemSave_noflush chip fuel data length s hguard
      rw [hs2, Option.some.injEq] at hrun
      subst hrun
      refine ⟨false, [bufferWriteFrame (s2.currentBuffer % 256) s.currentBufferOffset data length],
        ?_, hg, by simpa using hb, by simpa using hn, Or.inr ⟨_, _, _, rfl⟩⟩
      rw [hb]
      simpa using hi
  | sync =>
    simp only [runCall] at hrun
    obtain ⟨hg, _, _, hne, heq⟩ := dfmemSync_post chip fuel s s1 hrun
    by_cases h0 : s.currentBufferOffset = 0
    · obtain ⟨hb, hn, hi⟩ := heq h0
      exact ⟨false, [], by simpa using hi, hg, by simpa using hb, by simpa using hn, Or.inl rfl⟩
    · obtain ⟨hb, hn, hi⟩ := hne h0
      exact ⟨true, [], by simpa using hi, hg, by simpa using hb, by simpa using hn, Or.inl rfl⟩
  | eraseSectors numSamples sampLen => simp [isSaveOrSync] at hc

theorem commitAddresses_cons_commit (g : Geometry) (page buffer : Nat) (rest : List (List Nat)) :
    commitAddresses (commitFrame g page buffer :: rest) =
      addressBytes g page 0 :: commitAddresses rest := by
  unfold commitAddresses
  rw [List.filter_cons_of_pos (isCommit_commitFrame g page buffer), List.map_cons,
    drop_one_commitFrame]

theorem commitAddresses_cons_write (buffer byte : Nat) (data : Nat → Nat) (length : Nat)
    (rest : List (List Nat)) :
    commitAddresses (bufferWriteFrame buffer byte data length :: rest) =
      commitAddresses rest := by
  simp [commitAddresses, List.filter_cons, isCommit_bufferWriteFrame]

theorem countP_cons_commit (g : Geometry) (page buffer : Nat) (rest : List (List Nat)) :
    (commitFrame g page buffer :: rest).countP isCommit = rest.countP isCommit + 1 :=
  List.countP_cons_of_pos _ _ (isCommit_commitFrame g page buffer)

theorem countP_cons_write (buffer byte : Nat) (data : Nat → Nat) (length : Nat)
    (rest : List (List Nat)) :
    (bufferWriteFrame buffer byte data length :: rest).countP isCommit =
      rest.countP isCommit := by
  rw [List.countP_cons_of_neg]
  simp [isCommit_bufferWriteFrame]

/-- A run of `dfmemSave` and `dfmemSync` calls: its commands are accepted from
the active buffer, `nextPage` advances by the number of commits and the
commits go to consecutive pages, all in 16 bits. -/
theorem runCalls_saveSync (chip : Nat → Nat) (fuel : Nat) (calls : List CacheCall)
    (s s' : Dfmem) (hc : ∀ c ∈ calls, isSaveOrSync c = true) (hb : s.currentBuffer ≤ 1)
    (hrun : runCalls chip fuel calls s = some s') :
    ∃ C, Issues s s' C ∧ s'.geom = s.geom ∧ s'.currentBuffer ≤ 1 ∧
      PairedFrom s.currentBuffer C ∧
      (s.nextPage < 65536 →
        s'.nextPage = (s.nextPage + C.countP isCommit) % 65536 ∧
        commitAddresses C = (List.range (C.countP isCommit)).map fun k =>
          addressBytes s.geom ((s.nextPage + k) % 65536) 0) := by
  induction calls generalizing s with
  | nil =>
    simp only [runCalls, Option.some.injEq] at hrun
    subst hrun
    exact ⟨[], Issues.nothing s, rfl, hb, trivial,
      fun hp => ⟨by simp [Nat.mod_eq_of_lt hp], by simp [commitAddresses]⟩⟩
  | cons c rest ih =>
    simp only [runCalls, Option.bind_eq_some] at hrun
    obtain ⟨s1, h1, hrest⟩ := hrun
    obtain ⟨flushed, ws, hi1, hg1, hb1, hn1, hws⟩ :=
      runCall_saveSync chip fuel c s s1 (hc c (List.mem_cons_self _ _)) h1
    have hb1' : s1.currentBuffer ≤ 1 := by
      rw [hb1]
      split
      · split <;> omega
      · exact hb
    obtain ⟨C, hi, hg, hb', hpair, hpages⟩ :=
      ih s1 (fun c' hc' => hc c' (List.mem_cons_of_mem _ hc')) hb1' hrest
    have hcw : (ws ++ C).countP isCommit = C.countP isCommit := by
      rcases hws with rfl | ⟨byte, data, length, rfl⟩
      · simp
      · exact countP_cons_write _ _ _ _ _
    have haw : commitAddresses (ws ++ C) = commitAddresses C := by
      rcases hws with rfl | ⟨byte, data, length, rfl⟩
      · simp
      · exact commitAddresses_cons_write _ _ _ _ _
    have hws' : PairedFrom s1.currentBuffer (ws ++ C) := by
      rcases hws with rfl | ⟨byte, data, length, rfl⟩
      · simpa using hpair
      · exact PairedFrom.cons_write byte data length hb1' hpair
    refine ⟨_, hi1.followedBy hi, hg.trans hg1, hb', ?_, fun hp => ?_⟩
    · cases flushed with
      | false =>
        simp only [Bool.false_eq_true, if_false] at hb1 ⊢
        rw [← hb1]
        simpa using hws'
      | true =>
        simp only [if_true] at hb1 ⊢
        rw [hb1] at hws'
        simpa using PairedFrom.cons_commit s.geom s.nextPage hb hws'
    · cases flushed with
      | false =>
        simp only [Bool.false_eq_true, if_false] at hn1 ⊢
        obtain ⟨hnext, haddr⟩ := hpages (by rw [hn1]; exact hp)
        rw [List.nil_append, hcw, haw, haddr, hnext, hg1, hn1]
        exact ⟨rfl, rfl⟩
      | true =>
        simp only [if_true] at hn1 ⊢
        obtain ⟨hnext, haddr⟩ := hpages (by rw [hn1]; exact Nat.mod_lt _ (by norm_num))
        rw [List.singleton_append, List.cons_append, commitAddresses_cons_commit,
          countP_cons_commit, hcw, haw, haddr, hnext, hg1, hn1, List.range_succ_eq_map,
          List.map_cons, List.map_map]
        simp only [Nat.add_zero, Nat.mod_eq_of_lt hp]
        refine ⟨by omega, ?_⟩
        congr 1
        apply List.map_congr_left
        intro k _
        simp only [Function.comp, Nat.succ_eq_add_one]
        congr 1
        omega

/-- A run of `dfmemSave` and `dfmemSync` calls returns when the chip becomes
ready within the fuel. -/
theorem runCalls_saveSync_some (chip : Nat → Nat) (fuel : Nat) (calls : List CacheCall)
    (s : Dfmem) (hr : Responsive chip fuel) (hc : ∀ c ∈ calls, isSaveOrSync c = true) :
    ∃ s', runCalls chip fuel calls s = some s' := by
  induction calls generalizing s with
  | nil => exact ⟨s, rfl⟩
  | cons c rest ih =>
    have h1 : ∃ s1, runCall chip fuel c s = some s1 := by
      cases c with
      | save data length => exact dfmemSave_some chip fuel data length s hr
      | sync => exact dfmemSync_some chip fuel s hr
      | eraseSectors numSamples sampLen =>
        have := hc _ (List.mem_cons_self _ _)
        simp [isSaveOrSync] at this
    obtain ⟨s1, h1⟩ := h1
    obtain ⟨s', hs'⟩ := ih s1 (fun c' hc' => hc c' (List.mem_cons_of_mem _ hc'))
    exact ⟨s', by simp only [runCalls, h1, Option.some_bind, hs']⟩

/-! ## Erase coverage and sample offsets -/

/-- The commands of the erase planner without 16-bit wrap-around. -/
theorem eraseSectors_plan_commands (chip : Nat → Nat) (fuel numSamples sampLen : Nat)
    (s : Dfmem) (hresp : Responsive chip fuel) (hgeom : Detected s.geom)
    (hn : 0 < numSamples) (hl1 : 1 ≤ sampLen) (hl2 : sampLen ≤ s.geom.dfmem_bytes_per_page)
    (hnowrap : ceilDiv numSamples (s.geom.dfmem_bytes_per_page / sampLen) +
      s.geom.dfmem_pages_per_sector ≤ 65536) :
    ∃ s', dfMemEraseSectorsForSamples chip fuel numSamples sampLen s = some s' ∧
      commands (eventsSince s s') =
        (erasePlanPages s.geom numSamples sampLen).map (sectorEraseFrame s.geom) := by
  obtain ⟨hpps, hbpp, _⟩ := hgeom.cases_pps
  have hspp := samplesPerPage_pos s.geom sampLen hl1 hl2
  have hspp2 : s.geom.dfmem_bytes_per_page / sampLen ≤ 1056 :=
    Nat.le_trans (Nat.div_le_self _ _) hbpp
  obtain ⟨s', hs⟩ := dfMemEraseSectorsForSamples_some chip fuel numSamples sampLen s hresp
    (by omega) (by omega) (by omega) (planNumSectors_lt s.geom hgeom _)
  obtain ⟨_, _, _, _, hi⟩ := dfMemEraseSectorsForSamples_post chip fuel numSamples sampLen s s'
    (by omega) hs
  refine ⟨s', hs, ?_⟩
  rw [hi.commands_eventsSince, planNumPages_eq _ _ hspp hspp2 (by omega)]
  unfold erasePlanPages
  simp only [List.map_cons, List.map_map]
  generalize ceilDiv numSamples (s.geom.dfmem_bytes_per_page / sampLen) = np at hnowrap ⊢
  have hns : planNumSectors s.geom np = ceilDiv np s.geom.dfmem_pages_per_sector := by
    unfold planNumSectors ceilDiv
    rw [Nat.mod_eq_of_lt (by omega)]
  rw [hns]
  congr 2
  apply List.map_congr_left
  intro k hk
  rw [List.mem_range] at hk
  simp only [Function.comp]
  congr 1
  unfold ceilDiv at hk
  rcases hpps with hp | hp <;> rw [hp] at hk hnowrap ⊢ <;> omega

/-- Every page below the number of pages needed lies in the pages erased at
some page of the plan. -/
theorem erasePlanPages_covers (g : Geometry) (hgeom : Detected g) (numSamples sampLen p : Nat)
    (hp : p < ceilDiv numSamples (g.dfmem_bytes_per_page / sampLen)) :
    ∃ q ∈ erasePlanPages g numSamples sampLen,
      (erasedPages g q).1 ≤ p ∧ p < (erasedPages g q).2 := by
  obtain ⟨hpps, _, _⟩ := hgeom.cases_pps
  unfold erasePlanPages
  simp only []
  generalize ceilDiv numSamples (g.dfmem_bytes_per_page / sampLen) = np at hp ⊢
  by_cases h8 : p < 8
  · exact ⟨0, by simp, by simp [erasedPages], by simpa [erasedPages] using h8⟩
  by_cases hs : p < g.dfmem_pages_per_sector
  · refine ⟨8, by simp, ?_, ?_⟩
    · simp only [erasedPages]
      simp only [if_neg (by norm_num : (8 : Nat) ≠ 0), if_true]
      omega
    · simp only [erasedPages]
      simp only [if_neg (by norm_num : (8 : Nat) ≠ 0), if_true]
      exact hs
  have hk : p / g.dfmem_pages_per_sector - 1 < ceilDiv np g.dfmem_pages_per_sector := by
    unfold ceilDiv
    rcases hpps with h | h <;> rw [h] at hs ⊢ <;> omega
  have hq0 : g.dfmem_pages_per_sector * (p / g.dfmem_pages_per_sector - 1 + 1) ≠ 0 := by
    rcases hpps with h | h <;> rw [h] at hs ⊢ <;> omega
  have hq8 : g.dfmem_pages_per_sector * (p / g.dfmem_pages_per_sector - 1 + 1) ≠ 8 := by
    rcases hpps with h | h <;> rw [h] at hs ⊢ <;> omega
  refine ⟨g.dfmem_pages_per_sector * (p / g.dfmem_pages_per_sector - 1 + 1), ?_, ?_, ?_⟩
  · simp only [List.mem_cons, List.mem_map, List.mem_range]
    exact Or.inr (Or.inr ⟨_, hk, rfl⟩)
  · simp only [erasedPages, if_neg hq0, if_neg hq8]
    rcases hpps with h | h <;> rw [h] at hs ⊢ <;> omega
  · simp only [erasedPages, if_neg hq0, if_neg hq8]
    rcases hpps with h | h <;> rw [h] at hs ⊢ <;> omega

/-- The 16-bit byte offset of `dfmemReadSample` is the remainder times the
sample length, for every sample number. -/
theorem readSampleByteOffset_eq (g : Geometry) (hgeom : Detected g) (sampNum sampLen : Nat)
    (hl1 : 1 ≤ sampLen) (hl2 : sampLen ≤ g.dfmem_bytes_per_page) :
    readSampleByteOffset g sampNum sampLen =
      sampNum % (g.dfmem_bytes_per_page / sampLen) * sampLen := by
  have hspp := samplesPerPage_pos g sampLen hl1 hl2
  have hb : g.dfmem_bytes_per_page / sampLen * sampLen ≤ 1056 :=
    le_trans (Nat.div_mul_le_self _ _) hgeom.cases_pps.2.1
  unfold readSampleByteOffset readSamplePagenum
  generalize g.dfmem_bytes_per_page / sampLen = spp at hspp hb ⊢
  have eP : sampNum / spp % 65536 * spp % 65536 = (sampNum / spp * spp) % 65536 :=
    Nat.mod_mul_mod
  rw [eP]
  have hP : sampNum / spp * spp + sampNum % spp = sampNum := Nat.div_add_mod' sampNum spp
  have hP16 := Nat.mod_add_div (sampNum / spp * spp) 65536
  have hr : sampNum % spp < spp := Nat.mod_lt _ hspp
  have hrL : sampNum % spp * sampLen < 65536 :=
    lt_of_le_of_lt (Nat.mul_le_mul_right sampLen hr.le) (by omega)
  have hr' : sampNum % spp < 65536 := by
    have : spp ≤ spp * sampLen := Nat.le_mul_of_pos_right spp (by omega)
    omega
  generalize sampNum / spp * spp = P at hP hP16
  generalize sampNum % spp = r at hP hrL hr'
  generalize hp16 : P % 65536 = p16 at hP16
  generalize P / 65536 = t at hP16
  have e1 : (sampNum + 2 ^ 32 - p16) % 2 ^ 32 % 65536 = r := by omega
  rw [Nat.mod_mod_of_dvd _ (by norm_num : 65536 ∣ 2 ^ 32), Nat.mul_mod, e1, Nat.mul_mod_mod,
    Nat.mod_eq_of_lt hrL]

/-! # Claims -/

/-! ## Claim C1: a save that reaches the end of the buffer -/

/-- Claim C1, as amended.  For every geometry (the four detected ones
included), every cache state with `currentBuffer` in `{0, 1}` and every length
for which the guard of `dfmemSave` holds as the code evaluates it, that is
`(currentBufferOffset + length) mod 2^16 >= dfmem_buffersize`, and a chip that
reports ready within `fuel` polls: `dfmemSave` returns, its commands are
exactly one no-erase commit of the pre-call buffer to the pre-call `nextPage`
followed by one buffer write of the data at offset 0 of the other buffer;
afterwards `currentBuffer` is toggled, `nextPage` is the pre-call value plus
one (a 16-bit unsigned increment: 65535 goes to 0), `currentBufferOffset` is
`length`, and the geometry is unchanged.  The hypothesis holds in particular
when `currentBufferOffset + length >= dfmem_buffersize` and the sum is below
`2^16`. -/
theorem dfmemSave_flush_once (chip : Nat → Nat) (fuel : Nat) (data : Nat → Nat) (length : Nat)
    (s : Dfmem) (hresp : Responsive chip fuel) (hbuf : s.currentBuffer ≤ 1)
    (hlen : length < 65536)
    (hguard : s.geom.dfmem_buffersize ≤ (s.currentBufferOffset + length) % 65536) :
    ∃ s', dfmemSave chip fuel data length s = some s' ∧
      commands (eventsSince s s') =
        [commitFrame s.geom s.nextPage s.currentBuffer,
         bufferWriteFrame (1 - s.currentBuffer) 0 data length] ∧
      ((commands (eventsSince s s')).filter isCommit).length = 1 ∧
      s'.currentBuffer = 1 - s.currentBuffer ∧
      s'.nextPage = (s.nextPage + 1) % 65536 ∧
      s'.currentBufferOffset = length ∧
      s'.geom = s.geom := by
  obtain ⟨s', hs⟩ := dfmemSave_some chip fuel data length s hresp
  obtain ⟨hg, hb, ho, hn, _, hi⟩ := dfmemSave_flush_post chip fuel data length s s' hguard hs
  have hmod : s.currentBuffer % 256 = s.currentBuffer := Nat.mod_eq_of_lt (by omega)
  have hmod' : (1 - s.currentBuffer) % 256 = 1 - s.currentBuffer := Nat.mod_eq_of_lt (by omega)
  rw [toggle_of_le_one hbuf] at hb hi
  rw [hmod, hmod'] at hi
  have hcmds := hi.commands_eventsSince
  refine ⟨s', hs, hcmds, ?_, hb, hn, ?_, hg⟩
  · rw [hcmds]
    simp [List.filter, isCommit_commitFrame, isCommit_bufferWriteFrame]
  · rw [ho, Nat.mod_eq_of_lt hlen]

theorem dfmemSave_flush_once_witness :
    Responsive alwaysReady 1 ∧ nearlyFull.currentBuffer ≤ 1 ∧ 8 < 65536 ∧
    nearlyFull.geom.dfmem_buffersize ≤ (nearlyFull.currentBufferOffset + 8) % 65536 ∧
    ∃ s', dfmemSave alwaysReady 1 countUp 8 nearlyFull = some s' ∧
      commands (eventsSince nearlyFull s') =
        [commitFrame nearlyFull.geom nearlyFull.nextPage nearlyFull.currentBuffer,
         bufferWriteFrame (1 - nearlyFull.currentBuffer) 0 countUp 8] ∧
      ((commands (eventsSince nearlyFull s')).filter isCommit).length = 1 ∧
      s'.currentBuffer = 1 - nearlyFull.currentBuffer ∧
      s'.nextPage = (nearlyFull.nextPage + 1) % 65536 ∧
      s'.currentBufferOffset = 8 ∧
      s'.geom = nearlyFull.geom :=
  ⟨alwaysReady_responsive, by decide, by decide, by decide,
    dfmemSave_flush_once alwaysReady 1 countUp 8 nearlyFull alwaysReady_responsive
      (by decide) (by decide) (by decide)⟩

/-- Claim C1 fails as stated.  On the 8 Mbit geometry with one byte in the
buffer, a save of 65535 bytes has `currentBufferOffset + length = 65536 >= 264`,
but the 16-bit sum of the guard is 0: no commit is issued, `currentBuffer` and
`nextPage` stay as they were and the offset afterwards is 0, not `length`. -/
theorem dfmemSave_guard_wraps :
    Detected oneByteHeld.geom ∧
    oneByteHeld.geom.dfmem_buffersize ≤ oneByteHeld.currentBufferOffset + 65535 ∧
    ∃ s', dfmemSave alwaysReady 1 countUp 65535 oneByteHeld = some s' ∧
      (commands (eventsSince oneByteHeld s')).filter isCommit = [] ∧
      s'.currentBuffer = oneByteHeld.currentBuffer ∧
      s'.nextPage = oneByteHeld.nextPage ∧
      s'.currentBufferOffset = 0 := by
  refine ⟨by decide, by decide, ?_⟩
  obtain ⟨s', hs, _, hb, ho, hn, _, hi⟩ :=
    dfmemSave_noflush alwaysReady 1 countUp 65535 oneByteHeld (by decide)
  refine ⟨s', hs, ?_, hb, hn, ?_⟩
  · rw [hi.commands_eventsSince]
    simp [List.filter, isCommit_bufferWriteFrame]
  · rw [ho]; decide

/-! ## Claim C2: saves that fit in one buffer -/

/-- Claim C2.  From a cache state with `currentBufferOffset = 0`, a sequence
of `dfmemSave` calls whose lengths sum to less than `dfmem_buffersize` returns
(whatever the chip answers, no status poll being needed), issues no commit,
issues exactly one buffer write per call, the i-th at the offset equal to the
sum of the preceding lengths and all to the current buffer, leaves
`currentBuffer` and `nextPage` unchanged and ends with `currentBufferOffset`
equal to the sum of all lengths. -/
theorem dfmemSaveAll_within_one_buffer (chip : Nat → Nat) (fuel : Nat)
    (writes : List ((Nat → Nat) × Nat)) (s : Dfmem)
    (hsize : s.geom.dfmem_buffersize < 65536) (hbuf : s.currentBuffer ≤ 1)
    (hoff : s.currentBufferOffset = 0)
    (hsum : (writes.map Prod.snd).sum < s.geom.dfmem_buffersize) :
    ∃ s', dfmemSaveAll chip fuel writes s = some s' ∧
      commands (eventsSince s s') = sequentialWrites s.currentBuffer 0 writes ∧
      (commands (eventsSince s s')).filter isCommit = [] ∧
      s'.currentBuffer = s.currentBuffer ∧
      s'.nextPage = s.nextPage ∧
      s'.currentBufferOffset = (writes.map Prod.snd).sum ∧
      s'.geom = s.geom := by
  obtain ⟨s', hs, hg, hb, ho, hn, hi⟩ := dfmemSaveAll_fits chip fuel writes s hsize
    (by rw [hoff]; omega)
  have hmod : s.currentBuffer % 256 = s.currentBuffer := Nat.mod_eq_of_lt (by omega)
  rw [hmod, hoff] at hi
  have hcmds := hi.commands_eventsSince
  refine ⟨s', hs, hcmds, ?_, hb, hn, ?_, hg⟩
  · rw [hcmds]; exact sequentialWrites_no_commit _ _ _
  · rw [ho, hoff, Nat.zero_add]

theorem dfmemSaveAll_within_one_buffer_witness :
    (powerUp FLASH_8MBIT).geom.dfmem_buffersize < 65536 ∧
    (powerUp FLASH_8MBIT).currentBuffer ≤ 1 ∧
    (powerUp FLASH_8MBIT).currentBufferOffset = 0 ∧
    (threeWrites.map Prod.snd).sum < (powerUp FLASH_8MBIT).geom.dfmem_buffersize ∧
    ∃ s', dfmemSaveAll busyAtFirst 0 threeWrites (powerUp FLASH_8MBIT) = some s' ∧
      commands (eventsSince (powerUp FLASH_8MBIT) s') =
        sequentialWrites (powerUp FLASH_8MBIT).currentBuffer 0 threeWrites ∧
      (commands (eventsSince (powerUp FLASH_8MBIT) s')).filter isCommit = [] ∧
      s'.currentBuffer = (powerUp FLASH_8MBIT).currentBuffer ∧
      s'.nextPage = (powerUp FLASH_8MBIT).nextPage ∧
      s'.currentBufferOffset = (threeWrites.map Prod.snd).sum ∧
      s'.geom = (powerUp FLASH_8MBIT).geom :=
  ⟨by decide, by decide, by decide, by decide,
    dfmemSaveAll_within_one_buffer busyAtFirst 0 threeWrites (powerUp FLASH_8MBIT)
      (by decide) (by decide) (by decide) (by decide)⟩

/-! ## Claim C3: the buffer write stays inside the buffer -/

/-- Claim C3.  For a detected geometry, a cache state with
`currentBufferOffset <= dfmem_buffersize`, a length of at most
`dfmem_buffersize` and a chip that reports ready within `fuel` polls,
`dfmemSave` returns and issues exactly one buffer-write command; it carries all
`length` bytes to one buffer (the buffer that is current after the call),
starting at an offset with `offset + length <= dfmem_buffersize`. -/
theorem dfmemSave_no_overrun (chip : Nat → Nat) (fuel : Nat) (data : Nat → Nat) (length : Nat)
    (s : Dfmem) (hresp : Responsive chip fuel) (hgeom : Detected s.geom)
    (hoff : s.currentBufferOffset ≤ s.geom.dfmem_buffersize)
    (hlen : length ≤ s.geom.dfmem_buffersize) :
    ∃ s' buffer offset, dfmemSave chip fuel data length s = some s' ∧
      (commands (eventsSince s s')).filter isBufferWrite =
        [bufferWriteFrame buffer offset data length] ∧
      offset + length ≤ s.geom.dfmem_buffersize ∧
      buffer = s'.currentBuffer % 256 ∧
      s'.currentBufferOffset = offset + length := by
  have hsz := hgeom.buffersize_le
  by_cases hguard : s.geom.dfmem_buffersize ≤ (s.currentBufferOffset + length) % 65536
  · obtain ⟨s', hs⟩ := dfmemSave_some chip fuel data length s hresp
    obtain ⟨_, hb, ho, _, _, hi⟩ := dfmemSave_flush_post chip fuel data length s s' hguard hs
    refine ⟨s', _, 0, hs, ?_, by omega, by rw [hb], ?_⟩
    · rw [hi.commands_eventsSince]
      simp [List.filter, isBufferWrite_commitFrame, isBufferWrite_bufferWriteFrame]
    · rw [ho, Nat.zero_add]; exact Nat.mod_eq_of_lt (by omega)
  · obtain ⟨s', hs, _, hb, ho, _, _, hi⟩ := dfmemSave_noflush chip fuel data length s hguard
    have hmod : (s.currentBufferOffset + length) % 65536 = s.currentBufferOffset + length :=
      Nat.mod_eq_of_lt (by omega)
    rw [hmod] at hguard ho
    refine ⟨s', _, s.currentBufferOffset, hs, ?_, by omega, by rw [hb], ho⟩
    rw [hi.commands_eventsSince]
    simp [List.filter, isBufferWrite_bufferWriteFrame]

theorem dfmemSave_no_overrun_witness :
    Responsive alwaysReady 1 ∧ Detected nearlyFull.geom ∧
    nearlyFull.currentBufferOffset ≤ nearlyFull.geom.dfmem_buffersize ∧
    264 ≤ nearlyFull.geom.dfmem_buffersize ∧
    ∃ s' buffer offset, dfmemSave alwaysReady 1 countUp 264 nearlyFull = some s' ∧
      (commands (eventsSince nearlyFull s')).filter isBufferWrite =
        [bufferWriteFrame buffer offset countUp 264] ∧
      offset + 264 ≤ nearlyFull.geom.dfmem_buffersize ∧
      buffer = s'.currentBuffer % 256 ∧
      s'.currentBufferOffset = offset + 264 :=
  ⟨alwaysReady_responsive, by decide, by decide, by decide,
    dfmemSave_no_overrun alwaysReady 1 countUp 264 nearlyFull alwaysReady_responsive
      (by decide) (by decide) (by decide)⟩

/-! ## Claim C4: the offset invariant -/

/-- Claim C4, as amended.  From a state whose cache is `{0, 0, 0}`, after
any sequence of `dfmemSave`, `dfmemSync` and `dfMemEraseSectorsForSamples`
calls that returns, in which every `dfmemSave` has a length of at most
`dfmem_buffersize`, `currentBufferOffset <= dfmem_buffersize` holds and the
geometry is the initial one.  This holds for every geometry, whatever the chip
answers. -/
theorem cache_offset_bounded (chip : Nat → Nat) (fuel : Nat) (calls : List CacheCall)
    (s s' : Dfmem)
    (hinit : (s.currentBuffer, s.currentBufferOffset, s.nextPage) = (0, 0, 0))
    (hsaves : SavesAtMost s.geom.dfmem_buffersize calls)
    (hrun : runCalls chip fuel calls s = some s') :
    s'.currentBufferOffset ≤ s'.geom.dfmem_buffersize ∧ s'.geom = s.geom := by
  have ho : s.currentBufferOffset = 0 := congrArg (fun p => p.2.1) hinit
  obtain ⟨hg, hb⟩ := runCalls_offset_bounded chip fuel calls s s' (by rw [ho]; exact Nat.zero_le _)
    hsaves hrun
  exact ⟨by rw [hg]; exact hb, hg⟩

theorem cache_offset_bounded_witness :
    ∃ s', ((powerUp FLASH_8MBIT).currentBuffer, (powerUp FLASH_8MBIT).currentBufferOffset,
        (powerUp FLASH_8MBIT).nextPage) = (0, 0, 0) ∧
      SavesAtMost (powerUp FLASH_8MBIT).geom.dfmem_buffersize mixedCalls ∧
      runCalls alwaysReady 1 mixedCalls (powerUp FLASH_8MBIT) = some s' ∧
      s'.currentBufferOffset ≤ s'.geom.dfmem_buffersize ∧
      s'.geom = (powerUp FLASH_8MBIT).geom :=
  ⟨_, rfl, by simp [SavesAtMost, mixedCalls, powerUp, FLASH_8MBIT], rfl,
    cache_offset_bounded alwaysReady 1 mixedCalls (powerUp FLASH_8MBIT) _ rfl
      (by simp [SavesAtMost, mixedCalls, powerUp, FLASH_8MBIT]) rfl⟩

/-- Claim C4 fails as stated.  On the 8 Mbit geometry, one `dfmemSave` of 265
bytes from the initial state `{0, 0, 0}` ends with
`currentBufferOffset = 265 > 264 = dfmem_buffersize`. -/
theorem cache_offset_exceeds_buffer :
    Detected (powerUp FLASH_8MBIT).geom ∧
    ((powerUp FLASH_8MBIT).currentBuffer, (powerUp FLASH_8MBIT).currentBufferOffset,
      (powerUp FLASH_8MBIT).nextPage) = (0, 0, 0) ∧
    ∃ s', runCalls alwaysReady 1 [CacheCall.save countUp 265] (powerUp FLASH_8MBIT) = some s' ∧
      ¬ s'.currentBufferOffset ≤ s'.geom.dfmem_buffersize := by
  refine ⟨by decide, rfl, ?_⟩
  obtain ⟨s', hs⟩ := dfmemSave_some alwaysReady 1 countUp 265 (powerUp FLASH_8MBIT)
    alwaysReady_responsive
  obtain ⟨hg, _, ho, _⟩ := dfmemSave_flush_post alwaysReady 1 countUp 265
    (powerUp FLASH_8MBIT) s' (by decide) hs
  refine ⟨s', by simp only [runCalls, runCall, hs, Option.some_bind], ?_⟩
  rw [ho, hg]
  decide

/-! ## Claim C5: address encoding -/

/-- Claim C5.  For each of the four geometries, `page < dfmem_max_pages` and
`byte < dfmem_bytes_per_page`: the 32-bit address
`(page << dfmem_byte_address_bits) + byte` has a zero top byte, and the three
address bytes in transmission order, reassembled most significant first, give
back `page` by a right shift by `dfmem_byte_address_bits` and `byte` by the
mask `(1 << dfmem_byte_address_bits) - 1`.  These are the bytes the driver
transmits: with a chip that becomes ready within the fuel, `dfmemWrite`
returns and its one command frame is the opcode, then these three bytes, then
the data; and for any chip, whenever `dfmemWrite` returns, its one command
frame is that frame. -/
theorem address_encoding_roundtrip (g : Geometry) (page byte : Nat) (hgeom : Detected g)
    (hpage : page < g.dfmem_max_pages) (hbyte : byte < g.dfmem_bytes_per_page) :
    chr_addr (pageAddress g page byte) 3 = 0 ∧
    reassemble (addressBytes g page byte) >>> g.dfmem_byte_address_bits = page ∧
    reassemble (addressBytes g page byte) &&& ((1 <<< g.dfmem_byte_address_bits) - 1) = byte ∧
    (∀ (chip : Nat → Nat) (fuel : Nat) (data : Nat → Nat) (length buffer : Nat) (s : Dfmem),
      s.geom = g → Responsive chip fuel →
      ∃ s', dfmemWrite chip fuel data length page byte buffer s = some s' ∧
        commands (eventsSince s s') =
          [(if buffer = 1 then WRITE_PAGE_VIA_BUFFER1 else WRITE_PAGE_VIA_BUFFER2) ::
            (addressBytes g page byte ++ (List.range length).map fun i => data i % 256)]) ∧
    ∀ (chip : Nat → Nat) (fuel : Nat) (data : Nat → Nat) (length buffer : Nat) (s s' : Dfmem),
      s.geom = g → dfmemWrite chip fuel data length page byte buffer s = some s' →
      commands (eventsSince s s') =
        [(if buffer = 1 then WRITE_PAGE_VIA_BUFFER1 else WRITE_PAGE_VIA_BUFFER2) ::
          (addressBytes g page byte ++ (List.range length).map fun i => data i % 256)] := by
  refine ⟨?_, ?_, ?_, ?_, ?_⟩
  · simp only [chr_addr, pageAddress]
    rcases hgeom with h | h | h | h <;> subst h <;>
      simp only [FLASH_8MBIT, FLASH_16MBIT, FLASH_32MBIT, FLASH_64MBIT] at hpage hbyte ⊢ <;>
      norm_num <;> omega
  · rw [Nat.shiftRight_eq_div_pow]
    simp only [reassemble, addressBytes, chr_addr, pageAddress, List.foldl]
    rcases hgeom with h | h | h | h <;> subst h <;>
      simp only [FLASH_8MBIT, FLASH_16MBIT, FLASH_32MBIT, FLASH_64MBIT] at hpage hbyte ⊢ <;>
      norm_num <;> omega
  · rw [Nat.one_shiftLeft, Nat.and_pow_two_sub_one_eq_mod]
    simp only [reassemble, addressBytes, chr_addr, pageAddress, List.foldl]
    rcases hgeom with h | h | h | h <;> subst h <;>
      simp only [FLASH_8MBIT, FLASH_16MBIT, FLASH_32MBIT, FLASH_64MBIT] at hpage hbyte ⊢ <;>
      norm_num <;> omega
  · intro chip fuel data length buffer s hg hr
    obtain ⟨s', hs⟩ := dfmemWrite_some chip fuel data length page byte buffer s hr
    refine ⟨s', hs, ?_⟩
    rw [← hg]
    exact (dfmemWrite_post chip fuel data length page byte buffer s s' hs).2.commands_eventsSince
  · intro chip fuel data length buffer s s' hg hs
    rw [← hg]
    exact (dfmemWrite_post chip fuel data length page byte buffer s s' hs).2.commands_eventsSince

theorem address_encoding_roundtrip_witness :
    Detected FLASH_64MBIT ∧ 8191 < FLASH_64MBIT.dfmem_max_pages ∧
    1055 < FLASH_64MBIT.dfmem_bytes_per_page ∧
    chr_addr (pageAddress FLASH_64MBIT 8191 1055) 3 = 0 ∧
    reassemble (addressBytes FLASH_64MBIT 8191 1055) >>>
      FLASH_64MBIT.dfmem_byte_address_bits = 8191 ∧
    reassemble (addressBytes FLASH_64MBIT 8191 1055) &&&
      ((1 <<< FLASH_64MBIT.dfmem_byte_address_bits) - 1) = 1055 ∧
    addressBytes FLASH_64MBIT 8191 1055 = [0xFF, 0xFC, 0x1F] ∧
    (powerUp FLASH_64MBIT).geom = FLASH_64MBIT ∧ Responsive busyAtFirst 4 ∧
    (dfmemWrite busyAtFirst 4 countUp 2 8191 1055 1 (powerUp FLASH_64MBIT)).map
        (fun s' => exchangesFrom [] (eventsSince (powerUp FLASH_64MBIT) s')) =
      some [[(0xD7, 0), (0, 0)], [(0xD7, 0), (0, 0)], [(0xD7, 0), (0, 0)],
        [(0xD7, 0), (0, 0x80)],
        [(0x82, 0x80), (0xFF, 0x80), (0xFC, 0x80), (0x1F, 0x80), (0, 0x80), (1, 0x80)]] ∧
    ∃ s', dfmemWrite busyAtFirst 4 countUp 2 8191 1055 1 (powerUp FLASH_64MBIT) = some s' ∧
      commands (eventsSince (powerUp FLASH_64MBIT) s') = [[0x82, 0xFF, 0xFC, 0x1F, 0, 1]] :=
  ⟨by decide, by decide, by decide,
    (address_encoding_roundtrip FLASH_64MBIT 8191 1055 (by decide) (by decide) (by decide)).1,
    (address_encoding_roundtrip FLASH_64MBIT 8191 1055 (by decide) (by decide) (by decide)).2.1,
    (address_encoding_roundtrip FLASH_64MBIT 8191 1055 (by decide) (by decide) (by decide)).2.2.1,
    by decide, rfl, busyAtFirst_responsive, by decide,
    (address_encoding_roundtrip FLASH_64MBIT 8191 1055 (by decide) (by decide)
      (by decide)).2.2.2.1 busyAtFirst 4 countUp 2 1 (powerUp FLASH_64MBIT) rfl
      busyAtFirst_responsive⟩

/-! ## Claim C6: the erase plan -/

/-- Claim C6.  For a detected geometry, `numSamples > 0`,
`1 <= sampLen <= dfmem_bytes_per_page`, no 16-bit wrap-around
(`ceil(numSamples / samplesPerPage) + dfmem_pages_per_sector <= 2^16`, which
bounds every intermediate value of the planner) and a chip that reports ready
within `fuel` polls, `dfMemEraseSectorsForSamples` returns and its commands are
exactly the sector-erase frames (opcode `0x7C`) for the pages
`0, 8, pagesPerSector * 1, ..., pagesPerSector * numSectors`, in this order and
nothing else. -/
theorem dfMemEraseSectorsForSamples_plan (chip : Nat → Nat) (fuel numSamples sampLen : Nat)
    (s : Dfmem) (hresp : Responsive chip fuel) (hgeom : Detected s.geom)
    (hn : 0 < numSamples) (hl1 : 1 ≤ sampLen) (hl2 : sampLen ≤ s.geom.dfmem_bytes_per_page)
    (hnowrap : ceilDiv numSamples (s.geom.dfmem_bytes_per_page / sampLen) +
      s.geom.dfmem_pages_per_sector ≤ 65536) :
    ∃ s', dfMemEraseSectorsForSamples chip fuel numSamples sampLen s = some s' ∧
      commands (eventsSince s s') =
        (erasePlanPages s.geom numSamples sampLen).map (sectorEraseFrame s.geom) := by
  obtain ⟨hpps, hbpp, _⟩ := hgeom.cases_pps
  have hspp := samplesPerPage_pos s.geom sampLen hl1 hl2
  have hspp2 : s.geom.dfmem_bytes_per_page / sampLen ≤ 1056 :=
    Nat.le_trans (Nat.div_le_self _ _) hbpp
  obtain ⟨s', hs⟩ := dfMemEraseSectorsForSamples_some chip fuel numSamples sampLen s hresp
    (by omega) (by omega) (by omega) (planNumSectors_lt s.geom hgeom _)
  obtain ⟨_, _, _, _, hi⟩ := dfMemEraseSectorsForSamples_post chip fuel numSamples sampLen s s'
    (by omega) hs
  refine ⟨s', hs, ?_⟩
  rw [hi.commands_eventsSince, planNumPages_eq _ _ hspp hspp2 (by omega)]
  unfold erasePlanPages
  simp only [List.map_cons, List.map_map]
  generalize ceilDiv numSamples (s.geom.dfmem_bytes_per_page / sampLen) = np at hnowrap ⊢
  have hns : planNumSectors s.geom np = ceilDiv np s.geom.dfmem_pages_per_sector := by
    unfold planNumSectors ceilDiv
    rw [Nat.mod_eq_of_lt (by omega)]
  rw [hns]
  congr 2
  apply List.map_congr_left
  intro k hk
  rw [List.mem_range] at hk
  simp only [Function.comp]
  congr 1
  unfold ceilDiv at hk
  rcases hpps with hp | hp <;> rw [hp] at hk hnowrap ⊢ <;> omega

theorem dfMemEraseSectorsForSamples_plan_witness :
    Responsive busyAtFirst 4 ∧ Detected (powerUp FLASH_8MBIT).geom ∧ 0 < 100 ∧ 1 ≤ 8 ∧
    8 ≤ (powerUp FLASH_8MBIT).geom.dfmem_bytes_per_page ∧
    ceilDiv 100 ((powerUp FLASH_8MBIT).geom.dfmem_bytes_per_page / 8) +
      (powerUp FLASH_8MBIT).geom.dfmem_pages_per_sector ≤ 65536 ∧
    erasePlanPages (powerUp FLASH_8MBIT).geom 100 8 = [0, 8, 256] ∧
    ∃ s', dfMemEraseSectorsForSamples busyAtFirst 4 100 8 (powerUp FLASH_8MBIT) = some s' ∧
      commands (eventsSince (powerUp FLASH_8MBIT) s') =
        (erasePlanPages (powerUp FLASH_8MBIT).geom 100 8).map
          (sectorEraseFrame (powerUp FLASH_8MBIT).geom) :=
  ⟨busyAtFirst_responsive, by decide, by decide, by decide, by decide, by decide, by decide,
    dfMemEraseSectorsForSamples_plan busyAtFirst 4 100 8 (powerUp FLASH_8MBIT)
      busyAtFirst_responsive (by decide) (by decide) (by decide) (by decide) (by decide)⟩

/-! ## Claim C7: the erase planner resets the cache -/

/-- Claim C7.  For a detected geometry, any prior cache state,
`numSamples > 0`, `1 <= sampLen <= dfmem_bytes_per_page` and a chip that
reports ready within `fuel` polls, `dfMemEraseSectorsForSamples` returns with
`currentBuffer = 0`, `currentBufferOffset = 0`, `nextPage = 0` and the geometry
unchanged. -/
theorem dfMemEraseSectorsForSamples_resets_cache (chip : Nat → Nat)
    (fuel numSamples sampLen : Nat) (s : Dfmem) (hresp : Responsive chip fuel)
    (hgeom : Detected s.geom) (hn : 0 < numSamples) (hl1 : 1 ≤ sampLen)
    (hl2 : sampLen ≤ s.geom.dfmem_bytes_per_page) :
    ∃ s', dfMemEraseSectorsForSamples chip fuel numSamples sampLen s = some s' ∧
      s'.currentBuffer = 0 ∧ s'.currentBufferOffset = 0 ∧ s'.nextPage = 0 ∧
      s'.geom = s.geom := by
  obtain ⟨hpps, _, _⟩ := hgeom.cases_pps
  have hspp := samplesPerPage_pos s.geom sampLen hl1 hl2
  obtain ⟨s', hs⟩ := dfMemEraseSectorsForSamples_some chip fuel numSamples sampLen s hresp
    (by omega) (by omega) (by omega) (planNumSectors_lt s.geom hgeom _)
  obtain ⟨hg, hb, ho, hp, _⟩ := dfMemEraseSectorsForSamples_post chip fuel numSamples sampLen
    s s' (by omega) hs
  exact ⟨s', hs, hb, ho, hp, hg⟩

theorem dfMemEraseSectorsForSamples_resets_cache_witness :
    Responsive busyAtFirst 4 ∧ Detected nearlyFull.geom ∧ 0 < 4000000000 ∧ 1 ≤ 264 ∧
    264 ≤ nearlyFull.geom.dfmem_bytes_per_page ∧
    ∃ s', dfMemEraseSectorsForSamples busyAtFirst 4 4000000000 264 nearlyFull = some s' ∧
      s'.currentBuffer = 0 ∧ s'.currentBufferOffset = 0 ∧ s'.nextPage = 0 ∧
      s'.geom = nearlyFull.geom :=
  ⟨busyAtFirst_responsive, by decide, by decide, by decide, by decide,
    dfMemEraseSectorsForSamples_resets_cache busyAtFirst 4 4000000000 264 nearlyFull
      busyAtFirst_responsive (by decide) (by decide) (by decide) (by decide)⟩

/-! ## Claim C8: nothing to erase -/

/-- Claim C8.  For every `sampLen` (0 included), every driver state, every
chip and every `fuel`, `dfMemEraseSectorsForSamples` with `numSamples = 0`
returns without any bus event (no chip select, no byte exchange, hence no
status poll and no erase): the event log and the exchange counter are
unchanged, and so are the three cache variables and the geometry.  (Only the
`LED_2` latch is set.) -/
theorem dfMemEraseSectorsForSamples_zero_samples (chip : Nat → Nat) (fuel sampLen : Nat)
    (s : Dfmem) :
    ∃ s', dfMemEraseSectorsForSamples chip fuel 0 sampLen s = some s' ∧
      eventsSince s s' = [] ∧ s'.trace = s.trace ∧ s'.clock = s.clock ∧
      s'.currentBuffer = s.currentBuffer ∧
      s'.currentBufferOffset = s.currentBufferOffset ∧
      s'.nextPage = s.nextPage ∧ s'.geom = s.geom :=
  ⟨{ s with LED_2 := 1 }, eraseSectorsForSamples_zero_eq chip fuel sampLen s,
    by simp [eventsSince], rfl, rfl, rfl, rfl, rfl, rfl⟩

/-! ## Claim C9: sync -/

/-- Claim C9.  With a chip that reports ready within `fuel` polls and
`currentBuffer` in `{0, 1}`, `dfmemSync` returns.  When
`currentBufferOffset != 0`, whatever its value, its only command is one
no-erase commit of the current buffer to `nextPage`, after which
`currentBuffer` is toggled, `currentBufferOffset` is 0 and `nextPage` is
incremented by one (a 16-bit unsigned increment: 65535 goes to 0).  When
`currentBufferOffset = 0` it issues no command and leaves the three cache
variables unchanged.  The geometry is unchanged in both cases. -/
theorem dfmemSync_flushes_iff_nonempty (chip : Nat → Nat) (fuel : Nat) (s : Dfmem)
    (hresp : Responsive chip fuel) (hbuf : s.currentBuffer ≤ 1) :
    ∃ s', dfmemSync chip fuel s = some s' ∧ s'.geom = s.geom ∧
      (s.currentBufferOffset ≠ 0 →
        commands (eventsSince s s') = [commitFrame s.geom s.nextPage s.currentBuffer] ∧
        s'.currentBuffer = 1 - s.currentBuffer ∧
        s'.currentBufferOffset = 0 ∧
        s'.nextPage = (s.nextPage + 1) % 65536) ∧
      (s.currentBufferOffset = 0 →
        commands (eventsSince s s') = [] ∧
        s'.currentBuffer = s.currentBuffer ∧
        s'.currentBufferOffset = s.currentBufferOffset ∧
        s'.nextPage = s.nextPage) := by
  obtain ⟨s', hs⟩ := dfmemSync_some chip fuel s hresp
  obtain ⟨hg, _, ho, hne, he⟩ := dfmemSync_post chip fuel s s' hs
  have hmod : s.currentBuffer % 256 = s.currentBuffer := Nat.mod_eq_of_lt (by omega)
  refine ⟨s', hs, hg, fun h => ?_, fun h => ?_⟩
  · obtain ⟨hb, hn, hi⟩ := hne h
    rw [hmod] at hi
    rw [toggle_of_le_one hbuf] at hb
    exact ⟨hi.commands_eventsSince, hb, ho, hn⟩
  · obtain ⟨hb, hn, hi⟩ := he h
    exact ⟨hi.commands_eventsSince, hb, by rw [ho, h], hn⟩

theorem dfmemSync_flushes_iff_nonempty_witness :
    (Responsive alwaysReady 1 ∧ nearlyFull.currentBuffer ≤ 1 ∧
      nearlyFull.currentBufferOffset ≠ 0 ∧
      ∃ s', dfmemSync alwaysReady 1 nearlyFull = some s' ∧
        commands (eventsSince nearlyFull s') =
          [commitFrame nearlyFull.geom nearlyFull.nextPage nearlyFull.currentBuffer] ∧
        s'.currentBuffer = 1 - nearlyFull.currentBuffer ∧
        s'.currentBufferOffset = 0 ∧
        s'.nextPage = (nearlyFull.nextPage + 1) % 65536) ∧
    (Responsive alwaysReady 1 ∧ (powerUp FLASH_8MBIT).currentBuffer ≤ 1 ∧
      (powerUp FLASH_8MBIT).currentBufferOffset = 0 ∧
      ∃ s', dfmemSync alwaysReady 1 (powerUp FLASH_8MBIT) = some s' ∧
        commands (eventsSince (powerUp FLASH_8MBIT) s') = [] ∧
        s'.currentBuffer = (powerUp FLASH_8MBIT).currentBuffer ∧
        s'.currentBufferOffset = (powerUp FLASH_8MBIT).currentBufferOffset ∧
        s'.nextPage = (powerUp FLASH_8MBIT).nextPage) := by
  refine ⟨⟨alwaysReady_responsive, by decide, by decide, ?_⟩,
    ⟨alwaysReady_responsive, by decide, by decide, ?_⟩⟩
  · obtain ⟨s', hs, _, h1, _⟩ := dfmemSync_flushes_iff_nonempty alwaysReady 1 nearlyFull
      alwaysReady_responsive (by decide)
    exact ⟨s', hs, h1 (by decide)⟩
  · obtain ⟨s', hs, _, _, h2⟩ := dfmemSync_flushes_iff_nonempty alwaysReady 1
      (powerUp FLASH_8MBIT) alwaysReady_responsive (by decide)
    exact ⟨s', hs, h2 (by decide)⟩

/-! ## Claim C10: sync twice -/

/-- Claim C10.  With a chip that reports ready within `fuel` polls, two
`dfmemSync` calls in a row both return, the second one leaves `currentBuffer`,
`currentBufferOffset`, `nextPage` and the geometry as the first one left them,
and the second one issues no command (hence no commit). -/
theorem dfmemSync_twice (chip : Nat → Nat) (fuel : Nat) (s : Dfmem)
    (hresp : Responsive chip fuel) :
    ∃ s1 s2, dfmemSync chip fuel s = some s1 ∧ dfmemSync chip fuel s1 = some s2 ∧
      s2.currentBuffer = s1.currentBuffer ∧
      s2.currentBufferOffset = s1.currentBufferOffset ∧
      s2.nextPage = s1.nextPage ∧
      s2.geom = s1.geom ∧
      commands (eventsSince s1 s2) = [] := by
  obtain ⟨s1, hs1⟩ := dfmemSync_some chip fuel s hresp
  obtain ⟨s2, hs2⟩ := dfmemSync_some chip fuel s1 hresp
  obtain ⟨_, _, ho1, _, _⟩ := dfmemSync_post chip fuel s s1 hs1
  obtain ⟨hg2, _, ho2, _, he⟩ := dfmemSync_post chip fuel s1 s2 hs2
  obtain ⟨hb, hn, hi⟩ := he ho1
  exact ⟨s1, s2, hs1, hs2, hb, by rw [ho2, ho1], hn, hg2, hi.commands_eventsSince⟩

theorem dfmemSync_twice_witness :
    Responsive busyAtFirst 4 ∧
    ∃ s1 s2, dfmemSync busyAtFirst 4 nearlyFull = some s1 ∧
      dfmemSync busyAtFirst 4 s1 = some s2 ∧
      s2.currentBuffer = s1.currentBuffer ∧
      s2.currentBufferOffset = s1.currentBufferOffset ∧
      s2.nextPage = s1.nextPage ∧
      s2.geom = s1.geom ∧
      commands (eventsSince s1 s2) = [] :=
  ⟨busyAtFirst_responsive, dfmemSync_twice busyAtFirst 4 nearlyFull busyAtFirst_responsive⟩

/-! ## Claim C11: the page and offset of a sample -/

/-- Claim C11.  For each of the four geometries, `1 ≤ sampLen ≤
dfmem_bytes_per_page`, a 32-bit `sampNum` and `spp = dfmem_bytes_per_page /
sampLen` with `sampNum / spp` below `2 ^ 16`: `dfmemReadSample` is the one call
`dfmemRead (sampNum / spp) ((sampNum % spp) * sampLen) sampLen`, with the
16-bit and 32-bit truncations of the source in place, also when the 16-bit
product `pagenum * samplesPerPage` wraps. -/
theorem dfmemReadSample_delegates (chip : Nat → Nat) (fuel sampNum sampLen : Nat) (s : Dfmem)
    (hgeom : Detected s.geom) (hl1 : 1 ≤ sampLen)
    (hl2 : sampLen ≤ s.geom.dfmem_bytes_per_page) (hn : sampNum < 2 ^ 32)
    (hp : sampNum / (s.geom.dfmem_bytes_per_page / sampLen) < 2 ^ 16) :
    dfmemReadSample chip fuel sampNum sampLen s =
      dfmemRead chip fuel (sampNum / (s.geom.dfmem_bytes_per_page / sampLen))
        (sampNum % (s.geom.dfmem_bytes_per_page / sampLen) * sampLen) sampLen s := by
  have hspp := samplesPerPage_pos s.geom sampLen hl1 hl2
  have hb : s.geom.dfmem_bytes_per_page / sampLen * sampLen ≤ 1056 :=
    le_trans (Nat.div_mul_le_self _ _) hgeom.cases_pps.2.1
  have h0 : sampLen ≠ 0 := by omega
  have hq : sampNum / (s.geom.dfmem_bytes_per_page / sampLen) % 65536 =
      sampNum / (s.geom.dfmem_bytes_per_page / sampLen) := Nat.mod_eq_of_lt hp
  unfold dfmemReadSample
  simp only [if_neg h0, if_neg (Nat.pos_iff_ne_zero.mp hspp), hq]
  rw [readSample_offset _ _ _ hspp hb hn]

theorem dfmemReadSample_delegates_witness :
    Detected (powerUp FLASH_8MBIT).geom ∧ 66005 / (264 / 8) * (264 / 8) = 66000 ∧
    dfmemReadSample alwaysReady 1 66005 8 (powerUp FLASH_8MBIT) =
      dfmemRead alwaysReady 1 2000 40 8 (powerUp FLASH_8MBIT) :=
  ⟨by decide, by decide,
    dfmemReadSample_delegates alwaysReady 1 66005 8 (powerUp FLASH_8MBIT) (by decide)
      (by decide) (by decide) (by decide) (by decide)⟩

/-! ## Claim C12: detection installs the row of the density code -/

/-- Claim C12.  When the density code returned by `dfmemGetChipSize` is one of
the four codes of the table, `dfmemGeometrySetup` leaves exactly the row that
the specification gives for that code in the eight geometry variables,
whatever they held before. -/
theorem dfmemGeometrySetup_installs_row (chip : Nat → Nat) (s : Dfmem) (g : Geometry)
    (h : geometryRow (dfmemGetChipSize chip s).1 = some g) :
    (dfmemGeometrySetup chip s).geom = g := by
  rw [dfmemGeometrySetup_geom, h]
  rfl

theorem dfmemGeometrySetup_installs_row_witness :
    (dfmemGetChipSize (constChip 0x26) nearlyFull).1 = 0b00110 ∧
    (dfmemGeometrySetup (constChip 0x26) nearlyFull).geom =
      { dfmem_bytes_per_page := 528, dfmem_pages_per_block := 8,
        dfmem_blocks_per_sector := 32, dfmem_pages_per_sector := 256,
        dfmem_byte_address_bits := 10, dfmem_max_sector := 16,
        dfmem_max_pages := 4096, dfmem_buffersize := 528 } ∧
    (dfmemGeometrySetup (constChip 0x25) (powerUp unsetGeometry)).geom =
      { dfmem_bytes_per_page := 264, dfmem_pages_per_block := 8,
        dfmem_blocks_per_sector := 32, dfmem_pages_per_sector := 256,
        dfmem_byte_address_bits := 9, dfmem_max_sector := 16,
        dfmem_max_pages := 4096, dfmem_buffersize := 264 } ∧
    (dfmemGeometrySetup (constChip 0x27) (powerUp unsetGeometry)).geom =
      { dfmem_bytes_per_page := 528, dfmem_pages_per_block := 8,
        dfmem_blocks_per_sector := 16, dfmem_pages_per_sector := 128,
        dfmem_byte_address_bits := 10, dfmem_max_sector := 64,
        dfmem_max_pages := 8192, dfmem_buffersize := 528 } ∧
    (dfmemGeometrySetup (constChip 0x28) (powerUp unsetGeometry)).geom =
      { dfmem_bytes_per_page := 1056, dfmem_pages_per_block := 8,
        dfmem_blocks_per_sector := 32, dfmem_pages_per_sector := 256,
        dfmem_byte_address_bits := 11, dfmem_max_sector := 32,
        dfmem_max_pages := 8192, dfmem_buffersize := 1056 } :=
  ⟨by decide,
    dfmemGeometrySetup_installs_row (constChip 0x26) nearlyFull _ (by decide),
    dfmemGeometrySetup_installs_row (constChip 0x25) (powerUp unsetGeometry) _ (by decide),
    dfmemGeometrySetup_installs_row (constChip 0x27) (powerUp unsetGeometry) _ (by decide),
    dfmemGeometrySetup_installs_row (constChip 0x28) (powerUp unsetGeometry) _ (by decide)⟩

/-! ## Claim C13: an unrecognised density code -/

/-- Claim C13.  When the density code returned by `dfmemGetChipSize` is none of
`0b00101`, `0b00110`, `0b00111`, `0b01000`, `dfmemGeometrySetup` leaves the
eight geometry variables as they were and leaves the three write-cache
variables as they were. -/
theorem dfmemGeometrySetup_unrecognised_keeps_state (chip : Nat → Nat) (s : Dfmem)
    (h8 : (dfmemGetChipSize chip s).1 ≠ DFMEM_8MBIT)
    (h16 : (dfmemGetChipSize chip s).1 ≠ DFMEM_16MBIT)
    (h32 : (dfmemGetChipSize chip s).1 ≠ DFMEM_32MBIT)
    (h64 : (dfmemGetChipSize chip s).1 ≠ DFMEM_64MBIT) :
    (dfmemGeometrySetup chip s).geom = s.geom ∧
      cacheVars (dfmemGeometrySetup chip s) = cacheVars s := by
  obtain ⟨hb, ho, hn, _, _⟩ := dfmemGeometrySetup_others chip s
  refine ⟨?_, by simp [cacheVars, hb, ho, hn]⟩
  unfold dfmemGeometrySetup
  simp only [if_neg h8, if_neg h16, if_neg h32, if_neg h64]
  exact (dfmemGetChipSize_sameVars chip s).1

theorem dfmemGeometrySetup_unrecognised_keeps_state_witness :
    (dfmemGetChipSize (constChip 0x3F) (powerUp unsetGeometry)).1 = 0b11111 ∧
    (dfmemGeometrySetup (constChip 0x3F) (powerUp unsetGeometry)).geom = unsetGeometry ∧
    cacheVars (dfmemGeometrySetup (constChip 0x3F) (powerUp unsetGeometry)) = (0, 0, 0) :=
  ⟨by decide,
    dfmemGeometrySetup_unrecognised_keeps_state (constChip 0x3F) (powerUp unsetGeometry)
      (by decide) (by decide) (by decide) (by decide)⟩

/-! ## Claim C14: the installed geometry is consistent -/

/-- Claim C14.  Whenever the density code is one of the four codes, the
geometry that `dfmemGeometrySetup` installs satisfies
`pagesPerSector = pagesPerBlock * blocksPerSector`,
`maxSector * pagesPerSector = maxPages`, `bufferSize = bytesPerPage`,
`bytesPerPage < 2 ^ byteAddressBits` and
`maxPages * 2 ^ byteAddressBits ≤ 2 ^ 24`. -/
theorem dfmemGeometrySetup_consistent (chip : Nat → Nat) (s : Dfmem)
    (h : (dfmemGetChipSize chip s).1 = DFMEM_8MBIT ∨ (dfmemGetChipSize chip s).1 = DFMEM_16MBIT ∨
      (dfmemGetChipSize chip s).1 = DFMEM_32MBIT ∨ (dfmemGetChipSize chip s).1 = DFMEM_64MBIT) :
    Consistent (dfmemGeometrySetup chip s).geom := by
  apply consistent_of_detected
  unfold dfmemGeometrySetup
  rcases h with h | h | h | h <;> simp only [h] <;>
    simp [Detected, DFMEM_8MBIT, DFMEM_16MBIT, DFMEM_32MBIT, DFMEM_64MBIT]

theorem dfmemGeometrySetup_consistent_witness :
    (dfmemGetChipSize (constChip 0x28) (powerUp unsetGeometry)).1 = DFMEM_64MBIT ∧
    Consistent (dfmemGeometrySetup (constChip 0x28) (powerUp unsetGeometry)).geom :=
  ⟨by decide,
    dfmemGeometrySetup_consistent (constChip 0x28) (powerUp unsetGeometry)
      (Or.inr (Or.inr (Or.inr (by decide))))⟩

/-! ## Claim C15: waiting for the ready flag before a write-class command -/

/-- Claim C15, as amended.  When the chip becomes ready within the fuel, every
write-class call returns and opens its own frame with its command opcode.
For the page write, the buffer-to-page commit and the page, block, sector and
chip erases, the exchanges of the call are: status polls (`0xD7`) answered
with bit 7 clear, one status poll answered with bit 7 set, then that frame.
For the buffer write the frame is the only exchange: no status poll is made. -/
theorem write_class_waits_for_ready (chip : Nat → Nat) (fuel : Nat) (call : RawCall)
    (s : Dfmem) (hr : Responsive chip fuel) (hc : isWriteClass call = true) :
    ∃ s' frame, runRaw chip fuel call s = some s' ∧
      frame.head?.map Prod.fst = some (commandOpcode call) ∧
      (if isBufferWriteCall call = true
        then exchangesFrom [] (eventsSince s s') = [frame]
        else WaitThenFrame (exchangesFrom [] (eventsSince s s')) frame) := by
  by_cases hb : isBufferWriteCall call = true
  · cases call with
    | writeBuffer data length byte buffer =>
      obtain ⟨frame, hf, hm⟩ := dfmemWriteBuffer_frame chip data length byte buffer s
      refine ⟨_, frame, rfl, head_of_map_fst hm, ?_⟩
      rw [if_pos hb]
      exact exchanges_of_oneFrame hf
    | _ => simp [isBufferWriteCall] at hb
  · obtain ⟨s', hs'⟩ := runRaw_some chip fuel call s hr
    obtain ⟨s0, frame, hw, hf, hh⟩ :=
      runRaw_waits chip fuel call s s' hc (by simpa using hb) hs'
    refine ⟨s', frame, hs', hh, ?_⟩
    rw [if_neg hb]
    exact waitThenFrame_of chip fuel s s0 s' frame hw hf

theorem write_class_waits_for_ready_witness :
    Responsive busyAtFirst 4 ∧ isWriteClass RawCall.eraseChip = true ∧
    ∃ s' frame, runRaw busyAtFirst 4 RawCall.eraseChip nearlyFull = some s' ∧
      frame.head?.map Prod.fst = some (commandOpcode RawCall.eraseChip) ∧
      (if isBufferWriteCall RawCall.eraseChip = true
        then exchangesFrom [] (eventsSince nearlyFull s') = [frame]
        else WaitThenFrame (exchangesFrom [] (eventsSince nearlyFull s')) frame) :=
  ⟨busyAtFirst_responsive, rfl,
    write_class_waits_for_ready busyAtFirst 4 RawCall.eraseChip nearlyFull
      busyAtFirst_responsive rfl⟩

/-- Claim C15 as stated fails for the buffer write: on a chip that is busy,
`dfmemWriteBuffer` makes one exchange only, which starts with the opcode
`0x84`; no status poll precedes it. -/
theorem dfmemWriteBuffer_no_status_poll :
    dfmemIsReady busyAtFirst nearlyFull = (0, (dfmemIsReady busyAtFirst nearlyFull).2) ∧
    exchangesFrom [] (eventsSince nearlyFull
        (dfmemWriteBuffer busyAtFirst countUp 2 0 1 nearlyFull)) =
      [[(0x84, 0), (0, 0), (0, 0), (0, 0), (0, 0), (1, 0)]] ∧
    ¬ ∃ frame, WaitThenFrame (exchangesFrom [] (eventsSince nearlyFull
        (dfmemWriteBuffer busyAtFirst countUp 2 0 1 nearlyFull))) frame := by
  have h : exchangesFrom [] (eventsSince nearlyFull
        (dfmemWriteBuffer busyAtFirst countUp 2 0 1 nearlyFull)) =
      [[(0x84, 0), (0, 0), (0, 0), (0, 0), (0, 0), (1, 0)]] := by decide
  refine ⟨by decide, h, ?_⟩
  rintro ⟨frame, hw⟩
  have := waitThenFrame_length hw
  rw [h] at this
  simp at this

/-! ## Claim C16: raw operations and the write-cache variables -/

/-- Claim C16, as amended.  When the chip becomes ready within the fuel, every
raw operation called directly returns and leaves `currentBuffer` and `nextPage`
as they were; it leaves `currentBufferOffset` as it was too, except
`dfmemWriteBuffer2MemoryNoErase`, which sets `currentBufferOffset` to 0. -/
theorem raw_calls_cache_effect (chip : Nat → Nat) (fuel : Nat) (call : RawCall) (s : Dfmem)
    (hr : Responsive chip fuel) :
    ∃ s', runRaw chip fuel call s = some s' ∧
      s'.currentBuffer = s.currentBuffer ∧ s'.nextPage = s.nextPage ∧
      s'.currentBufferOffset =
        (if isCommitCall call = true then 0 else s.currentBufferOffset) := by
  obtain ⟨s', hs'⟩ := runRaw_some chip fuel call s hr
  exact ⟨s', hs', runRaw_cacheVars chip fuel call s s' hs'⟩

theorem raw_calls_cache_effect_witness :
    Responsive alwaysReady 1 ∧
    ∃ s', runRaw alwaysReady 1 (RawCall.write countUp 4 7 0 1) nearlyFull = some s' ∧
      s'.currentBuffer = nearlyFull.currentBuffer ∧ s'.nextPage = nearlyFull.nextPage ∧
      s'.currentBufferOffset =
        (if isCommitCall (RawCall.write countUp 4 7 0 1) = true then 0
          else nearlyFull.currentBufferOffset) :=
  ⟨alwaysReady_responsive,
    raw_calls_cache_effect alwaysReady 1 (RawCall.write countUp 4 7 0 1) nearlyFull
      alwaysReady_responsive⟩

/-- Claim C16 as stated fails for the buffer-to-page commit: called directly
with 260 bytes held in the cache, `dfmemWriteBuffer2MemoryNoErase` leaves
`currentBufferOffset` at 0. -/
theorem commit_resets_buffer_offset :
    cacheVars nearlyFull = (0, 260, 5) ∧
    (runRaw alwaysReady 1 (RawCall.writeBuffer2MemoryNoErase 3 1) nearlyFull).map cacheVars =
      some (0, 0, 5) := by
  decide

/-! ## Claim C17: the frame of a page read -/

/-- Claim C18.  Two identification responses whose second bytes agree after
masking with `0b00011111` give the same geometry from the same prior state,
whatever the other bytes and bits 7..5 of the second byte are. -/
theorem dfmemGeometrySetup_depends_on_density_bits (chip chip' : Nat → Nat) (s : Dfmem)
    (h : (idResponse chip s).getD 1 0 &&& 0b00011111 =
      (idResponse chip' s).getD 1 0 &&& 0b00011111) :
    (dfmemGeometrySetup chip s).geom = (dfmemGeometrySetup chip' s).geom := by
  rw [idResponse_eq, idResponse_eq] at h
  simp only [List.getD_cons_succ, List.getD_cons_zero] at h
  rw [dfmemGeometrySetup_geom, dfmemGeometrySetup_geom, dfmemGetChipSize_fst,
    dfmemGetChipSize_fst, h]

theorem dfmemGeometrySetup_depends_on_density_bits_witness :
    idResponse (constChip 0x26) (powerUp unsetGeometry) = [0x26, 0x26, 0x26, 0x26] ∧
    idResponse otherVendor16Mbit (powerUp unsetGeometry) = [0x55, 0xC6, 0x55, 0x55] ∧
    (dfmemGeometrySetup (constChip 0x26) (powerUp unsetGeometry)).geom = FLASH_16MBIT ∧
    (dfmemGeometrySetup (constChip 0x26) (powerUp unsetGeometry)).geom =
      (dfmemGeometrySetup otherVendor16Mbit (powerUp unsetGeometry)).geom :=
  ⟨by decide, by decide, by decide,
    dfmemGeometrySetup_depends_on_density_bits (constChip 0x26) otherVendor16Mbit
      (powerUp unsetGeometry) (by decide)⟩

/-! ## Claim C19: what setup leaves behind -/

/-- Claim C19, as amended.  `dfmemSetup` returns nothing.  Its whole effect on
the driver variables is on the geometry: when the masked density code is one
of `0b00101`, `0b00110`, `0b00111`, `0b01000` the geometry becomes the row of
that code, otherwise it stays as it was; the write-cache variables, `MemAddr`
and the LED latch stay as they were in both cases. -/
theorem dfmemSetup_effect (chip : Nat → Nat) (s : Dfmem) :
    driverVars (dfmemSetup chip s) =
      ((geometryRow (dfmemGetChipSize chip (dfmemDeselectChip s)).1).getD s.geom,
        s.currentBuffer, s.currentBufferOffset, s.nextPage, s.MemAddr, s.LED_2) := by
  obtain ⟨h1, h2, h3, h4, h5⟩ := dfmemGeometrySetup_others chip (dfmemDeselectChip s)
  have hg := dfmemGeometrySetup_geom chip (dfmemDeselectChip s)
  simp only [driverVars, dfmemSetup, Prod.mk.injEq]
  exact ⟨hg, h1, h2, h3, h4, h5⟩

/-- Claim C19 as stated fails: a second setup against a recognised chip and
against an unrecognised chip leave the same values in every driver variable,
and the function returns nothing. -/
theorem dfmemSetup_outcome_not_reported :
    afterSetup16.geom = FLASH_16MBIT ∧
    geometryRow (dfmemGetChipSize (constChip 0x26) (dfmemDeselectChip afterSetup16)).1 =
      some FLASH_16MBIT ∧
    geometryRow (dfmemGetChipSize (constChip 0x20) (dfmemDeselectChip afterSetup16)).1 = none ∧
    driverVars (dfmemSetup (constChip 0x26) afterSetup16) =
      driverVars (dfmemSetup (constChip 0x20) afterSetup16) := by
  decide

/-! ## Claim C20: where sequential saves land -/

set_option maxRecDepth 100000 in
/-- Claim C20 at its concrete case (8 Mbit geometry, 33 saves of 8 bytes and a
sync): the save of sample 32 first commits the buffer holding samples 0..31 to
page 0, writes sample 32 at offset 0 of the other buffer, and the sync commits
that buffer to page 1 (address bytes `00 02 00`); `dfmemReadSample 32 8` reads
page 0 at offset 256 (address bytes `00 01 00`). -/
theorem sample_32_lands_on_next_page :
    (runCalls alwaysReady 1 thirtyThreeSamples (powerUp FLASH_8MBIT)).map
        (fun s' => (commands (eventsSince (powerUp FLASH_8MBIT) s')).drop 32) =
      some [[0x89, 0, 0, 0], [0x84, 0, 0, 0, 32, 32, 32, 32, 32, 32, 32, 32],
        [0x88, 0, 2, 0]] ∧
    (dfmemReadSample alwaysReady 1 32 8 (powerUp FLASH_8MBIT)).map
        (fun r => commands (eventsSince (powerUp FLASH_8MBIT) r.2)) =
      some [[0xD2, 0, 1, 0, 0, 0, 0, 0, 0, 0, 0, 0, 0, 0, 0, 0]] ∧
    addressBytes FLASH_8MBIT 1 0 = [0, 2, 0] ∧ addressBytes FLASH_8MBIT 0 256 = [0, 1, 0] := by
  refine ⟨?_, ?_, ?_, ?_⟩
  · rfl
  · rfl
  · decide
  · decide

/-! ## Claim C21: buffer pairing in the write cache -/

/-- Claim C21.  From a state with `currentBuffer` in `{0, 1}` and with a chip
that becomes ready within the fuel, every run of `dfmemSave` and `dfmemSync`
calls returns, and in its command list every buffer write names the buffer of
the next commit after it (`0x84` with `0x88`, `0x87` with `0x89`), every commit
names another buffer than the next commit, and `currentBuffer` is in `{0, 1}`
at the end of the run. -/
theorem cache_buffer_pairing (chip : Nat → Nat) (fuel : Nat) (calls : List CacheCall)
    (s : Dfmem) (hr : Responsive chip fuel) (hb : s.currentBuffer ≤ 1)
    (hc : ∀ c ∈ calls, isSaveOrSync c = true) :
    ∃ s', runCalls chip fuel calls s = some s' ∧
      BufferPaired (commands (eventsSince s s')) ∧ s'.currentBuffer ≤ 1 := by
  obtain ⟨s', hs'⟩ := runCalls_saveSync_some chip fuel calls s hr hc
  obtain ⟨C, hi, _, hb', hpair, _⟩ := runCalls_saveSync chip fuel calls s s' hc hb hs'
  refine ⟨s', hs', ?_, hb'⟩
  rw [hi.commands_eventsSince]
  exact (hpair.bufferPaired hb).1

set_option maxRecDepth 100000 in
theorem cache_buffer_pairing_witness :
    Responsive busyAtFirst 4 ∧ nearlyFull.currentBuffer ≤ 1 ∧
    (runCalls busyAtFirst 4 flushAndSyncRun nearlyFull).map
        (fun s' => (commands (eventsSince nearlyFull s')).map List.head?) =
      some [some 0x89, some 0x84, some 0x88, some 0x87, some 0x89] ∧
    ∃ s', runCalls busyAtFirst 4 flushAndSyncRun nearlyFull = some s' ∧
      BufferPaired (commands (eventsSince nearlyFull s')) ∧ s'.currentBuffer ≤ 1 :=
  ⟨busyAtFirst_responsive, by decide, by rfl,
    cache_buffer_pairing busyAtFirst 4 flushAndSyncRun nearlyFull
      busyAtFirst_responsive (by decide) (by simp [flushAndSyncRun, isSaveOrSync])⟩

/-! ## Claim C22: commits go to consecutive pages -/

/-- Claim C22.  From the reset cache state `{0, 0, 0}` and with a chip that
becomes ready within the fuel, every run of `dfmemSave` and `dfmemSync` calls
returns; when it issued fewer than `2 ^ 16` commits, `nextPage` is the number
of commits issued and the address bytes of the commits are, in order, those of
pages `0, 1, 2, ...`: the `k`-th commit goes to page `k - 1`. -/
theorem commits_consecutive_pages (chip : Nat → Nat) (fuel : Nat) (calls : List CacheCall)
    (s : Dfmem) (hr : Responsive chip fuel) (hreset : cacheVars s = (0, 0, 0))
    (hc : ∀ c ∈ calls, isSaveOrSync c = true) :
    ∃ s', runCalls chip fuel calls s = some s' ∧
      ((commands (eventsSince s s')).countP isCommit < 2 ^ 16 →
        s'.nextPage = (commands (eventsSince s s')).countP isCommit ∧
        commitAddresses (commands (eventsSince s s')) =
          (List.range ((commands (eventsSince s s')).countP isCommit)).map fun k =>
            addressBytes s.geom k 0) := by
  simp only [cacheVars, Prod.mk.injEq] at hreset
  obtain ⟨hb, _, hp⟩ := hreset
  obtain ⟨s', hs'⟩ := runCalls_saveSync_some chip fuel calls s hr hc
  obtain ⟨C, hi, _, _, _, hpages⟩ :=
    runCalls_saveSync chip fuel calls s s' hc (by omega) hs'
  obtain ⟨hnext, haddr⟩ := hpages (by omega)
  refine ⟨s', hs', ?_⟩
  rw [hi.commands_eventsSince]
  intro hlt
  have hlt' : C.countP isCommit < 65536 := hlt
  rw [hp, Nat.zero_add, Nat.mod_eq_of_lt hlt'] at hnext
  refine ⟨hnext, ?_⟩
  rw [haddr]
  apply List.map_congr_left
  intro k hk
  rw [List.mem_range] at hk
  rw [hp, Nat.zero_add, Nat.mod_eq_of_lt (by omega)]

set_option maxRecDepth 100000 in
theorem commits_consecutive_pages_witness :
    Responsive alwaysReady 1 ∧ cacheVars (powerUp FLASH_8MBIT) = (0, 0, 0) ∧
    (runCalls alwaysReady 1 saveSyncRun (powerUp FLASH_8MBIT)).map
        (fun s' => (s'.nextPage,
          commitAddresses (commands (eventsSince (powerUp FLASH_8MBIT) s')))) =
      some (3, [addressBytes FLASH_8MBIT 0 0, addressBytes FLASH_8MBIT 1 0,
        addressBytes FLASH_8MBIT 2 0]) ∧
    ∃ s', runCalls alwaysReady 1 saveSyncRun (powerUp FLASH_8MBIT) = some s' ∧
      ((commands (eventsSince (powerUp FLASH_8MBIT) s')).countP isCommit < 2 ^ 16 →
        s'.nextPage = (commands (eventsSince (powerUp FLASH_8MBIT) s')).countP isCommit ∧
        commitAddresses (commands (eventsSince (powerUp FLASH_8MBIT) s')) =
          (List.range
            ((commands (eventsSince (powerUp FLASH_8MBIT) s')).countP isCommit)).map fun k =>
            addressBytes (powerUp FLASH_8MBIT).geom k 0) :=
  ⟨alwaysReady_responsive, by decide, by rfl,
    commits_consecutive_pages alwaysReady 1 saveSyncRun (powerUp FLASH_8MBIT)
      alwaysReady_responsive (by decide) (by simp [saveSyncRun, isSaveOrSync])⟩

/-! ## Claim C23: the erase plan covers the pages needed -/

/-- Claim C23.  For a detected geometry, `numSamples > 0`,
`1 <= sampLen <= dfmem_bytes_per_page`, no 16-bit wrap-around
(`ceil(numSamples / samplesPerPage) + dfmem_pages_per_sector <= 2^16`) and a
chip that becomes ready within the fuel, `dfMemEraseSectorsForSamples` returns
and every page `p < ceil(numSamples / samplesPerPage)` lies in the pages erased
by one of its sector-erase commands, where a sector erase at page 0 erases
`[0, 8)`, at page 8 `[8, pagesPerSector)` and at page `pagesPerSector * i`
`[pagesPerSector * i, pagesPerSector * (i + 1))`. -/
theorem erase_plan_covers_needed_pages (chip : Nat → Nat) (fuel numSamples sampLen : Nat)
    (s : Dfmem) (hresp : Responsive chip fuel) (hgeom : Detected s.geom)
    (hn : 0 < numSamples) (hl1 : 1 ≤ sampLen) (hl2 : sampLen ≤ s.geom.dfmem_bytes_per_page)
    (hnowrap : ceilDiv numSamples (s.geom.dfmem_bytes_per_page / sampLen) +
      s.geom.dfmem_pages_per_sector ≤ 65536) :
    ∃ s', dfMemEraseSectorsForSamples chip fuel numSamples sampLen s = some s' ∧
      ∀ p, p < ceilDiv numSamples (s.geom.dfmem_bytes_per_page / sampLen) →
        ∃ q, sectorEraseFrame s.geom q ∈ commands (eventsSince s s') ∧
          (erasedPages s.geom q).1 ≤ p ∧ p < (erasedPages s.geom q).2 := by
  obtain ⟨s', hs', hcmds⟩ := eraseSectors_plan_commands chip fuel numSamples sampLen s hresp
    hgeom hn hl1 hl2 hnowrap
  refine ⟨s', hs', fun p hp => ?_⟩
  obtain ⟨q, hq, hlo, hhi⟩ := erasePlanPages_covers s.geom hgeom numSamples sampLen p hp
  exact ⟨q, by rw [hcmds]; exact List.mem_map_of_mem _ hq, hlo, hhi⟩

theorem erase_plan_covers_needed_pages_witness :
    Responsive busyAtFirst 4 ∧ Detected (powerUp FLASH_8MBIT).geom ∧
    ceilDiv 10000 ((powerUp FLASH_8MBIT).geom.dfmem_bytes_per_page / 8) = 304 ∧
    ∃ s', dfMemEraseSectorsForSamples busyAtFirst 4 10000 8 (powerUp FLASH_8MBIT) = some s' ∧
      ∀ p, p < ceilDiv 10000 ((powerUp FLASH_8MBIT).geom.dfmem_bytes_per_page / 8) →
        ∃ q, sectorEraseFrame (powerUp FLASH_8MBIT).geom q ∈
            commands (eventsSince (powerUp FLASH_8MBIT) s') ∧
          (erasedPages (powerUp FLASH_8MBIT).geom q).1 ≤ p ∧
          p < (erasedPages (powerUp FLASH_8MBIT).geom q).2 :=
  ⟨busyAtFirst_responsive, by decide, by decide,
    erase_plan_covers_needed_pages busyAtFirst 4 10000 8 (powerUp FLASH_8MBIT)
      busyAtFirst_responsive (by decide) (by decide) (by decide) (by decide) (by decide)⟩

/-! ## Claim C24: the last sector erase of a full chip -/

set_option maxRecDepth 100000 in
/-- Claim C24 at a concrete input: on the 8 Mbit geometry, 4096 samples of 264
bytes need 4096 pages, which is `dfmem_max_pages`; the planner computes 16
sectors and its loop `for(i=1; i <= numSectors; i++)` sends sector erases for
the pages 256, 512, ..., 4096, the last one at page 4096 (address bytes
`20 00 00`), which is not below `dfmem_max_pages`. -/
theorem erase_plan_reaches_max_pages :
    ceilDiv 4096 (FLASH_8MBIT.dfmem_bytes_per_page / 264) = 4096 ∧
    FLASH_8MBIT.dfmem_max_pages = 4096 ∧
    (dfMemEraseSectorsForSamples alwaysReady 1 4096 264 (powerUp FLASH_8MBIT)).map
        (fun s' => commands (eventsSince (powerUp FLASH_8MBIT) s')) =
      some ([0, 8, 256, 512, 768, 1024, 1280, 1536, 1792, 2048, 2304, 2560, 2816, 3072,
        3328, 3584, 3840, 4096].map (sectorEraseFrame FLASH_8MBIT)) ∧
    sectorEraseFrame FLASH_8MBIT 4096 = [0x7C, 0x20, 0x00, 0x00] := by
  refine ⟨by decide, by decide, ?_, by decide⟩
  rfl

/-! ## Claim C25: a sample read stays inside its page -/

/-- Claim C25.  For each of the four geometries, `1 ≤ sampLen ≤
dfmem_bytes_per_page` and every `sampNum`: `samplesPerPage` is at least 1 (no
division by zero), `dfmemReadSample` is the call of `dfmemRead` with its locals
`pagenum` and `byteOffset`, and `byteOffset + sampLen ≤ dfmem_bytes_per_page`,
with the 16-bit and 32-bit truncations of the source in place. -/
theorem dfmemReadSample_within_page (chip : Nat → Nat) (fuel sampNum sampLen : Nat) (s : Dfmem)
    (hgeom : Detected s.geom) (hl1 : 1 ≤ sampLen)
    (hl2 : sampLen ≤ s.geom.dfmem_bytes_per_page) :
    1 ≤ s.geom.dfmem_bytes_per_page / sampLen ∧
    dfmemReadSample chip fuel sampNum sampLen s =
      dfmemRead chip fuel (readSamplePagenum s.geom sampNum sampLen)
        (readSampleByteOffset s.geom sampNum sampLen) sampLen s ∧
    readSampleByteOffset s.geom sampNum sampLen + sampLen ≤ s.geom.dfmem_bytes_per_page := by
  have hspp := samplesPerPage_pos s.geom sampLen hl1 hl2
  have h0 : sampLen ≠ 0 := by omega
  refine ⟨hspp, ?_, ?_⟩
  · unfold dfmemReadSample
    simp only [if_neg h0, if_neg (Nat.pos_iff_ne_zero.mp hspp)]
    rfl
  · rw [readSampleByteOffset_eq s.geom hgeom sampNum sampLen hl1 hl2]
    have hr : sampNum % (s.geom.dfmem_bytes_per_page / sampLen) + 1 ≤
        s.geom.dfmem_bytes_per_page / sampLen := Nat.mod_lt _ hspp
    calc sampNum % (s.geom.dfmem_bytes_per_page / sampLen) * sampLen + sampLen
        = (sampNum % (s.geom.dfmem_bytes_per_page / sampLen) + 1) * sampLen := by ring
      _ ≤ s.geom.dfmem_bytes_per_page / sampLen * sampLen := Nat.mul_le_mul_right _ hr
      _ ≤ s.geom.dfmem_bytes_per_page := Nat.div_mul_le_self _ _

theorem dfmemReadSample_within_page_witness :
    Detected (powerUp FLASH_8MBIT).geom ∧
    readSamplePagenum FLASH_8MBIT 4000000000 8 = 36057 ∧
    readSampleByteOffset FLASH_8MBIT 4000000000 8 = 56 ∧
    1 ≤ (powerUp FLASH_8MBIT).geom.dfmem_bytes_per_page / 8 ∧
    dfmemReadSample alwaysReady 1 4000000000 8 (powerUp FLASH_8MBIT) =
      dfmemRead alwaysReady 1 (readSamplePagenum (powerUp FLASH_8MBIT).geom 4000000000 8)
        (readSampleByteOffset (powerUp FLASH_8MBIT).geom 4000000000 8) 8
        (powerUp FLASH_8MBIT) ∧
    readSampleByteOffset (powerUp FLASH_8MBIT).geom 4000000000 8 + 8 ≤
      (powerUp FLASH_8MBIT).geom.dfmem_bytes_per_page :=
  ⟨by decide, by decide, by decide,
    dfmemReadSample_within_page alwaysReady 1 4000000000 8 (powerUp FLASH_8MBIT) (by decide)
      (by decide) (by decide)⟩

end Octoroach
